import Mathlib

/-!
# Fading GUI controls and the object-view control

A shallow embedding of `guiFadingBitmapCtrl.cpp`, `guiFadingButtonCtrl.cpp`,
`guiFadingBitmapButtonCtrl.cpp` and `guiObjectView.cpp`.

Conventions.
* `U32` / `S32` values are naturals / integers; wrap-around is written out where the
  source arithmetic can wrap.
* A finite `F32` value is modelled by the rational number it denotes. Every arithmetic
  operation rounds its exact result to binary32 (`F32.round`: 24-bit significand, round to
  nearest, ties to even, gradual underflow). Overflow to infinity and NaN are outside the
  model; the fade computations only meet magnitudes between `2 ^ (-32)` and `2 ^ 40`.
* Every call of `Platform::getRealMilliseconds()` / `getVirtualMilliseconds()` is an
  explicit argument carrying the value the clock returned.
-/

/-! ## Definitions -/

/-! ### Single-precision arithmetic -/

/-- Round to the nearest integer, ties to the even neighbour. -/
def roundHalfEven (x : ℚ) : ℤ :=
  if x - ⌊x⌋ < 1 / 2 then ⌊x⌋
  else if 1 / 2 < x - ⌊x⌋ then ⌊x⌋ + 1
  else if ⌊x⌋ % 2 = 0 then ⌊x⌋ else ⌊x⌋ + 1

namespace F32

/-- Binade exponent of `q`, clamped below at the smallest normal exponent. -/
def expo (q : ℚ) : ℤ := max (Int.log 2 |q|) (-126)

/-- Spacing of the binary32 grid around `q`. -/
def ulp (q : ℚ) : ℚ := (2 : ℚ) ^ (expo q - 23)

/-- Rounding of a rational onto the binary32 grid, to nearest, ties to even. -/
def round (q : ℚ) : ℚ := roundHalfEven (q / ulp q) * ulp q

/-- Conversion `F32(n)` of an unsigned 32-bit integer. -/
def ofU32 (n : ℕ) : ℚ := round (n : ℚ)

/-- Single-precision product. -/
def mul (a b : ℚ) : ℚ := round (a * b)

/-- Single-precision quotient. -/
def div (a b : ℚ) : ℚ := round (a / b)

/-- Single-precision difference. -/
def sub (a b : ℚ) : ℚ := round (a - b)

/-- Single-precision sum. -/
def add (a b : ℚ) : ℚ := round (a + b)

/-- Conversion to `U32`: truncation toward zero, reduced modulo `2 ^ 32`
(C++ leaves the conversion undefined outside `[0, 2 ^ 32)`). -/
def toU32 (q : ℚ) : ℕ := Int.toNat ((if 0 ≤ q then ⌊q⌋ else ⌈q⌉) % 2 ^ 32)

end F32

/-- Unsigned 32-bit subtraction, as in `U32 elapsed = now - wakeTime`. -/
def U32.sub (a b : ℕ) : ℕ := (a % 2 ^ 32 + (2 ^ 32 - b % 2 ^ 32)) % 2 ^ 32

/-- Value of an `S32` converted to `U32`, as happens when it is compared with a `U32`. -/
def S32.toU32 (i : ℤ) : ℕ := Int.toNat (i % 2 ^ 32)

/-! ### The fading controls -/

/-- Modelled from the spec: the fade modes `idle`, `fadingIn`, `fadingOut` that
`gui/fading/guiFadingControls.h` declares (the header is not among the sources);
the spec gives `mode ∈ {Idle, FadingIn, FadingOut}`. -/
inductive FadeMode where
  | idle
  | fadingIn
  | fadingOut
  deriving DecidableEq, Repr

/-- Fade fields that each of the three fading controls declares:
`wakeTime`, `fadeinTime`, `fadeoutTime`, `mAlpha` (all `U32`), `mMode` and `fadeIn_onWake`.
(`GuiFadingButtonCtrl::mFill` only selects what is drawn and is left out.) -/
structure FadeState where
  wakeTime : ℕ
  fadeinTime : ℕ
  fadeoutTime : ℕ
  mAlpha : ℕ
  mMode : FadeMode
  fadeIn_onWake : Bool
  deriving DecidableEq, Repr

namespace GuiFadingBitmapCtrl

/-- Constructor `GuiFadingBitmapCtrl()`. -/
def new : FadeState :=
  { wakeTime := 0, fadeinTime := 1000, fadeoutTime := 1000,
    mAlpha := 255, mMode := FadeMode.idle, fadeIn_onWake := false }

/-- Method `setMode(mode)`; `now` is the value of `Platform::getRealMilliseconds()`. -/
def setMode (s : FadeState) (mode : FadeMode) (now : ℕ) : FadeState :=
  { s with wakeTime := now, mMode := mode }

/-- Method `fadeIn()`. -/
def fadeIn (s : FadeState) (now : ℕ) : FadeState :=
  if s.mMode = FadeMode.idle then setMode s FadeMode.fadingIn now else s

/-- Method `fadeOut()`. -/
def fadeOut (s : FadeState) (now : ℕ) : FadeState :=
  if s.mMode = FadeMode.idle then setMode s FadeMode.fadingOut now else s

/-- Method `onWake()`; `parentAwake` is the result of `Parent::onWake()`. -/
def onWake (s : FadeState) (parentAwake : Bool) (now : ℕ) : Bool × FadeState :=
  if !parentAwake then (false, s)
  else if s.fadeIn_onWake then (true, fadeIn s now)
  else (true, { s with wakeTime := now })

/-- Fade update at the head of `onRender`: `now` is the clock value read for `elapsed`,
`now2` the value read by `setMode` when the fade ends. Drawing is not modelled. -/
def onRender (s : FadeState) (now now2 : ℕ) : FadeState :=
  let elapsed := U32.sub now s.wakeTime
  if s.mMode = FadeMode.fadingIn then
    if elapsed < s.fadeinTime then
      { s with mAlpha :=
          F32.toU32 (F32.div (F32.mul 255 (F32.ofU32 elapsed)) (F32.ofU32 s.fadeinTime)) }
    else
      setMode { s with mAlpha := 255 } FadeMode.idle now2
  else if s.mMode = FadeMode.fadingOut then
    if elapsed < s.fadeoutTime then
      { s with mAlpha :=
          F32.toU32 (F32.sub 255
            (F32.mul 255 (F32.div (F32.ofU32 elapsed) (F32.ofU32 s.fadeoutTime)))) }
    else
      setMode { s with mAlpha := 0 } FadeMode.idle now2
  else s

end GuiFadingBitmapCtrl

namespace GuiFadingButtonCtrl

/-- Constructor `GuiFadingButtonCtrl()` (fade fields). -/
def new : FadeState :=
  { wakeTime := 0, fadeinTime := 1000, fadeoutTime := 1000,
    mAlpha := 255, mMode := FadeMode.idle, fadeIn_onWake := false }

/-- Method `setMode(mode)`. -/
def setMode (s : FadeState) (mode : FadeMode) (now : ℕ) : FadeState :=
  { s with wakeTime := now, mMode := mode }

/-- Method `fadeIn()`. -/
def fadeIn (s : FadeState) (now : ℕ) : FadeState :=
  if s.mMode = FadeMode.idle then setMode s FadeMode.fadingIn now else s

/-- Method `fadeOut()`. -/
def fadeOut (s : FadeState) (now : ℕ) : FadeState :=
  if s.mMode = FadeMode.idle then setMode s FadeMode.fadingOut now else s

/-- Method `onWake()`. -/
def onWake (s : FadeState) (parentAwake : Bool) (now : ℕ) : Bool × FadeState :=
  if !parentAwake then (false, s)
  else if s.fadeIn_onWake then (true, fadeIn s now)
  else (true, { s with wakeTime := now })

/-- Fade update at the head of `onRender`. -/
def onRender (s : FadeState) (now now2 : ℕ) : FadeState :=
  let elapsed := U32.sub now s.wakeTime
  if s.mMode = FadeMode.fadingIn then
    if elapsed < s.fadeinTime then
      { s with mAlpha :=
          F32.toU32 (F32.div (F32.mul 255 (F32.ofU32 elapsed)) (F32.ofU32 s.fadeinTime)) }
    else
      setMode { s with mAlpha := 255 } FadeMode.idle now2
  else if s.mMode = FadeMode.fadingOut then
    if elapsed < s.fadeoutTime then
      { s with mAlpha :=
          F32.toU32 (F32.sub 255
            (F32.mul 255 (F32.div (F32.ofU32 elapsed) (F32.ofU32 s.fadeoutTime)))) }
    else
      setMode { s with mAlpha := 0 } FadeMode.idle now2
  else s

end GuiFadingButtonCtrl

namespace GuiFadingBitmapButtonCtrl

/-- Constructor `GuiFadingBitmapButtonCtrl()`. -/
def new : FadeState :=
  { wakeTime := 0, fadeinTime := 1000, fadeoutTime := 1000,
    mAlpha := 255, mMode := FadeMode.idle, fadeIn_onWake := false }

/-- Method `setMode(mode)`. -/
def setMode (s : FadeState) (mode : FadeMode) (now : ℕ) : FadeState :=
  { s with wakeTime := now, mMode := mode }

/-- Method `fadeIn()`. -/
def fadeIn (s : FadeState) (now : ℕ) : FadeState :=
  if s.mMode = FadeMode.idle then setMode s FadeMode.fadingIn now else s

/-- Method `fadeOut()`. -/
def fadeOut (s : FadeState) (now : ℕ) : FadeState :=
  if s.mMode = FadeMode.idle then setMode s FadeMode.fadingOut now else s

/-- Method `onWake()`. -/
def onWake (s : FadeState) (parentAwake : Bool) (now : ℕ) : Bool × FadeState :=
  if !parentAwake then (false, s)
  else if s.fadeIn_onWake then (true, fadeIn s now)
  else (true, { s with wakeTime := now })

/-- Fade update at the head of `renderButton`. -/
def renderButton (s : FadeState) (now now2 : ℕ) : FadeState :=
  let elapsed := U32.sub now s.wakeTime
  if s.mMode = FadeMode.fadingIn then
    if elapsed < s.fadeinTime then
      { s with mAlpha :=
          F32.toU32 (F32.div (F32.mul 255 (F32.ofU32 elapsed)) (F32.ofU32 s.fadeinTime)) }
    else
      setMode { s with mAlpha := 255 } FadeMode.idle now2
  else if s.mMode = FadeMode.fadingOut then
    if elapsed < s.fadeoutTime then
      { s with mAlpha :=
          F32.toU32 (F32.sub 255
            (F32.mul 255 (F32.div (F32.ofU32 elapsed) (F32.ofU32 s.fadeoutTime)))) }
    else
      setMode { s with mAlpha := 0 } FadeMode.idle now2
  else s

/-- Method `onRender`: `texture` tells whether `getTextureForCurrentState()` gave a
texture; without one the parent class renders and the fade fields are not touched. -/
def onRender (s : FadeState) (texture : Bool) (now now2 : ℕ) : FadeState :=
  if texture then renderButton s now now2 else s

end GuiFadingBitmapButtonCtrl

/-- Run a sequence of render ticks, each given by its two clock readings. -/
def renderTicks (step : FadeState → ℕ → ℕ → FadeState) (s : FadeState) :
    List (ℕ × ℕ) → FadeState
  | [] => s
  | t :: ts => renderTicks step (step s t.1 t.2) ts

/-- Number of ticks of a run that take the mode from a fade into `idle`. -/
def idleEntries (step : FadeState → ℕ → ℕ → FadeState) (s : FadeState) :
    List (ℕ × ℕ) → ℕ
  | [] => 0
  | t :: ts =>
    (if s.mMode ≠ FadeMode.idle ∧ (step s t.1 t.2).mMode = FadeMode.idle then 1 else 0)
      + idleEntries step (step s t.1 t.2) ts

/-- The calls a fading control receives. -/
inductive FadeCall where
  | fadeIn (now : ℕ)
  | fadeOut (now : ℕ)
  | onWake (parentAwake : Bool) (now : ℕ)
  | onRender (texture : Bool) (now now2 : ℕ)

/-- Effect of one call on a `GuiFadingBitmapCtrl`. -/
def GuiFadingBitmapCtrl.call (s : FadeState) : FadeCall → FadeState
  | FadeCall.fadeIn now => GuiFadingBitmapCtrl.fadeIn s now
  | FadeCall.fadeOut now => GuiFadingBitmapCtrl.fadeOut s now
  | FadeCall.onWake p now => (GuiFadingBitmapCtrl.onWake s p now).2
  | FadeCall.onRender _ now now2 => GuiFadingBitmapCtrl.onRender s now now2

/-- Effect of one call on a `GuiFadingButtonCtrl`. -/
def GuiFadingButtonCtrl.call (s : FadeState) : FadeCall → FadeState
  | FadeCall.fadeIn now => GuiFadingButtonCtrl.fadeIn s now
  | FadeCall.fadeOut now => GuiFadingButtonCtrl.fadeOut s now
  | FadeCall.onWake p now => (GuiFadingButtonCtrl.onWake s p now).2
  | FadeCall.onRender _ now now2 => GuiFadingButtonCtrl.onRender s now now2

/-- Effect of one call on a `GuiFadingBitmapButtonCtrl`. -/
def GuiFadingBitmapButtonCtrl.call (s : FadeState) : FadeCall → FadeState
  | FadeCall.fadeIn now => GuiFadingBitmapButtonCtrl.fadeIn s now
  | FadeCall.fadeOut now => GuiFadingBitmapButtonCtrl.fadeOut s now
  | FadeCall.onWake p now => (GuiFadingBitmapButtonCtrl.onWake s p now).2
  | FadeCall.onRender texture now now2 => GuiFadingBitmapButtonCtrl.onRender s texture now now2

/-- The operations of one fading control: constructor, `fadeIn`, `fadeOut`, `onWake`,
the fade update of a render tick, and the effect of any call. -/
structure FadeWidget where
  new : FadeState
  fadeIn : FadeState → ℕ → FadeState
  fadeOut : FadeState → ℕ → FadeState
  onWake : FadeState → Bool → ℕ → Bool × FadeState
  render : FadeState → ℕ → ℕ → FadeState
  call : FadeState → FadeCall → FadeState

/-- Operations of `GuiFadingBitmapCtrl`; the fade update is in `onRender`. -/
def GuiFadingBitmapCtrl.widget : FadeWidget :=
  { new := GuiFadingBitmapCtrl.new, fadeIn := GuiFadingBitmapCtrl.fadeIn,
    fadeOut := GuiFadingBitmapCtrl.fadeOut, onWake := GuiFadingBitmapCtrl.onWake,
    render := GuiFadingBitmapCtrl.onRender, call := GuiFadingBitmapCtrl.call }

/-- Operations of `GuiFadingButtonCtrl`; the fade update is in `onRender`. -/
def GuiFadingButtonCtrl.widget : FadeWidget :=
  { new := GuiFadingButtonCtrl.new, fadeIn := GuiFadingButtonCtrl.fadeIn,
    fadeOut := GuiFadingButtonCtrl.fadeOut, onWake := GuiFadingButtonCtrl.onWake,
    render := GuiFadingButtonCtrl.onRender, call := GuiFadingButtonCtrl.call }

/-- Operations of `GuiFadingBitmapButtonCtrl`; the fade update is in `renderButton`. -/
def GuiFadingBitmapButtonCtrl.widget : FadeWidget :=
  { new := GuiFadingBitmapButtonCtrl.new, fadeIn := GuiFadingBitmapButtonCtrl.fadeIn,
    fadeOut := GuiFadingBitmapButtonCtrl.fadeOut, onWake := GuiFadingBitmapButtonCtrl.onWake,
    render := GuiFadingBitmapButtonCtrl.renderButton,
    call := GuiFadingBitmapButtonCtrl.call }

/-- A freshly constructed control whose persistent fields `fadeinTime`, `fadeoutTime` and
`fadeInOnWake` have been configured. -/
def FadeWidget.configured (w : FadeWidget) (fadeinTime fadeoutTime : ℕ)
    (fadeInOnWake : Bool) : FadeState :=
  { w.new with fadeinTime := fadeinTime, fadeoutTime := fadeoutTime, fadeIn_onWake := fadeInOnWake }

/-- The three fading controls. -/
def fadeWidgets : List FadeWidget :=
  [GuiFadingBitmapCtrl.widget, GuiFadingButtonCtrl.widget, GuiFadingBitmapButtonCtrl.widget]

/-! ### Engine types used by the object view -/

/-- Three floats: `Point3F`, also used for `EulerF`. -/
structure Point3F where
  x : ℚ
  y : ℚ
  z : ℚ
  deriving DecidableEq

/-- Two integers: `Point2I`. -/
structure Point2I where
  x : ℤ
  y : ℤ
  deriving DecidableEq

/-- Four floats: `ColorF`. -/
structure ColorF where
  red : ℚ
  green : ℚ
  blue : ℚ
  alpha : ℚ
  deriving DecidableEq

/-- A 4x4 matrix `MatrixF`, indexed row then column. -/
abbrev MatrixF : Type := Matrix (Fin 4) (Fin 4) ℚ

/-- Result of `MatrixF::identity()`. -/
def MatrixF.identity : MatrixF := 1

/-- The point read by `getColumn( 3, &p )`. -/
def MatrixF.getColumn3 (m : MatrixF) : Point3F := ⟨m 0 3, m 1 3, m 2 3⟩

/-- Effect of `setColumn( 3, p )`. -/
def MatrixF.setColumn3 (m : MatrixF) (p : Point3F) : MatrixF :=
  fun i j => if j = 3 then (if i = 0 then p.x else if i = 1 then p.y
    else if i = 2 then p.z else m i j) else m i j

/-- Modelled from the spec: `mClampF( val, low, high )` of the engine math library (not
among the sources), which clamps `val` to the range `[low, high]`; here as the engine
writes it, `getMax( getMin( val, high ), low )`. -/
def mClampF (val low high : ℚ) : ℚ := max (min val high) low

/-- Modelled from the spec: the engine's `TSShape` resource (not among the sources),
reduced to the queries the object view makes of it: the sizes of `objects`, `nodes` and
`sequences`, the name lookups (returning `-1` when the name is absent), the world
transform of a node, and the bounding `center` and `radius`. -/
structure TSShape where
  objectsSize : ℕ
  nodesSize : ℕ
  sequencesSize : ℕ
  findObject : String → ℤ
  findNode : String → ℤ
  findSequence : String → ℤ
  getNodeWorldTransform : ℤ → MatrixF
  center : Point3F
  radius : ℚ

/-- An animation thread of a shape instance: the sequence it plays and its position. -/
structure TSThread where
  sequence : ℤ
  pos : ℚ
  deriving DecidableEq

/-- Modelled from the spec: the engine's `TSShapeInstance` (not among the sources),
reduced to what the object view changes in it: the per-mesh force-hidden flags, the
animation threads, and the `reSkin( newSkin, oldSkin )` requests it received, in order. -/
structure TSShapeInstance where
  shape : TSShape
  meshForceHidden : List Bool
  threads : List TSThread
  reskins : List (String × String)

namespace TSShapeInstance

/-- Result of `new TSShapeInstance( model, true )`. -/
def new (shape : TSShape) : TSShapeInstance :=
  { shape := shape, meshForceHidden := List.replicate shape.objectsSize false,
    threads := [], reskins := [] }

/-- Method `setMeshForceHidden( meshIndex, hidden )`. -/
def setMeshForceHidden (m : TSShapeInstance) (meshIndex : ℕ) (hidden : Bool) :
    TSShapeInstance :=
  { m with meshForceHidden := m.meshForceHidden.set meshIndex hidden }

/-- Method `reSkin( newSkin, oldSkin )`. -/
def reSkin (m : TSShapeInstance) (newSkin oldSkin : String) : TSShapeInstance :=
  { m with reskins := m.reskins ++ [(newSkin, oldSkin)] }

/-- Method `addThread()`: the instance with the new thread, and the handle of that thread. -/
def addThread (m : TSShapeInstance) : TSShapeInstance × ℕ :=
  ({ m with threads := m.threads ++ [{ sequence := -1, pos := 0 }] }, m.threads.length)

/-- Method `setSequence( thread, seq, pos )`. -/
def setSequence (m : TSShapeInstance) (thread : ℕ) (seq : ℤ) (pos : ℚ) : TSShapeInstance :=
  { m with threads := m.threads.set thread { sequence := seq, pos := pos } }

end TSShapeInstance

/-- Modelled from the spec: the engine's `BitVector` (not among the sources) as the list
of its bits. -/
abbrev BitVector : Type := List Bool

namespace BitVector

/-- Method `getSize()`. -/
def getSize (b : BitVector) : ℕ := List.length b

/-- Method `setSize( n )`: bits kept up to the new size, further bits unset. -/
def setSize (b : BitVector) (n : ℕ) : BitVector :=
  List.take n b ++ List.replicate (n - List.length b) false

/-- Method `clear()`: every bit unset. -/
def clear (b : BitVector) : BitVector := List.replicate (List.length b) false

/-- Method `set()`: every bit set. -/
def set (b : BitVector) : BitVector := List.replicate (List.length b) true

/-- Method `set( i )`. -/
def setBit (b : BitVector) (i : ℕ) : BitVector := List.set b i true

/-- Method `clear( i )`. -/
def clearBit (b : BitVector) (i : ℕ) : BitVector := List.set b i false

/-- Method `test( i )`. -/
def test (b : BitVector) (i : ℕ) : Bool := List.getD b i false

end BitVector

/-- Modelled from the spec: the engine's `NetStringHandle` (not among the sources):
null, made from a string, or made from a numeric tag. -/
inductive NetStringHandle where
  | null
  | ofString (s : String)
  | ofTag (tag : ℕ)
  deriving DecidableEq

/-- Engine services the object view calls and the sources do not contain: the resource
loader `ResourceManager::get().load`, `MatrixF::inverse`, `String::split` with the
delimiter `";"`, and the net string table behind `NetStringHandle::getString`. -/
structure Engine where
  load : String → Option TSShape
  inverse : MatrixF → MatrixF
  split : String → List String
  netString : ℕ → String

/-- Method `NetStringHandle::isValidString()`. -/
def NetStringHandle.isValidString : NetStringHandle → Bool
  | NetStringHandle.null => false
  | NetStringHandle.ofString _ => true
  | NetStringHandle.ofTag tag => tag != 0

/-- Method `NetStringHandle::getString()`. -/
def NetStringHandle.getString (E : Engine) : NetStringHandle → String
  | NetStringHandle.null => ""
  | NetStringHandle.ofString s => s
  | NetStringHandle.ofTag tag => E.netString tag

/-- The light created by `LIGHTMGR->createLightInfo()`, with the three settings made. -/
structure LightInfo where
  color : ColorF
  ambient : ColorF
  direction : Point3F
  deriving DecidableEq

/-- Values of `mMouseState`. -/
inductive MouseState where
  | None
  | Rotating
  | Zooming
  deriving DecidableEq

/-! ### The object view -/

/-- Fields of `GuiObjectView`. A null pointer is `none`; `mRunThread` is the handle of a
thread of `mModel`. -/
structure GuiObjectView where
  mMaxOrbitDist : ℚ
  mMinOrbitDist : ℚ
  mOrbitDist : ℚ
  mMouseState : MouseState
  mModel : Option TSShapeInstance
  mMountedModel : Option TSShapeInstance
  mLastMousePoint : Point2I
  mLastRenderTime : ℤ
  mRunThread : Option ℕ
  mLight : Option LightInfo
  mAnimationSeq : ℤ
  mAnimationSeqName : String
  mMountNodeName : String
  mMountNode : ℤ
  mBaseNode : ℤ
  mEyeNode : ℤ
  mUseNodes : Bool
  mCameraSpeed : ℚ
  mCameraRotation : Point3F
  mLightColor : ColorF
  mLightAmbient : ColorF
  mLightDirection : Point3F
  mCameraMatrix : MatrixF
  mCameraRot : Point3F
  mCameraPos : Point3F
  mOrbitPos : Point3F
  mReflectPriority : ℚ
  mModelName : String
  mMountedModelName : String
  mMountSkinName : String
  mSkinNameHandle : NetStringHandle
  mAppliedSkinName : String
  mMeshHidden : BitVector
  mMountTransform : MatrixF
  mHomePos : Point3F
  mHomeZ : ℚ

namespace GuiObjectView

/-- Constructor `GuiObjectView()`. The constructor leaves `mMountTransform`, `mHomePos`
and `mHomeZ` unset; their initial contents are the three arguments. -/
def new (mMountTransform : MatrixF) (mHomePos : Point3F) (mHomeZ : ℚ) : GuiObjectView :=
  { mMaxOrbitDist := 5
    mMinOrbitDist := 1
    mOrbitDist := 5
    mMouseState := MouseState.None
    mModel := none
    mMountedModel := none
    mLastMousePoint := ⟨0, 0⟩
    mLastRenderTime := 0
    mRunThread := none
    mLight := none
    mAnimationSeq := -1
    mAnimationSeqName := ""
    mMountNodeName := "mount0"
    mMountNode := -1
    mBaseNode := -1
    mEyeNode := -1
    mUseNodes := false
    mCameraSpeed := F32.round (1 / 100)
    mCameraRotation := ⟨0, 0, 0⟩
    mLightColor := ⟨1, 1, 1, 1⟩
    mLightAmbient := ⟨F32.round (1 / 2), F32.round (1 / 2), F32.round (1 / 2), 1⟩
    mLightDirection := ⟨0, F32.round (707 / 1000), F32.round (-707 / 1000)⟩
    mCameraMatrix := MatrixF.setColumn3 MatrixF.identity ⟨0, 0, 0⟩
    mCameraRot := ⟨0, 0, 0⟩
    mCameraPos := ⟨0, 0, 0⟩
    mOrbitPos := ⟨0, 0, 0⟩
    mReflectPriority := 0
    mModelName := ""
    mMountedModelName := ""
    mMountSkinName := ""
    mSkinNameHandle := NetStringHandle.null
    mAppliedSkinName := ""
    mMeshHidden := []
    mMountTransform := mMountTransform
    mHomePos := mHomePos
    mHomeZ := mHomeZ }

/-- Method `setMeshHidden( S32 meshIndex, bool forceHidden )`. `getSize()` is a `U32`, so
the range test compares `meshIndex` as an unsigned number. -/
def setMeshHidden (s : GuiObjectView) (meshIndex : ℤ) (forceHidden : Bool) : GuiObjectView :=
  if meshIndex = -1 ∨ s.mMeshHidden.getSize ≤ S32.toU32 meshIndex then s
  else
    let i := S32.toU32 meshIndex
    let s1 := { s with mMeshHidden :=
      if forceHidden then s.mMeshHidden.setBit i else s.mMeshHidden.clearBit i }
    match s1.mModel with
    | some model => { s1 with mModel := some (model.setMeshForceHidden i forceHidden) }
    | none => s1

/-- The loop `for i < getSize(): mModel->setMeshForceHidden( i, forceHidden )`. -/
def setAllMeshesHiddenLoop (model : TSShapeInstance) (forceHidden : Bool) :
    List ℕ → TSShapeInstance
  | [] => model
  | i :: is => setAllMeshesHiddenLoop (model.setMeshForceHidden i forceHidden) forceHidden is

/-- Method `setAllMeshesHidden( bool forceHidden )`. -/
def setAllMeshesHidden (s : GuiObjectView) (forceHidden : Bool) : GuiObjectView :=
  let s1 := { s with mMeshHidden :=
    if forceHidden then s.mMeshHidden.set else s.mMeshHidden.clear }
  match s1.mModel with
  | some model =>
    let n := s1.mMeshHidden.getSize
    { s1 with mModel := some (setAllMeshesHiddenLoop model forceHidden (List.range n)) }
  | none => s1

/-- Method `setOrbitDistance( F32 distance )`. -/
def setOrbitDistance (s : GuiObjectView) (distance : ℚ) : GuiObjectView :=
  { s with mOrbitDist := mClampF distance s.mMinOrbitDist s.mMaxOrbitDist }

/-- Script method `setOrbitDistance( distance )`. -/
def script_setOrbitDistance (s : GuiObjectView) (distance : ℚ) : GuiObjectView :=
  setOrbitDistance s distance

/-- Branch of `onStaticModified` taken for the slots `orbitDistance`, `minOrbitDistance`
and `maxOrbitDistance`. -/
def onStaticModified_orbitDistance (s : GuiObjectView) : GuiObjectView :=
  setOrbitDistance s s.mOrbitDist

/-- The `"old=new"` test of `reSkin`: position of the first `=` found, giving
`substr( 0, split )` and the rest after `erase( 0, split + 1 )`. -/
def splitOldNew (skin : String) : Option (String × String) :=
  if '=' ∈ skin.toList then
    some (String.mk (skin.toList.takeWhile (fun c => c != '=')),
      String.mk ((skin.toList.dropWhile (fun c => c != '=')).drop 1))
  else none

/-- Body of the `for` loop of `reSkin`, over a present model. -/
def reSkinLoop (model : TSShapeInstance) (applied : String) :
    List String → TSShapeInstance × String
  | [] => (model, applied)
  | skin :: rest =>
    match splitOldNew skin with
    | some (oldSkin, newSkin) => reSkinLoop (model.reSkin newSkin oldSkin) newSkin rest
    | none => reSkinLoop (model.reSkin skin applied) skin rest

/-- Method `reSkin()`. The result is `none` when the loop dereferences a null `getModel()`. -/
def reSkin (E : Engine) (s : GuiObjectView) : Option GuiObjectView :=
  if s.mSkinNameHandle.isValidString then
    match E.split (s.mSkinNameHandle.getString E), s.mModel with
    | [], _ => some s
    | _ :: _, none => none
    | skin :: rest, some model =>
      some { s with
        mModel := some (reSkinLoop model s.mAppliedSkinName (skin :: rest)).1
        mAppliedSkinName := (reSkinLoop model s.mAppliedSkinName (skin :: rest)).2 }
  else some s

/-- Method `_initAnimation()`, called with the model `model` present
(`AssertFatal( mModel )`); `vnow` is the value of `Platform::getVirtualMilliseconds()`.
`seq` is `mAnimationSeq` after the lookup by name. `sequences.size()` is the `size()` of the
engine's `Vector`, an `S32` (as in `for (S32 i = 0; i < skins.size(); i++)` of `reSkin`), so
the range test `mAnimationSeq >= sequences.size()` compares two signed numbers: a negative
index other than -1 passes it. -/
def _initAnimation (s : GuiObjectView) (model : TSShapeInstance) (vnow : ℤ) : GuiObjectView :=
  if s.mAnimationSeqName.isEmpty ∧ s.mAnimationSeq = -1 then s
  else
    let seq : ℤ := if s.mAnimationSeqName.isEmpty then s.mAnimationSeq
      else model.shape.findSequence s.mAnimationSeqName
    if ¬ s.mAnimationSeqName.isEmpty ∧ seq = -1 then { s with mAnimationSeq := seq }
    else if seq ≠ -1 then
      if (model.shape.sequencesSize : ℤ) ≤ seq then { s with mAnimationSeq := -1 }
      else
        match s.mRunThread with
        | some t =>
          { s with mAnimationSeq := seq, mModel := some (model.setSequence t seq 0), mLastRenderTime := vnow }
        | none =>
          { s with mAnimationSeq := seq, mRunThread := some model.addThread.2, mModel := some (model.addThread.1.setSequence model.addThread.2 seq 0), mLastRenderTime := vnow }
    else { s with mAnimationSeq := seq, mLastRenderTime := vnow }

/-- Method `_initMount()`, called with the model `model` present (`AssertFatal( mModel )`).
`node` is `mMountNode` after the lookup by name. `nodes.size()` is the `size()` of the
engine's `Vector`, an `S32`, so the range test `mMountNode >= nodes.size()` compares two
signed numbers. -/
def _initMount (E : Engine) (s : GuiObjectView) (model : TSShapeInstance) : GuiObjectView :=
  match s.mMountedModel with
  | none => s
  | some mounted =>
    let node : ℤ := if s.mMountNodeName.isEmpty then s.mMountNode
      else model.shape.findNode s.mMountNodeName
    if ¬ s.mMountNodeName.isEmpty ∧ node = -1 then
      { s with mMountTransform := MatrixF.identity, mMountNode := node }
    else if node ≠ -1 ∧ (model.shape.nodesSize : ℤ) ≤ node then
      { s with mMountTransform := MatrixF.identity, mMountNode := -1 }
    else if mounted.shape.findNode "mountPoint" ≠ -1 then
      { s with mMountNode := node, mMountTransform := E.inverse (mounted.shape.getNodeWorldTransform (mounted.shape.findNode "mountPoint")) }
    else
      { s with mMountNode := node, mMountTransform := MatrixF.identity }

/-- The camera block of `setObjectModel` that depends on `mUseNodes`, followed by the
unconditional `mOrbitPos` / `mMinOrbitDist` assignments. -/
def setObjectModel_camera (s : GuiObjectView) (shape : TSShape) : GuiObjectView :=
  let s1 :=
    if s.mUseNodes then
      let s0 := { s with mBaseNode := shape.findNode "start01" }
      if s0.mBaseNode ≠ -1 then
        let baseXYZ := (shape.getNodeWorldTransform s0.mBaseNode).getColumn3
        let home : Point3F :=
          ⟨F32.add baseXYZ.x 0, F32.add baseXYZ.y 0, F32.add baseXYZ.z 1⟩
        { s0 with mHomePos := home, mHomeZ := home.z }
      else { s0 with mOrbitPos := shape.center, mMinOrbitDist := shape.radius }
    else { s with mOrbitPos := shape.center, mMinOrbitDist := shape.radius }
  { s1 with mOrbitPos := shape.center, mMinOrbitDist := shape.radius }

/-- The part of `setObjectModel` that follows a successful load: the shape is instantiated,
the name stored, and for a non-empty name the mesh-hidden vector sized and cleared. -/
def setObjectModel_instantiate (s : GuiObjectView) (shape : TSShape) (modelName : String) :
    GuiObjectView :=
  let s2 := { s with mModel := some (TSShapeInstance.new shape), mModelName := modelName }
  if ¬ s2.mModelName.isEmpty then
    { s2 with mMeshHidden := (s2.mMeshHidden.setSize shape.objectsSize).clear }
  else s2

/-- Method `setObjectModel( modelName )`; `vnow` is the virtual clock value that
`_initAnimation` reads. The result is `none` when a null pointer is dereferenced. -/
def setObjectModel (E : Engine) (s : GuiObjectView) (modelName : String) (vnow : ℤ) :
    Option GuiObjectView :=
  let s1 := { s with mModel := none, mRunThread := none, mModelName := "" }
  match E.load modelName with
  | none => some s1
  | some shape =>
    match reSkin E (setObjectModel_instantiate s1 shape modelName) with
    | none => none
    | some s4 =>
      let s5 := setObjectModel_camera s4 shape
      match s5.mModel with
      | none => none
      | some model =>
        let s6 := _initAnimation s5 model vnow
        match s6.mModel with
        | none => none
        | some model6 => some (_initMount E s6 model6)

/-- Method `setMountedObject( modelName )`. -/
def setMountedObject (E : Engine) (s : GuiObjectView) (modelName : String) : GuiObjectView :=
  let s1 := { s with mMountedModel := none, mMountedModelName := "" }
  match E.load modelName with
  | none => s1
  | some shape =>
    let inst := TSShapeInstance.new shape
    let inst1 := if ¬ s1.mMountSkinName.isEmpty then inst.reSkin s1.mMountSkinName "" else inst
    let s2 := { s1 with mMountedModel := some inst1, mMountedModelName := modelName }
    match s2.mModel with
    | some model => _initMount E s2 model
    | none => s2

/-- Method `setObjectAnimation( S32 index )`. -/
def setObjectAnimation (s : GuiObjectView) (index : ℤ) (vnow : ℤ) : GuiObjectView :=
  let s1 := { s with mAnimationSeq := index, mAnimationSeqName := "" }
  match s1.mModel with
  | some model => _initAnimation s1 model vnow
  | none => s1

/-- Method `setObjectAnimation( const String& sequenceName )`. -/
def setObjectAnimation_name (s : GuiObjectView) (sequenceName : String) (vnow : ℤ) :
    GuiObjectView :=
  let s1 := { s with mAnimationSeq := -1, mAnimationSeqName := sequenceName }
  match s1.mModel with
  | some model => _initAnimation s1 model vnow
  | none => s1

/-- A freshly constructed view that carries the configuration of `s`: its mount node name,
mounted model (with name and skin), skin handle and applied skin, and animation sequence
name and index. The other arguments are the contents of the fields the constructor
leaves unset. -/
def freshLike (s : GuiObjectView) (mMountTransform : MatrixF) (mHomePos : Point3F)
    (mHomeZ : ℚ) : GuiObjectView :=
  { new mMountTransform mHomePos mHomeZ with
    mMountNodeName := s.mMountNodeName
    mMountedModel := s.mMountedModel
    mMountedModelName := s.mMountedModelName
    mMountSkinName := s.mMountSkinName
    mSkinNameHandle := s.mSkinNameHandle
    mAppliedSkinName := s.mAppliedSkinName
    mAnimationSeqName := s.mAnimationSeqName
    mAnimationSeq := s.mAnimationSeq }

end GuiObjectView

/-! ### Sample engine data for the concrete instances -/

/-- A shape with `objects` meshes, four nodes of which `"mount0"` is number 3, one
sequence `"idle"`, all node transforms the identity, centred at the origin. -/
def sampleShape (objects : ℕ) (radius : ℚ) : TSShape :=
  { objectsSize := objects
    nodesSize := 4
    sequencesSize := 1
    findObject := fun _ => -1
    findNode := fun name => if name = "mount0" then 3 else -1
    findSequence := fun name => if name = "idle" then 0 else -1
    getNodeWorldTransform := fun _ => MatrixF.identity
    center := ⟨0, 0, 0⟩
    radius := radius }

/-- An engine whose loader knows `"player.dts"` (three meshes, radius 10) and
`"weapon.dts"` (one mesh, radius 1) and fails on every other name. -/
def sampleEngine : Engine :=
  { load := fun name =>
      if name = "player.dts" then some (sampleShape 3 10)
      else if name = "weapon.dts" then some (sampleShape 1 1)
      else none
    inverse := fun m => m
    split := fun str => str.splitOn ";"
    netString := fun _ => "" }

/-- A freshly constructed object view. -/
def sampleView : GuiObjectView := GuiObjectView.new MatrixF.identity ⟨0, 0, 0⟩ 0

/-! ### The object view: pointer input and script methods -/

/-- Value of an integer stored in an `S32`: two's complement wrap-around. -/
def S32.wrap (i : ℤ) : ℤ := (i + 2 ^ 31) % 2 ^ 32 - 2 ^ 31

/-- Conversion of an `S32` to `F32`, as in `delta * mCameraSpeed`. -/
def F32.ofS32 (i : ℤ) : ℚ := F32.round (i : ℚ)

/-- Difference `a - b` of two `Point2I`, component by component in `S32`. -/
def Point2I.sub (a b : Point2I) : Point2I := ⟨S32.wrap (a.x - b.x), S32.wrap (a.y - b.y)⟩

/-- The part of a `GuiEvent` the pointer handlers read. -/
structure GuiEvent where
  mousePoint : Point2I
  deriving DecidableEq

/-- Modelled from the spec: the engine's `dIsdigit` (not among the sources), the C library
`isdigit`: whether the character is one of `0` to `9`. -/
def dIsdigit (c : Char) : Bool := decide ('0' ≤ c ∧ c ≤ '9')

/-- Value of the run of decimal digits a character list starts with, continuing `acc`. -/
def dAtoi_digits (acc : ℤ) : List Char → ℤ
  | [] => acc
  | c :: cs =>
    if dIsdigit c then dAtoi_digits (acc * 10 + ((c.toNat - '0'.toNat : ℕ) : ℤ)) cs else acc

/-- Modelled from the spec: the engine's `dAtoi` (not among the sources), the C library
`atoi`: leading white space is skipped, an optional sign is read, and the decimal digits that
follow give the value; what follows the digits is ignored. C leaves the result undefined
when the value does not fit an `int`; here it wraps to `S32`. -/
def dAtoi (str : String) : ℤ :=
  match str.toList.dropWhile (fun c => c.toNat = 32 ∨ (9 ≤ c.toNat ∧ c.toNat ≤ 13)) with
  | '-' :: rest => S32.wrap (- dAtoi_digits 0 rest)
  | '+' :: rest => S32.wrap (dAtoi_digits 0 rest)
  | cs => S32.wrap (dAtoi_digits 0 cs)

/-- The test `dIsdigit( str[0] )` on a C string: the terminating `NUL` of an empty string is
not a digit. -/
def firstIsDigit (str : String) : Bool :=
  match str.toList with
  | [] => false
  | c :: _ => dIsdigit c

/-- Result of `String::ToString( "mount%i", index )`. -/
def mountNodeNameOfIndex (index : ℤ) : String := "mount" ++ toString index

namespace GuiObjectView

/-- Method `onMouseDown`; `mActive`, `mVisible` and `mAwake` are fields of the parent
`GuiControl` and passed in. `mouseLock()` is not modelled. -/
def onMouseDown (s : GuiObjectView) (mActive mVisible mAwake : Bool) (event : GuiEvent) :
    GuiObjectView :=
  if !mActive || !mVisible || !mAwake then s
  else { s with mMouseState := MouseState.Rotating, mLastMousePoint := event.mousePoint }

/-- Method `onMouseUp`. -/
def onMouseUp (s : GuiObjectView) : GuiObjectView :=
  { s with mMouseState := MouseState.None }

/-- Method `onMouseDragged`. -/
def onMouseDragged (s : GuiObjectView) (event : GuiEvent) : GuiObjectView :=
  if s.mMouseState ≠ MouseState.Rotating then s
  else
    let delta := Point2I.sub event.mousePoint s.mLastMousePoint
    let z := F32.add s.mCameraRot.z (F32.mul (F32.ofS32 delta.x) s.mCameraSpeed)
    { s with mLastMousePoint := event.mousePoint, mCameraRot := { s.mCameraRot with z := z } }

/-- Method `onRightMouseDown`. -/
def onRightMouseDown (s : GuiObjectView) (event : GuiEvent) : GuiObjectView :=
  { s with mMouseState := MouseState.Zooming, mLastMousePoint := event.mousePoint }

/-- Method `onRightMouseUp`. -/
def onRightMouseUp (s : GuiObjectView) : GuiObjectView :=
  { s with mMouseState := MouseState.None }

/-- The statements `F32 newZ = mOrbitPos.z - (delta * mCameraSpeed) / mOrbitDist;
if (newZ > 1.0f && newZ < chestZ) mOrbitPos.z = newZ;` of `onRightMouseDragged`. With
`mOrbitDist` zero the quotient is infinite or not a number and the test fails. -/
def onRightMouseDragged_orbitZ (s : GuiObjectView) (delta : ℤ) (chestZ : ℚ) : GuiObjectView :=
  let newZ := F32.sub s.mOrbitPos.z
    (F32.div (F32.mul (F32.ofS32 delta) s.mCameraSpeed) s.mOrbitDist)
  if s.mOrbitDist ≠ 0 ∧ 1 < newZ ∧ newZ < chestZ then
    { s with mOrbitPos := { s.mOrbitPos with z := newZ } }
  else s

/-- Method `onRightMouseDragged`. The result is `none` when the null `mModel` is
dereferenced. The literals `1.5f`, `0.75f` and `1.0f` are binary32 values; `0.45f` is
the rounding of `45 / 100`. -/
def onRightMouseDragged (s : GuiObjectView) (event : GuiEvent) : Option GuiObjectView :=
  if s.mMouseState ≠ MouseState.Zooming then some s
  else
    let delta := S32.wrap (event.mousePoint.y - s.mLastMousePoint.y)
    let newDist := F32.add s.mOrbitDist (F32.mul (F32.ofS32 delta) s.mCameraSpeed)
    let dist := if s.mMinOrbitDist ≤ newDist ∧ newDist ≤ s.mMaxOrbitDist then newDist
      else s.mOrbitDist
    let s1 := { s with mLastMousePoint := event.mousePoint, mOrbitDist := dist }
    match s1.mModel with
    | none => none
    | some model =>
      let s2 := { s1 with mBaseNode := model.shape.findNode "start01" }
      if s2.mBaseNode ≠ -1 then
        let baseZ := (model.shape.getNodeWorldTransform s2.mBaseNode).getColumn3.z
        let s3 := { s2 with mEyeNode := model.shape.findNode "eye" }
        if s3.mEyeNode ≠ -1 then
          let eyeZ := (model.shape.getNodeWorldTransform s3.mEyeNode).getColumn3.z
          let d := F32.sub eyeZ baseZ
          if d < 3 / 2 then
            some (onRightMouseDragged_orbitZ s3 delta (F32.mul d (F32.round (45 / 100))))
          else
            some (onRightMouseDragged_orbitZ s3 delta (F32.mul d (3 / 4)))
        else some s3
      else some s2

/-- Method `setCameraSpeed( F32 factor )`. -/
def setCameraSpeed (s : GuiObjectView) (factor : ℚ) : GuiObjectView :=
  { s with mCameraSpeed := factor }

/-- Method `setMeshHidden( const char *meshName, bool forceHidden )`. The result is `none`
when the null `mModel` is dereferenced. -/
def setMeshHidden_name (s : GuiObjectView) (meshName : String) (forceHidden : Bool) :
    Option GuiObjectView :=
  match s.mModel with
  | none => none
  | some model => some (setMeshHidden s (model.shape.findObject meshName) forceHidden)

/-- Method `setMountNode( const String& name )`. -/
def setMountNode (E : Engine) (s : GuiObjectView) (name : String) : GuiObjectView :=
  let s1 := { s with mMountNodeName := name }
  match s1.mModel with
  | some model => _initMount E s1 model
  | none => s1

/-- Method `setMountNode( S32 index )`. -/
def setMountNode_index (E : Engine) (s : GuiObjectView) (index : ℤ) : GuiObjectView :=
  setMountNode E s (mountNodeNameOfIndex index)

/-- The test `mMountedModel && mMountNode != -1` under which `renderWorld`, which returns
at once without a primary model, draws the mounted model. -/
def renderWorld_rendersMounted (s : GuiObjectView) : Bool :=
  s.mModel.isSome && (s.mMountedModel.isSome && decide (s.mMountNode ≠ -1))

/-- Script method `setMountedModel( shapeName )`. -/
def script_setMountedModel (E : Engine) (s : GuiObjectView) (shapeName : String) (vnow : ℤ) :
    Option GuiObjectView :=
  setObjectModel E s shapeName vnow

/-- Script method `setSeq( indexOrName )`. -/
def script_setSeq (s : GuiObjectView) (indexOrName : String) (vnow : ℤ) : GuiObjectView :=
  if firstIsDigit indexOrName then setObjectAnimation s (dAtoi indexOrName) vnow
  else setObjectAnimation_name s indexOrName vnow

/-- Script method `setMount( shapeName, mountNodeIndexOrName )`. -/
def script_setMount (E : Engine) (s : GuiObjectView) (shapeName mountNodeIndexOrName : String) :
    GuiObjectView :=
  let s1 := if firstIsDigit mountNodeIndexOrName then
      setMountNode_index E s (dAtoi mountNodeIndexOrName)
    else setMountNode E s mountNodeIndexOrName
  setMountedObject E s1 shapeName

end GuiObjectView

/-- The one-mesh sample model (radius 1) loaded into a fresh view, with camera speed `1 / 2`
and orbit distance 4, after the secondary button went down at the origin. -/
def sampleZoomingView : GuiObjectView :=
  GuiObjectView.onRightMouseDown
    (GuiObjectView.setOrbitDistance
      (GuiObjectView.setCameraSpeed
        ((GuiObjectView.setObjectModel sampleEngine sampleView "weapon.dts" 0).getD sampleView)
        (1 / 2))
      4)
    ⟨⟨0, 0⟩⟩

/-! ### The object view: camera query, skins, waking -/

/-- Engine math the camera query calls and the sources do not contain:
`MatrixF::set( const EulerF& )`, which builds the rotation matrix of Euler angles, and
`MatrixF::mul( a, b )`, the matrix product. -/
structure EngineMath where
  setEuler : Point3F → MatrixF
  mul : MatrixF → MatrixF → MatrixF

/-- The point read by `getColumn( 1, &p )`. -/
def MatrixF.getColumn1 (m : MatrixF) : Point3F := ⟨m 0 1, m 1 1, m 2 1⟩

/-- Scaling `p *= k` of a `Point3F` by an `F32`, component by component. -/
def Point3F.mulF (p : Point3F) (k : ℚ) : Point3F :=
  ⟨F32.mul p.x k, F32.mul p.y k, F32.mul p.z k⟩

/-- Difference `a - b` of two `Point3F`, component by component. -/
def Point3F.sub (a b : Point3F) : Point3F :=
  ⟨F32.sub a.x b.x, F32.sub a.y b.y, F32.sub a.z b.z⟩

/-- The fields of `CameraQuery` that `processCameraQuery` assigns. -/
structure CameraQuery where
  farPlane : ℚ
  nearPlane : ℚ
  fov : ℚ
  cameraMatrix : MatrixF

/-- Modelled from the spec: the engine constant `StringTagPrefixByte` (not among the
sources), the byte `0x01` that starts a tagged string. -/
def StringTagPrefixByte : Char := Char.ofNat 1

namespace GuiObjectView

/-- Method `processCameraQuery( CameraQuery* query )`: the returned flag, the view and the
query after the call. -/
def processCameraQuery (M : EngineMath) (s : GuiObjectView) (query : CameraQuery) :
    Bool × GuiObjectView × CameraQuery :=
  let xRot := M.setEuler ⟨s.mCameraRot.x, 0, 0⟩
  let zRot := M.setEuler ⟨0, 0, s.mCameraRot.z⟩
  let m1 := M.mul zRot xRot
  let vec := Point3F.mulF m1.getColumn1 s.mOrbitDist
  let pos := Point3F.sub s.mOrbitPos vec
  let m2 := MatrixF.setColumn3 m1 pos
  (true, { s with mCameraMatrix := m2, mCameraPos := pos },
    { query with farPlane := 2100, nearPlane := F32.div 2100 5000, fov := 45, cameraMatrix := m2 })

/-- Method `setCameraRotation( const EulerF& rotation )`. -/
def setCameraRotation (s : GuiObjectView) (rotation : Point3F) : GuiObjectView :=
  { s with mCameraRot := rotation }

/-- Method `setOrbitPos( Point3F xyz )`. -/
def setOrbitPos (s : GuiObjectView) (xyz : Point3F) : GuiObjectView :=
  { s with mOrbitPos := xyz }

/-- Method `setSkinName( const char* name )`. The result is `none` when `reSkin`
dereferences a null model. -/
def setSkinName (E : Engine) (s : GuiObjectView) (name : String) : Option GuiObjectView :=
  match name.toList with
  | [] => reSkin E { s with mSkinNameHandle := NetStringHandle.null }
  | c :: rest =>
    if c = StringTagPrefixByte then
      reSkin E { s with mSkinNameHandle :=
        NetStringHandle.ofTag (S32.toU32 (dAtoi (String.mk rest))) }
    else reSkin E { s with mSkinNameHandle := NetStringHandle.ofString name }

/-- Method `onWake()`; `parentAwake` is the result of `Parent::onWake()`. The result is
`none` when the null `mModel` is dereferenced. -/
def onWake (s : GuiObjectView) (parentAwake : Bool) : Option (Bool × GuiObjectView) :=
  if !parentAwake then some (false, s)
  else
    let s1 := match s.mLight with
      | some _ => s
      | none => { s with mLight := some ⟨s.mLightColor, s.mLightAmbient, s.mLightDirection⟩ }
    if ¬ s1.mModelName.isEmpty then
      match s1.mModel with
      | none => none
      | some model =>
        some (true, { s1 with mMeshHidden := (s1.mMeshHidden.setSize model.shape.objectsSize).clear })
    else some (true, s1)

/-- A sequence of `setObjectModel` calls, each with its model name and clock value. -/
def setObjectModels (E : Engine) (s : GuiObjectView) : List (String × ℤ) → Option GuiObjectView
  | [] => some s
  | c :: cs =>
    match setObjectModel E s c.1 c.2 with
    | none => none
    | some s1 => setObjectModels E s1 cs

end GuiObjectView

/-- The fade update at the head of `onRender` / `renderButton`, which reads the same in the
three fading controls, with the two divisions checked: the result is `none` when a
division by zero is evaluated. -/
def fadeUpdateChecked (s : FadeState) (now now2 : ℕ) : Option FadeState :=
  let elapsed := U32.sub now s.wakeTime
  if s.mMode = FadeMode.fadingIn then
    if elapsed < s.fadeinTime then
      if F32.ofU32 s.fadeinTime = 0 then none
      else
        some { s with mAlpha :=
                F32.toU32 (F32.div (F32.mul 255 (F32.ofU32 elapsed)) (F32.ofU32 s.fadeinTime)) }
    else
      some { s with mAlpha := 255, wakeTime := now2, mMode := FadeMode.idle }
  else if s.mMode = FadeMode.fadingOut then
    if elapsed < s.fadeoutTime then
      if F32.ofU32 s.fadeoutTime = 0 then none
      else
        some { s with mAlpha :=
                F32.toU32 (F32.sub 255
                  (F32.mul 255 (F32.div (F32.ofU32 elapsed) (F32.ofU32 s.fadeoutTime)))) }
    else
      some { s with mAlpha := 0, wakeTime := now2, mMode := FadeMode.idle }
  else some s

/-! ### Further sample data -/

/-- A shape with the nodes `"start01"` (number 0, at the origin), `"eye"` (number 1, at
height 2), `"mountPoint"` (number 2, at the origin) and `"mount0"` (number 3), one mesh,
radius 1, centred at height `11 / 8`. -/
def sampleFigure : TSShape :=
  { objectsSize := 1
    nodesSize := 4
    sequencesSize := 1
    findObject := fun _ => -1
    findNode := fun name =>
      if name = "start01" then 0 else if name = "eye" then 1
      else if name = "mountPoint" then 2 else if name = "mount0" then 3 else -1
    findSequence := fun name => if name = "idle" then 0 else -1
    getNodeWorldTransform := fun node =>
      if node = 1 then MatrixF.setColumn3 MatrixF.identity ⟨0, 0, 2⟩ else MatrixF.identity
    center := ⟨0, 0, 11 / 8⟩
    radius := 1 }

/-- The sample engine with a loader that also knows `"figure.dts"`. -/
def sampleFigureEngine : Engine :=
  { sampleEngine with
    load := fun name =>
      if name = "figure.dts" then some sampleFigure else sampleEngine.load name }

/-- The sample figure in a fresh view with camera speed `1 / 2` and orbit distance 3, after
the secondary button went down at the origin. -/
def sampleFigureView : GuiObjectView :=
  GuiObjectView.onRightMouseDown
    (GuiObjectView.setOrbitDistance
      (GuiObjectView.setCameraSpeed
        ((GuiObjectView.setObjectModel sampleFigureEngine sampleView "figure.dts" 0).getD
          sampleView)
        (1 / 2))
      3)
    ⟨⟨0, 0⟩⟩

/-- The pieces of a character list between its `;`, as `String::split( ";", out )` collects
them: `cur` holds the piece being read, in reverse; a last piece is kept unless empty. -/
def splitOnSemicolon (cur : List Char) : List Char → List String
  | [] => if cur = [] then [] else [String.mk cur.reverse]
  | c :: cs =>
    if c = ';' then String.mk cur.reverse :: splitOnSemicolon [] cs
    else splitOnSemicolon (c :: cur) cs

/-- The sample engine with `String::split` at `";"` written out. -/
def sampleSkinEngine : Engine :=
  { sampleEngine with split := fun str => splitOnSemicolon [] str.toList }

/-- Engine math for the concrete instances: the exact matrix product, and the identity as
rotation matrix, which is what `MatrixF::set` gives for the zero rotation; the instances
use no other rotation. -/
def sampleMath : EngineMath :=
  { setEuler := fun _ => MatrixF.identity
    mul := fun a b => a * b }

/-- Engine math for a turned camera: the exact matrix product; the identity for a rotation
with zero yaw; and for every other yaw the rotation matrix about the z axis of the yaw
`1944679 / 2 ^ 21` (the binary32 value nearest `atan (4 / 3)`, the only yaw the instances
ask for), whose sine `13421773 / 2 ^ 24` and cosine `5033165 / 2 ^ 23` are the binary32
values nearest the sine and cosine of that yaw. -/
def sampleTurnedMath : EngineMath :=
  { setEuler := fun e =>
      if e.z = 0 then MatrixF.identity
      else
        !![5033165 / 8388608, 13421773 / 16777216, 0, 0;
          -(13421773 / 16777216), 5033165 / 8388608, 0, 0;
          0, 0, 1, 0;
          0, 0, 0, 1]
    mul := fun a b => a * b }

/-- A fresh view with orbit distance 3, the orbit centre at `(1, 2, 0)` and the camera
rotation `(0, 0, 1944679 / 2 ^ 21)`. -/
def sampleTurnedView : GuiObjectView :=
  GuiObjectView.setCameraRotation
    (GuiObjectView.setOrbitPos (GuiObjectView.setOrbitDistance sampleView 3) ⟨1, 2, 0⟩)
    ⟨0, 0, 1944679 / 2097152⟩

/-! ## Theorems -/

/-! ### Rounding to an integer -/

theorem roundHalfEven_intCast (n : ℤ) : roundHalfEven (n : ℚ) = n := by
  simp [roundHalfEven]

theorem roundHalfEven_cases (x : ℚ) :
    roundHalfEven x = ⌊x⌋ ∧ x - ⌊x⌋ ≤ 1 / 2 ∨ roundHalfEven x = ⌊x⌋ + 1 ∧ 1 / 2 ≤ x - ⌊x⌋ := by
  unfold roundHalfEven
  by_cases h1 : x - ⌊x⌋ < 1 / 2
  · left; simp only [h1, if_true]; exact ⟨trivial, le_of_lt h1⟩
  · by_cases h2 : 1 / 2 < x - ⌊x⌋
    · right; simp only [h1, h2, if_true, if_false]; exact ⟨trivial, le_of_lt h2⟩
    · have h3 : x - ⌊x⌋ = 1 / 2 := le_antisymm (not_lt.mp h2) (not_lt.mp h1)
      by_cases h4 : ⌊x⌋ % 2 = 0
      · left; simp only [h1, h2, h4, if_true, if_false]; exact ⟨trivial, le_of_eq h3⟩
      · right; simp only [h1, h2, h4, if_true, if_false]; exact ⟨trivial, le_of_eq h3.symm⟩

theorem abs_sub_roundHalfEven_le (x : ℚ) : |x - roundHalfEven x| ≤ 1 / 2 := by
  have hf := Int.floor_le x
  have hl := Int.lt_floor_add_one x
  rcases roundHalfEven_cases x with ⟨h, hx⟩ | ⟨h, hx⟩
  · rw [h, abs_le]; constructor <;> linarith
  · rw [h, abs_le]; push_cast; constructor <;> linarith

theorem roundHalfEven_eq_of_abs_lt (x : ℚ) (m : ℤ) (h : |x - m| < 1 / 2) :
    roundHalfEven x = m := by
  have hx := abs_sub_roundHalfEven_le x
  rw [abs_lt] at h
  rw [abs_le] at hx
  have h1 : ((roundHalfEven x : ℤ) : ℚ) - m < 1 := by linarith
  have h2 : (m : ℚ) - roundHalfEven x < 1 := by linarith
  have h1' : roundHalfEven x - m < 1 := by exact_mod_cast h1
  have h2' : m - roundHalfEven x < 1 := by exact_mod_cast h2
  omega

theorem roundHalfEven_mono {x y : ℚ} (h : x ≤ y) : roundHalfEven x ≤ roundHalfEven y := by
  have hfl : ⌊x⌋ ≤ ⌊y⌋ := Int.floor_mono h
  rcases lt_or_eq_of_le hfl with hlt | heq
  · have hx : roundHalfEven x ≤ ⌊x⌋ + 1 := by
      rcases roundHalfEven_cases x with ⟨e, _⟩ | ⟨e, _⟩ <;> omega
    have hy : ⌊y⌋ ≤ roundHalfEven y := by
      rcases roundHalfEven_cases y with ⟨e, _⟩ | ⟨e, _⟩ <;> omega
    omega
  · unfold roundHalfEven
    rw [← heq]
    by_cases a1 : x - ⌊x⌋ < 1 / 2
    · simp only [a1, if_true]
      split_ifs <;> omega
    · have b1 : ¬ (y - ⌊x⌋ < 1 / 2) := by
        intro hb; apply a1; linarith
      simp only [a1, b1, if_false]
      by_cases a2 : 1 / 2 < x - ⌊x⌋
      · have b2 : 1 / 2 < y - ⌊x⌋ := by linarith
        simp only [a2, b2, if_true]; exact le_refl _
      · simp only [a2, if_false]
        split_ifs <;> omega

theorem roundHalfEven_nearest (x : ℚ) (n : ℤ) : |x - roundHalfEven x| ≤ |x - n| := by
  by_contra hlt
  push_neg at hlt
  have h := lt_of_lt_of_le hlt (abs_sub_roundHalfEven_le x)
  have := roundHalfEven_eq_of_abs_lt x n h
  rw [this] at hlt
  exact lt_irrefl _ hlt

/-! ### Properties of binary32 rounding -/

namespace F32

theorem ulp_pos (q : ℚ) : 0 < ulp q := zpow_pos (by norm_num) _

theorem round_zero : round 0 = 0 := by
  have h : roundHalfEven (0 : ℚ) = 0 := by simpa using roundHalfEven_intCast 0
  simp [round, h]

theorem abs_round_sub_le (q : ℚ) : |round q - q| ≤ ulp q / 2 := by
  have h := abs_sub_roundHalfEven_le (q / ulp q)
  have hu := ulp_pos q
  have e : round q - q = -(q / ulp q - roundHalfEven (q / ulp q)) * ulp q := by
    unfold round; field_simp; ring
  rw [e, abs_mul, abs_neg, abs_of_pos hu]
  calc |q / ulp q - roundHalfEven (q / ulp q)| * ulp q ≤ 1 / 2 * ulp q :=
        mul_le_mul_of_nonneg_right h hu.le
    _ = ulp q / 2 := by ring

theorem log_eq_of_le_of_lt {q : ℚ} {e : ℤ} (h1 : (2 : ℚ) ^ e ≤ |q|)
    (h2 : |q| < (2 : ℚ) ^ (e + 1)) : Int.log 2 |q| = e := by
  have hpos : 0 < |q| := lt_of_lt_of_le (zpow_pos (by norm_num) e) h1
  have a : e ≤ Int.log 2 |q| :=
    (Int.zpow_le_iff_le_log (by norm_num) hpos).1 (by simpa using h1)
  have b : Int.log 2 |q| < e + 1 :=
    (Int.lt_zpow_iff_log_lt (by norm_num) hpos).1 (by simpa using h2)
  omega

theorem zpow_log_le {q : ℚ} (hq : q ≠ 0) : (2 : ℚ) ^ Int.log 2 |q| ≤ |q| := by
  simpa using Int.zpow_log_le_self (b := 2) (by norm_num) (abs_pos.mpr hq)

theorem lt_zpow_log_succ (q : ℚ) : |q| < (2 : ℚ) ^ (Int.log 2 |q| + 1) := by
  simpa using Int.lt_zpow_succ_log_self (b := 2) (by norm_num) |q|

theorem lt_zpow_expo_succ (q : ℚ) : |q| < (2 : ℚ) ^ (expo q + 1) :=
  lt_of_lt_of_le (lt_zpow_log_succ q)
    (zpow_le_zpow_right₀ (by norm_num) (by unfold expo; omega))

/-- Evaluation certificate: binade `e` and rounded significand `m` determine the result. -/
theorem round_eq_of {q : ℚ} (e m : ℤ) (he : -126 ≤ e) (h1 : (2 : ℚ) ^ e ≤ |q|)
    (h2 : |q| < (2 : ℚ) ^ (e + 1)) (hm : |q / (2 : ℚ) ^ (e - 23) - m| < 1 / 2) :
    round q = m * (2 : ℚ) ^ (e - 23) := by
  have hl := log_eq_of_le_of_lt h1 h2
  have hx : expo q = e := by unfold expo; omega
  unfold round ulp
  rw [hx, roundHalfEven_eq_of_abs_lt _ m hm]

/-- Every `m * 2 ^ j` with a significand below `2 ^ 24` is a binary32 value. -/
theorem round_of_rep (m j : ℤ) (hj : -149 ≤ j) (hm : |m| < 2 ^ 24) :
    round ((m : ℚ) * (2 : ℚ) ^ j) = (m : ℚ) * (2 : ℚ) ^ j := by
  by_cases h0 : m = 0
  · subst h0; simpa using round_zero
  have h2j : (0 : ℚ) < (2 : ℚ) ^ j := zpow_pos (by norm_num) _
  have hq0 : (m : ℚ) * (2 : ℚ) ^ j ≠ 0 :=
    mul_ne_zero (by exact_mod_cast h0) (ne_of_gt h2j)
  have habs : |(m : ℚ) * (2 : ℚ) ^ j| < (2 : ℚ) ^ (j + 24) := by
    rw [abs_mul, abs_of_pos h2j, zpow_add₀ (by norm_num : (2 : ℚ) ≠ 0), mul_comm]
    have : |(m : ℚ)| < (2 : ℚ) ^ (24 : ℤ) := by
      have : ((|m| : ℤ) : ℚ) < ((2 ^ 24 : ℤ) : ℚ) := by exact_mod_cast hm
      rw [Int.cast_abs] at this
      norm_num at this ⊢
      exact this
    exact mul_lt_mul_of_pos_left this h2j
  have hlog : Int.log 2 |(m : ℚ) * (2 : ℚ) ^ j| < j + 24 :=
    (Int.lt_zpow_iff_log_lt (by norm_num) (abs_pos.mpr hq0)).1 (by simpa using habs)
  have hE : expo ((m : ℚ) * (2 : ℚ) ^ j) - 23 ≤ j := by unfold expo; omega
  obtain ⟨k, hk⟩ := Int.eq_ofNat_of_zero_le (sub_nonneg.mpr hE)
  have hpow : (2 : ℚ) ^ j = (2 : ℚ) ^ k * ulp ((m : ℚ) * (2 : ℚ) ^ j) := by
    unfold ulp
    rw [← zpow_natCast, ← zpow_add₀ (by norm_num : (2 : ℚ) ≠ 0)]
    congr 1; omega
  have hu := ulp_pos ((m : ℚ) * (2 : ℚ) ^ j)
  have hdiv : (m : ℚ) * (2 : ℚ) ^ j / ulp ((m : ℚ) * (2 : ℚ) ^ j) = ((m * 2 ^ k : ℤ) : ℚ) := by
    rw [div_eq_iff (ne_of_gt hu)]
    conv_lhs => rw [hpow]
    push_cast; ring
  unfold round
  rw [hdiv, roundHalfEven_intCast]
  conv_rhs => rw [hpow]
  push_cast; ring

theorem round_intCast (n : ℤ) (hn : |n| ≤ 2 ^ 24) : round (n : ℚ) = n := by
  rcases lt_or_eq_of_le hn with h | h
  · simpa using round_of_rep n 0 (by norm_num) h
  · rcases abs_eq (by norm_num : (0 : ℤ) ≤ 2 ^ 24) |>.1 h with e | e
    · have := round_of_rep (2 ^ 23) 1 (by norm_num) (by norm_num)
      rw [e]; norm_num at this ⊢; exact this
    · have := round_of_rep (-2 ^ 23) 1 (by norm_num) (by norm_num)
      rw [e]; norm_num at this ⊢; exact this

theorem round_natCast (n : ℕ) (hn : n ≤ 2 ^ 24) : round (n : ℚ) = n := by
  have := round_intCast (n : ℤ) (by rw [abs_of_nonneg (by positivity)]; exact_mod_cast hn)
  simpa using this

theorem round_nonneg {q : ℚ} (hq : 0 ≤ q) : 0 ≤ round q := by
  unfold round
  have h : (0 : ℤ) ≤ roundHalfEven (q / ulp q) := by
    have := roundHalfEven_mono (div_nonneg hq (ulp_pos q).le)
    rwa [show roundHalfEven (0 : ℚ) = 0 by simpa using roundHalfEven_intCast 0] at this
  exact mul_nonneg (by exact_mod_cast h) (ulp_pos q).le

theorem expo_mono {x y : ℚ} (hx : 0 < x) (h : x ≤ y) : expo x ≤ expo y := by
  unfold expo
  have : Int.log 2 |x| ≤ Int.log 2 |y| := by
    rw [abs_of_pos hx, abs_of_pos (lt_of_lt_of_le hx h)]
    exact Int.log_mono_right hx h
  omega

theorem round_le_zpow {x : ℚ} (hx : 0 ≤ x) : round x ≤ (2 : ℚ) ^ (expo x + 1) := by
  have hu := ulp_pos x
  have h1 : x / ulp x ≤ ((2 ^ 24 : ℤ) : ℚ) := by
    rw [div_le_iff₀ hu]
    have := lt_zpow_expo_succ x
    rw [abs_of_nonneg hx] at this
    have e : ((2 ^ 24 : ℤ) : ℚ) * ulp x = (2 : ℚ) ^ (expo x + 1) := by
      unfold ulp
      rw [show expo x + 1 = 24 + (expo x - 23) by ring, zpow_add₀ (by norm_num : (2 : ℚ) ≠ 0)]
      norm_num
    rw [e]; exact this.le
  have h2 := roundHalfEven_mono h1
  rw [roundHalfEven_intCast] at h2
  unfold round
  calc (roundHalfEven (x / ulp x) : ℚ) * ulp x ≤ ((2 ^ 24 : ℤ) : ℚ) * ulp x :=
        mul_le_mul_of_nonneg_right (by exact_mod_cast h2) hu.le
    _ = (2 : ℚ) ^ (expo x + 1) := by
      unfold ulp
      rw [show expo x + 1 = 24 + (expo x - 23) by ring, zpow_add₀ (by norm_num : (2 : ℚ) ≠ 0)]
      norm_num

theorem zpow_le_round {y : ℚ} (hy : 0 < y) (hn : -126 < expo y) :
    (2 : ℚ) ^ expo y ≤ round y := by
  have hu := ulp_pos y
  have hE : expo y = Int.log 2 |y| := by unfold expo at hn ⊢; omega
  have hle : (2 : ℚ) ^ expo y ≤ y := by
    have := zpow_log_le (ne_of_gt hy)
    rwa [← hE, abs_of_pos hy] at this
  have e : ((2 ^ 23 : ℤ) : ℚ) * ulp y = (2 : ℚ) ^ expo y := by
    unfold ulp
    rw [show expo y = 23 + (expo y - 23) by ring, zpow_add₀ (by norm_num : (2 : ℚ) ≠ 0)]
    norm_num
  have h1 : ((2 ^ 23 : ℤ) : ℚ) ≤ y / ulp y := by
    rw [le_div_iff₀ hu, e]; exact hle
  have h2 := roundHalfEven_mono h1
  rw [roundHalfEven_intCast] at h2
  unfold round
  calc (2 : ℚ) ^ expo y = ((2 ^ 23 : ℤ) : ℚ) * ulp y := e.symm
    _ ≤ (roundHalfEven (y / ulp y) : ℚ) * ulp y :=
        mul_le_mul_of_nonneg_right (by exact_mod_cast h2) hu.le

/-- Rounding is monotone on the non-negative rationals. -/
theorem round_mono {x y : ℚ} (hx : 0 ≤ x) (h : x ≤ y) : round x ≤ round y := by
  rcases eq_or_lt_of_le hx with h0 | hpos
  · rw [← h0, round_zero]; exact round_nonneg (le_trans hx h)
  have hy : 0 < y := lt_of_lt_of_le hpos h
  rcases lt_or_eq_of_le (expo_mono hpos h) with hlt | heq
  · calc round x ≤ (2 : ℚ) ^ (expo x + 1) := round_le_zpow hx
      _ ≤ (2 : ℚ) ^ expo y := zpow_le_zpow_right₀ (by norm_num) (by omega)
      _ ≤ round y := zpow_le_round hy (by unfold expo at hlt ⊢; omega)
  · have hu : ulp x = ulp y := by unfold ulp; rw [heq]
    unfold round
    rw [hu]
    have h1 : x / ulp y ≤ y / ulp y := div_le_div_of_nonneg_right h (ulp_pos y).le
    exact mul_le_mul_of_nonneg_right (by exact_mod_cast roundHalfEven_mono h1) (ulp_pos y).le

theorem round_one : round 1 = 1 := by simpa using round_natCast 1 (by norm_num)

theorem round_255 : round 255 = 255 := by simpa using round_natCast 255 (by norm_num)

/-- Half-ulp error bound from an upper bound on the binade. -/
theorem abs_round_sub_le_zpow {q : ℚ} {e : ℤ} (he : -126 ≤ e)
    (h : |q| < (2 : ℚ) ^ (e + 1)) : |round q - q| ≤ (2 : ℚ) ^ (e - 24) := by
  by_cases h0 : q = 0
  · subst h0
    rw [round_zero, sub_zero, abs_zero]
    exact (zpow_pos (by norm_num) _).le
  have hx : expo q ≤ e := by
    have : Int.log 2 |q| < e + 1 :=
      (Int.lt_zpow_iff_log_lt (by norm_num) (abs_pos.mpr h0)).1 (by simpa using h)
    unfold expo; omega
  calc |round q - q| ≤ ulp q / 2 := abs_round_sub_le q
    _ = (2 : ℚ) ^ (expo q - 24) := by
      unfold ulp
      rw [show expo q - 24 = (expo q - 23) + (-1) by ring,
        zpow_add₀ (by norm_num : (2 : ℚ) ≠ 0)]
      norm_num; ring
    _ ≤ (2 : ℚ) ^ (e - 24) := zpow_le_zpow_right₀ (by norm_num) (by omega)

/-- Relative error bound in the normal range. -/
theorem round_le_mul {q : ℚ} (hq : 1 ≤ q) : round q ≤ q * (1 + (2 : ℚ) ^ (-24 : ℤ)) := by
  have hpos : 0 < q := lt_of_lt_of_le one_pos hq
  have hl0 : 0 ≤ Int.log 2 |q| := by
    have : (0 : ℤ) ≤ Int.log 2 |q| :=
      (Int.zpow_le_iff_le_log (by norm_num) (abs_pos.mpr (ne_of_gt hpos))).1
        (by simpa [abs_of_pos hpos] using hq)
    exact this
  have hE : expo q = Int.log 2 |q| := by unfold expo; omega
  have h1 := abs_round_sub_le q
  have h2 : ulp q / 2 ≤ q * (2 : ℚ) ^ (-24 : ℤ) := by
    unfold ulp
    rw [hE, show Int.log 2 |q| - 23 = Int.log 2 |q| + (-23) by ring,
      zpow_add₀ (by norm_num : (2 : ℚ) ≠ 0)]
    have := zpow_log_le (ne_of_gt hpos)
    rw [abs_of_pos hpos] at this ⊢
    have e : (2 : ℚ) ^ (-23 : ℤ) / 2 = (2 : ℚ) ^ (-24 : ℤ) := by norm_num
    calc (2 : ℚ) ^ Int.log 2 q * (2 : ℚ) ^ (-23 : ℤ) / 2
        = (2 : ℚ) ^ Int.log 2 q * (2 : ℚ) ^ (-24 : ℤ) := by rw [mul_div_assoc, e]
      _ ≤ q * (2 : ℚ) ^ (-24 : ℤ) :=
        mul_le_mul_of_nonneg_right this (zpow_pos (by norm_num) _).le
  have h3 := (abs_le.1 (le_trans h1 h2)).2
  linarith

theorem roundHalfEven_le_of_lt {x : ℚ} {N : ℤ} (h : x < N + 1 / 2) : roundHalfEven x ≤ N := by
  have h1 := (abs_le.1 (abs_sub_roundHalfEven_le x)).1
  have : ((roundHalfEven x : ℤ) : ℚ) < N + 1 := by linarith
  have : roundHalfEven x < N + 1 := by exact_mod_cast this
  omega

/-- A value below the midpoint above the grid point `N * 2 ^ (E - 23)` rounds to at most it. -/
theorem round_le_of_lt_midpoint {v : ℚ} (N E : ℤ) (hE : -126 ≤ E) (hN : 2 ^ 23 ≤ N)
    (hN2 : N < 2 ^ 24) (hv0 : 0 ≤ v) (hv : v < ((N : ℚ) + 1 / 2) * (2 : ℚ) ^ (E - 23)) :
    round v ≤ (N : ℚ) * (2 : ℚ) ^ (E - 23) := by
  have hN0 : (0 : ℤ) ≤ N := le_trans (by norm_num) hN
  have hu : (0 : ℚ) < (2 : ℚ) ^ (E - 23) := zpow_pos (by norm_num) _
  rcases le_or_lt v ((N : ℚ) * (2 : ℚ) ^ (E - 23)) with hle | hgt
  · have := round_mono hv0 hle
    rwa [round_of_rep N (E - 23) (by omega) (by rw [abs_of_nonneg hN0]; exact hN2)] at this
  · have hs : (2 : ℚ) ^ E = (2 : ℚ) ^ (23 : ℤ) * (2 : ℚ) ^ (E - 23) := by
      rw [← zpow_add₀ (by norm_num : (2 : ℚ) ≠ 0)]; congr 1; ring
    have hs2 : (2 : ℚ) ^ (E + 1) = (2 : ℚ) ^ (24 : ℤ) * (2 : ℚ) ^ (E - 23) := by
      rw [← zpow_add₀ (by norm_num : (2 : ℚ) ≠ 0)]; congr 1; ring
    have hNq : ((2 : ℚ) ^ (23 : ℤ)) ≤ (N : ℚ) := by
      have : ((2 ^ 23 : ℤ) : ℚ) ≤ (N : ℚ) := by exact_mod_cast hN
      norm_num at this ⊢; exact this
    have hNq2 : (N : ℚ) + 1 ≤ (2 : ℚ) ^ (24 : ℤ) := by
      have : ((N + 1 : ℤ) : ℚ) ≤ ((2 ^ 24 : ℤ) : ℚ) := by exact_mod_cast (by omega : N + 1 ≤ 2 ^ 24)
      norm_num at this ⊢; exact this
    have h1 : (2 : ℚ) ^ E ≤ |v| := by
      rw [abs_of_nonneg hv0, hs]
      exact le_trans (mul_le_mul_of_nonneg_right hNq hu.le) hgt.le
    have h2 : |v| < (2 : ℚ) ^ (E + 1) := by
      rw [abs_of_nonneg hv0, hs2]
      refine lt_of_lt_of_le hv (mul_le_mul_of_nonneg_right ?_ hu.le)
      linarith
    have hl := log_eq_of_le_of_lt h1 h2
    have hx : expo v = E := by unfold expo; omega
    unfold round ulp
    rw [hx]
    have h3 : v / (2 : ℚ) ^ (E - 23) < (N : ℚ) + 1 / 2 := by
      rw [div_lt_iff₀ hu]; exact hv
    exact mul_le_mul_of_nonneg_right (by exact_mod_cast roundHalfEven_le_of_lt h3) hu.le

theorem toU32_eq_of {q : ℚ} {n : ℕ} (hn : n < 2 ^ 32) (h1 : (n : ℚ) ≤ q) (h2 : q < n + 1) :
    toU32 q = n := by
  have h0 : 0 ≤ q := le_trans (by positivity) h1
  have hf : ⌊q⌋ = (n : ℤ) := by
    rw [Int.floor_eq_iff]; exact ⟨by exact_mod_cast h1, by exact_mod_cast h2⟩
  unfold toU32
  rw [if_pos h0, hf]
  have : ((n : ℤ) % 2 ^ 32) = n := Int.emod_eq_of_lt (by positivity) (by exact_mod_cast hn)
  rw [this]; simp

end F32

theorem U32.sub_lt (a b : ℕ) : U32.sub a b < 2 ^ 32 := Nat.mod_lt _ (by norm_num)

theorem U32.sub_of_le {a b : ℕ} (h : b ≤ a) (ha : a < 2 ^ 32) : U32.sub a b = a - b := by
  unfold U32.sub
  rw [Nat.mod_eq_of_lt ha, Nat.mod_eq_of_lt (lt_of_le_of_lt h ha)]
  omega

/-! ### The two interpolation expressions of the fade update -/

/-- For durations up to `2 ^ 16` ms the fade-in expression
`255 * F32(elapsed) / F32(fadeinTime)`, converted to `U32`, is the exact integer quotient. -/
theorem fadeIn_expr_eq (e D : ℕ) (hD : D ≤ 2 ^ 16) (he : e < D) :
    F32.toU32 (F32.div (F32.mul 255 (F32.ofU32 e)) (F32.ofU32 D)) = 255 * e / D := by
  have hD0 : 0 < D := by omega
  have hDq : (0 : ℚ) < (D : ℚ) := by exact_mod_cast hD0
  have h1 : F32.ofU32 e = (e : ℚ) := F32.round_natCast e (by omega)
  have h2 : F32.ofU32 D = (D : ℚ) := F32.round_natCast D (by omega)
  have h3 : F32.mul 255 (e : ℚ) = ((255 * e : ℕ) : ℚ) := by
    unfold F32.mul
    have := F32.round_natCast (255 * e) (by omega)
    rw [← this]; push_cast; rfl
  rw [h1, h2, h3]
  unfold F32.div
  obtain ⟨k, r, hdm, hmod, hkeq⟩ :
      ∃ k r, D * k + r = 255 * e ∧ r < D ∧ 255 * e / D = k :=
    ⟨_, _, Nat.div_add_mod _ _, Nat.mod_lt _ hD0, rfl⟩
  rw [hkeq]
  have hk : k ≤ 254 := by
    have : 255 * e / D < 255 := by
      rw [Nat.div_lt_iff_lt_mul hD0]; nlinarith
    omega
  have hq : ((255 * e : ℕ) : ℚ) / D = k + (r : ℚ) / D := by
    rw [← hdm]; push_cast; field_simp; ring
  have hr0 : (0 : ℚ) ≤ (r : ℚ) / D := by positivity
  have hq0 : (0 : ℚ) ≤ ((255 * e : ℕ) : ℚ) / D := by positivity
  have hlow : (k : ℚ) ≤ F32.round (((255 * e : ℕ) : ℚ) / D) := by
    have hle : (k : ℚ) ≤ ((255 * e : ℕ) : ℚ) / D := by rw [hq]; linarith
    have := F32.round_mono (by positivity : (0 : ℚ) ≤ (k : ℚ)) hle
    rwa [F32.round_natCast k (by omega)] at this
  have hup : F32.round (((255 * e : ℕ) : ℚ) / D) < (k : ℚ) + 1 := by
    have hg : F32.round ((((k + 1) * 65536 - 1 : ℤ) : ℚ) * (2 : ℚ) ^ (-16 : ℤ))
        = (((k + 1) * 65536 - 1 : ℤ) : ℚ) * (2 : ℚ) ^ (-16 : ℤ) :=
      F32.round_of_rep _ _ (by norm_num) (by rw [abs_lt]; constructor <;> omega)
    have hgv : (((k + 1) * 65536 - 1 : ℤ) : ℚ) * (2 : ℚ) ^ (-16 : ℤ)
        = (k : ℚ) + 1 - 1 / 65536 := by
      push_cast; norm_num; ring
    rw [hgv] at hg
    have hle : ((255 * e : ℕ) : ℚ) / D ≤ (k : ℚ) + 1 - 1 / 65536 := by
      rw [hq]
      have hrD : (r : ℚ) / D ≤ 1 - 1 / 65536 := by
        rw [div_le_iff₀ hDq]
        have h1 : (r : ℚ) + 1 ≤ D := by exact_mod_cast hmod
        have h2 : (D : ℚ) ≤ 65536 := by exact_mod_cast hD
        nlinarith
      linarith
    have := F32.round_mono hq0 hle
    rw [hg] at this
    linarith
  exact F32.toU32_eq_of (by omega) hlow hup

/-- Core of the integer case of the fade-out expression: with `M` in binade `E`
(`M = N * 2 ^ (E - 23)`), the product `255 * F32(M / 255)` does not round above `M`. -/
theorem round_mul_round_div_le_aux (M : ℕ) (E N : ℤ) (hE0 : 0 ≤ E)
    (hN : (N : ℚ) * (2 : ℚ) ^ (E - 23) = M) (hN1 : 2 ^ 23 ≤ N) (hN2 : N < 2 ^ 24)
    (ht : (M : ℚ) / 255 < (2 : ℚ) ^ (E - 7)) :
    F32.round (255 * F32.round ((M : ℚ) / 255)) ≤ M := by
  have ht0 : (0 : ℚ) ≤ (M : ℚ) / 255 := by positivity
  have herr : |F32.round ((M : ℚ) / 255) - (M : ℚ) / 255| ≤ (2 : ℚ) ^ (E - 8 - 24) :=
    F32.abs_round_sub_le_zpow (by omega)
      (by rw [abs_of_nonneg ht0, show E - 8 + 1 = E - 7 by ring]; exact ht)
  have hx0 : 0 ≤ F32.round ((M : ℚ) / 255) := F32.round_nonneg ht0
  have hp : (0 : ℚ) < (2 : ℚ) ^ (E - 8 - 24) := zpow_pos (by norm_num) _
  have e1 : (2 : ℚ) ^ (E - 23) = (2 : ℚ) ^ (9 : ℤ) * (2 : ℚ) ^ (E - 8 - 24) := by
    rw [← zpow_add₀ (by norm_num : (2 : ℚ) ≠ 0)]; congr 1; ring
  have hv : 255 * F32.round ((M : ℚ) / 255)
      < ((N : ℚ) + 1 / 2) * (2 : ℚ) ^ (E - 23) := by
    have h1 := (abs_le.1 herr).2
    have h2 : ((N : ℚ) + 1 / 2) * (2 : ℚ) ^ (E - 23)
        = (M : ℚ) + 256 * (2 : ℚ) ^ (E - 8 - 24) := by
      rw [add_mul, hN, e1]; norm_num; ring
    rw [h2]
    linarith
  have := F32.round_le_of_lt_midpoint N E (by omega) hN1 hN2
    (mul_nonneg (by norm_num) hx0) hv
  rwa [hN] at this

/-- The product `255 * F32(M / 255)` rounds to at most `M` for every `M < 255`. -/
theorem round_mul_round_div_le (M : ℕ) (hM : M < 255) :
    F32.round (255 * F32.round ((M : ℚ) / 255)) ≤ M := by
  have hMq : (M : ℚ) < 255 := by exact_mod_cast hM
  have key : ∀ j : ℕ, j ≤ 7 → 2 ^ j ≤ M → M < 2 ^ (j + 1) →
      F32.round (255 * F32.round ((M : ℚ) / 255)) ≤ M := by
    intro j hj h1 h2
    have h1q : ((2 ^ j : ℕ) : ℚ) ≤ (M : ℚ) := by exact_mod_cast h1
    have h2q : (M : ℚ) + 1 ≤ ((2 ^ (j + 1) : ℕ) : ℚ) := by exact_mod_cast h2
    refine round_mul_round_div_le_aux M j ((M : ℤ) * 2 ^ (23 - j)) (by positivity) ?_ ?_ ?_ ?_
    · interval_cases j <;> norm_num <;> ring
    · interval_cases j <;> norm_num at h1 ⊢ <;> omega
    · interval_cases j <;> norm_num at h2 ⊢ <;> omega
    · interval_cases j <;> norm_num at h2q ⊢ <;> linarith
  rcases Nat.eq_zero_or_pos M with h0 | hpos
  · subst h0; simp [F32.round_zero]
  · have hc : M < 2 ∨ (2 ≤ M ∧ M < 4) ∨ (4 ≤ M ∧ M < 8) ∨ (8 ≤ M ∧ M < 16) ∨
        (16 ≤ M ∧ M < 32) ∨ (32 ≤ M ∧ M < 64) ∨ (64 ≤ M ∧ M < 128) ∨ (128 ≤ M ∧ M < 256) := by
      omega
    rcases hc with h | h | h | h | h | h | h | h
    · exact key 0 (by norm_num) (by omega) (by omega)
    · exact key 1 (by norm_num) (by omega) (by omega)
    · exact key 2 (by norm_num) (by omega) (by omega)
    · exact key 3 (by norm_num) (by omega) (by omega)
    · exact key 4 (by norm_num) (by omega) (by omega)
    · exact key 5 (by norm_num) (by omega) (by omega)
    · exact key 6 (by norm_num) (by omega) (by omega)
    · exact key 7 (by norm_num) (by omega) (by omega)

/-- Range and accumulated rounding error of the product `255 * F32(t)` for `0 ≤ t < 1`. -/
theorem fadeOut_product_bounds (t : ℚ) (ht0 : 0 ≤ t) (ht1 : t < 1) :
    0 ≤ F32.round (255 * F32.round t) ∧ F32.round (255 * F32.round t) ≤ 255 ∧
    255 * t - 511 / 33554432 ≤ F32.round (255 * F32.round t) ∧
    F32.round (255 * F32.round t) ≤ 255 * t + 511 / 33554432 := by
  have hx0 : 0 ≤ F32.round t := F32.round_nonneg ht0
  have hx1 : F32.round t ≤ 1 := by
    have := F32.round_mono ht0 ht1.le
    rwa [F32.round_one] at this
  have hxe : |F32.round t - t| ≤ (2 : ℚ) ^ (-1 - 24 : ℤ) :=
    F32.abs_round_sub_le_zpow (by norm_num) (by rw [abs_of_nonneg ht0]; simpa using ht1)
  have hv0 : 0 ≤ 255 * F32.round t := mul_nonneg (by norm_num) hx0
  have hv1 : 255 * F32.round t ≤ 255 := by linarith
  have hy0 : 0 ≤ F32.round (255 * F32.round t) := F32.round_nonneg hv0
  have hy1 : F32.round (255 * F32.round t) ≤ 255 := by
    have := F32.round_mono hv0 hv1
    rwa [F32.round_255] at this
  have hye : |F32.round (255 * F32.round t) - 255 * F32.round t| ≤ (2 : ℚ) ^ (7 - 24 : ℤ) :=
    F32.abs_round_sub_le_zpow (by norm_num)
      (by rw [abs_of_nonneg hv0]; norm_num; linarith)
  have hp1 : (2 : ℚ) ^ (-1 - 24 : ℤ) = 1 / 33554432 := by norm_num
  have hp2 : (2 : ℚ) ^ (7 - 24 : ℤ) = 1 / 131072 := by norm_num
  rw [hp1] at hxe
  rw [hp2] at hye
  have hxe' := abs_le.1 hxe
  have hye' := abs_le.1 hye
  refine ⟨hy0, hy1, ?_, ?_⟩
  · linarith [hxe'.1, hye'.1]
  · linarith [hxe'.2, hye'.2]

/-- Quotient and remainder of `255 * (D - e)` by `D`, read in the rationals. -/
theorem fadeOut_exact_split {e D k r : ℕ} (hD0 : 0 < D) (he : e < D)
    (hdm : D * k + r = 255 * (D - e)) :
    (255 : ℚ) - 255 * ((e : ℚ) / D) = k + (r : ℚ) / D := by
  have hDq : (D : ℚ) ≠ 0 := by exact_mod_cast (ne_of_gt hD0)
  have hcast : ((D * k + r : ℕ) : ℚ) = ((255 * (D - e) : ℕ) : ℚ) := by rw [hdm]
  rw [Nat.cast_mul, Nat.cast_sub he.le] at hcast
  push_cast at hcast
  field_simp
  linarith

/-- A rounded value is an integer multiple of any grid unit not above its own. -/
theorem F32.round_eq_int_mul_zpow (v : ℚ) (e : ℤ) (h : e ≤ F32.expo v) :
    ∃ n : ℤ, F32.round v = (n : ℚ) * (2 : ℚ) ^ (e - 23) := by
  obtain ⟨k, hk⟩ := Int.eq_ofNat_of_zero_le (sub_nonneg.mpr h)
  refine ⟨roundHalfEven (v / F32.ulp v) * 2 ^ k, ?_⟩
  unfold F32.round
  have : F32.ulp v = (2 : ℚ) ^ k * (2 : ℚ) ^ (e - 23) := by
    unfold F32.ulp
    rw [← zpow_natCast, ← zpow_add₀ (by norm_num : (2 : ℚ) ≠ 0)]
    congr 1; omega
  calc (roundHalfEven (v / F32.ulp v) : ℚ) * F32.ulp v
      = roundHalfEven (v / F32.ulp v) * ((2 : ℚ) ^ k * (2 : ℚ) ^ (e - 23)) := by rw [← this]
    _ = ((roundHalfEven (v / F32.ulp v) * 2 ^ k : ℤ) : ℚ) * (2 : ℚ) ^ (e - 23) := by
      push_cast; ring

theorem F32.round_half : F32.round (1 / 2) = 1 / 2 := by
  have := F32.round_of_rep 1 (-1) (by norm_num) (by norm_num)
  norm_num at this ⊢
  exact this

/-- Range and rounding error of the product `255 * F32(t)` for `0 ≤ t < 1 / 2`. -/
theorem fadeOut_product_bounds_half (t : ℚ) (ht0 : 0 ≤ t) (ht1 : t < 1 / 2) :
    255 * t - 511 / 67108864 ≤ F32.round (255 * F32.round t) ∧
    F32.round (255 * F32.round t) ≤ 255 * t + 511 / 67108864 := by
  have hx0 : 0 ≤ F32.round t := F32.round_nonneg ht0
  have hx1 : F32.round t ≤ 1 / 2 := by
    have := F32.round_mono ht0 ht1.le
    rwa [F32.round_half] at this
  have hxe : |F32.round t - t| ≤ (2 : ℚ) ^ (-2 - 24 : ℤ) :=
    F32.abs_round_sub_le_zpow (by norm_num)
      (by rw [abs_of_nonneg ht0]; norm_num; linarith)
  have hv0 : 0 ≤ 255 * F32.round t := mul_nonneg (by norm_num) hx0
  have hye : |F32.round (255 * F32.round t) - 255 * F32.round t| ≤ (2 : ℚ) ^ (6 - 24 : ℤ) :=
    F32.abs_round_sub_le_zpow (by norm_num)
      (by rw [abs_of_nonneg hv0]; norm_num; linarith)
  have hp1 : (2 : ℚ) ^ (-2 - 24 : ℤ) = 1 / 67108864 := by norm_num
  have hp2 : (2 : ℚ) ^ (6 - 24 : ℤ) = 1 / 262144 := by norm_num
  rw [hp1] at hxe
  rw [hp2] at hye
  have hxe' := abs_le.1 hxe
  have hye' := abs_le.1 hye
  constructor
  · linarith [hxe'.1, hye'.1]
  · linarith [hxe'.2, hye'.2]

/-- For `1 / 2 ≤ t < 1` the final subtraction `255 - y` of the fade-out expression is
exact. -/
theorem fadeOut_diff_exact (t : ℚ) (ht0 : 1 / 2 ≤ t) (ht1 : t < 1) :
    F32.round (255 - F32.round (255 * F32.round t)) = 255 - F32.round (255 * F32.round t) := by
  have hx0 : 1 / 2 ≤ F32.round t := by
    have := F32.round_mono (by norm_num : (0 : ℚ) ≤ 1 / 2) ht0
    rwa [F32.round_half] at this
  have hx1 : F32.round t ≤ 1 := by
    have := F32.round_mono (by linarith) ht1.le
    rwa [F32.round_one] at this
  have hv0 : (255 : ℚ) / 2 ≤ 255 * F32.round t := by linarith
  have hv1 : 255 * F32.round t ≤ 255 := by linarith
  have hy0 : (255 : ℚ) / 2 ≤ F32.round (255 * F32.round t) := by
    have := F32.round_mono (by norm_num : (0 : ℚ) ≤ 255 / 2) hv0
    have h2 := F32.round_of_rep 255 (-1) (by norm_num) (by norm_num)
    norm_num at h2
    rw [show (255 : ℚ) / 2 = 255 / 2 from rfl] at this
    rwa [h2] at this
  have hy1 : F32.round (255 * F32.round t) ≤ 255 := by
    have := F32.round_mono (by linarith) hv1
    rwa [F32.round_255] at this
  have hexp : (6 : ℤ) ≤ F32.expo (255 * F32.round t) := by
    have hpos : (0 : ℚ) < 255 * F32.round t := by linarith
    have : (6 : ℤ) ≤ Int.log 2 |255 * F32.round t| :=
      (Int.zpow_le_iff_le_log (by norm_num) (abs_pos.mpr (ne_of_gt hpos))).1
        (by rw [abs_of_pos hpos]; norm_num; linarith)
    unfold F32.expo; omega
  obtain ⟨n, hn⟩ := F32.round_eq_int_mul_zpow _ 6 hexp
  have hgrid : (255 : ℚ) - F32.round (255 * F32.round t)
      = ((255 * 131072 - n : ℤ) : ℚ) * (2 : ℚ) ^ (-17 : ℤ) := by
    rw [hn]; push_cast; norm_num; ring
  rw [hgrid]
  apply F32.round_of_rep _ _ (by norm_num)
  have hn1 : (n : ℚ) * (1 / 131072) ≤ 255 := by
    have := hy1; rw [hn] at this; norm_num at this; linarith
  have hn0 : (255 : ℚ) / 2 ≤ (n : ℚ) * (1 / 131072) := by
    have := hy0; rw [hn] at this; norm_num at this; linarith
  have h1 : (n : ℚ) ≤ 255 * 131072 := by linarith
  have h2 : (255 : ℚ) * 65536 ≤ (n : ℚ) := by linarith
  have h1' : n ≤ 255 * 131072 := by exact_mod_cast h1
  have h2' : 255 * 65536 ≤ n := by exact_mod_cast h2
  rw [abs_lt]
  constructor <;> omega

/-- A non-negative value below `k + 1 - 2 ^ (-17)` rounds to less than `k + 1`. -/
theorem round_lt_succ_of_lt (u : ℚ) (k : ℕ) (hk : k ≤ 255) (hu0 : 0 ≤ u)
    (hu : u < (k : ℚ) + 1 - 1 / 131072) : F32.round u < (k : ℚ) + 1 := by
  by_cases hk128 : k + 1 ≤ 128
  · have hg := F32.round_of_rep ((k + 1) * 131072 - 1) (-17) (by norm_num)
      (by rw [abs_lt]; constructor <;> omega)
    have hgv : (((k + 1) * 131072 - 1 : ℤ) : ℚ) * (2 : ℚ) ^ (-17 : ℤ)
        = (k : ℚ) + 1 - 1 / 131072 := by
      push_cast; norm_num; ring
    rw [hgv] at hg
    have := F32.round_mono hu0 hu.le
    rw [hg] at this
    linarith
  · have hN : F32.round u ≤ (((k + 1) * 65536 - 1 : ℤ) : ℚ) * (2 : ℚ) ^ (7 - 23 : ℤ) := by
      apply F32.round_le_of_lt_midpoint _ 7 (by norm_num) (by omega) (by omega) hu0
      have : ((((k + 1) * 65536 - 1 : ℤ) : ℚ) + 1 / 2) * (2 : ℚ) ^ (7 - 23 : ℤ)
          = (k : ℚ) + 1 - 1 / 131072 := by
        push_cast; norm_num; ring
      rw [this]; exact hu
    have hNv : (((k + 1) * 65536 - 1 : ℤ) : ℚ) * (2 : ℚ) ^ (7 - 23 : ℤ)
        = (k : ℚ) + 1 - 1 / 65536 := by
      push_cast; norm_num; ring
    rw [hNv] at hN
    linarith

/-- For durations up to `2 ^ 16` ms the fade-out expression
`255 - (255 * (F32(elapsed) / F32(fadeoutTime)))`, converted to `U32`, is the exact
integer quotient `255 * (D - e) / D`. -/
theorem fadeOut_expr_eq (e D : ℕ) (hD : D ≤ 2 ^ 16) (he : e < D) :
    F32.toU32 (F32.sub 255 (F32.mul 255 (F32.div (F32.ofU32 e) (F32.ofU32 D))))
      = 255 * (D - e) / D := by
  have hD0 : 0 < D := by omega
  have hDq : (0 : ℚ) < (D : ℚ) := by exact_mod_cast hD0
  have h1 : F32.ofU32 e = (e : ℚ) := F32.round_natCast e (by omega)
  have h2 : F32.ofU32 D = (D : ℚ) := F32.round_natCast D (by omega)
  rw [h1, h2]
  unfold F32.sub F32.mul F32.div
  have ht0 : (0 : ℚ) ≤ (e : ℚ) / D := by positivity
  have ht1 : (e : ℚ) / D < 1 := by
    rw [div_lt_one hDq]; exact_mod_cast he
  obtain ⟨k, r, hdm, hmod, hkeq⟩ :
      ∃ k r, D * k + r = 255 * (D - e) ∧ r < D ∧ 255 * (D - e) / D = k :=
    ⟨_, _, Nat.div_add_mod _ _, Nat.mod_lt _ hD0, rfl⟩
  rw [hkeq]
  have hk : k ≤ 255 := by
    have : 255 * (D - e) / D < 256 := by
      rw [Nat.div_lt_iff_lt_mul hD0]
      have : D - e ≤ D := Nat.sub_le _ _
      nlinarith
    omega
  have hw := fadeOut_exact_split hD0 he hdm
  have hD16 : (D : ℚ) ≤ 65536 := by exact_mod_cast hD
  have hint : r = 0 → F32.round (255 * F32.round ((e : ℚ) / D)) ≤ 255 - (k : ℚ) := by
    intro hr
    subst hr
    have hM : (e : ℚ) / D = ((255 - k : ℕ) : ℚ) / 255 := by
      rw [Nat.cast_sub hk]
      simp only [Nat.cast_zero, zero_div, add_zero] at hw
      push_cast
      linarith
    have hk1 : 1 ≤ k := by
      rcases Nat.eq_zero_or_pos k with h | h
      · subst h; simp at hdm; omega
      · exact h
    have := round_mul_round_div_le (255 - k) (by omega)
    rw [← hM, Nat.cast_sub hk] at this
    push_cast at this
    exact this
  have hrD1 : (r : ℚ) / D ≤ 1 - 1 / 65536 := by
    rw [div_le_iff₀ hDq]
    have h1 : (r : ℚ) + 1 ≤ D := by exact_mod_cast hmod
    nlinarith
  have hrD2 : 0 < r → (1 : ℚ) / 65536 ≤ (r : ℚ) / D := by
    intro hr
    rw [div_le_div_iff₀ (by norm_num) hDq]
    have h1 : (1 : ℚ) ≤ r := by exact_mod_cast hr
    nlinarith
  obtain ⟨hy0, hy1, hyl, hyu⟩ := fadeOut_product_bounds _ ht0 ht1
  have hhalf := fadeOut_product_bounds_half ((e : ℚ) / D) ht0
  have hexact := fun h => fadeOut_diff_exact ((e : ℚ) / D) h ht1
  generalize F32.round (255 * F32.round ((e : ℚ) / D)) = y at hint hy0 hy1 hyl hyu hhalf hexact ⊢
  generalize (e : ℚ) / D = t at hw hyl hyu hhalf hexact
  have hu0 : (0 : ℚ) ≤ 255 - y := by linarith
  have hlow : (k : ℚ) ≤ 255 - y := by
    rcases Nat.eq_zero_or_pos r with hr | hr
    · have := hint hr; linarith
    · have := hrD2 hr; linarith
  have hz1 := F32.round_mono (by positivity : (0 : ℚ) ≤ (k : ℚ)) hlow
  rw [F32.round_natCast k (by omega)] at hz1
  have hz2 : F32.round (255 - y) < (k : ℚ) + 1 := by
    rcases lt_or_le t (1 / 2) with hlt | hge
    · have hb := (hhalf hlt).1
      exact round_lt_succ_of_lt _ k hk hu0 (by linarith)
    · rw [hexact hge]; linarith
  exact F32.toU32_eq_of (by omega) hz1 hz2

theorem F32.toU32_le_of_lt {q : ℚ} {n : ℕ} (hn : n < 2 ^ 32) (h0 : 0 ≤ q) (h : q < n + 1) :
    F32.toU32 q ≤ n := by
  have hf0 : 0 ≤ ⌊q⌋ := Int.floor_nonneg.mpr h0
  have hf1 : ⌊q⌋ < n + 1 := by
    rw [Int.floor_lt]; exact_mod_cast h
  unfold F32.toU32
  rw [if_pos h0, Int.emod_eq_of_lt hf0 (by omega)]
  omega

theorem F32.ofU32_nonneg (n : ℕ) : 0 ≤ F32.ofU32 n := F32.round_nonneg (by positivity)

theorem F32.ofU32_mono {a b : ℕ} (h : a ≤ b) : F32.ofU32 a ≤ F32.ofU32 b :=
  F32.round_mono (by positivity) (by exact_mod_cast h)

theorem F32.one_le_ofU32 {n : ℕ} (h : 0 < n) : 1 ≤ F32.ofU32 n := by
  have := F32.ofU32_mono (Nat.succ_le_of_lt h)
  unfold F32.ofU32 at this ⊢
  simpa [F32.round_one] using this

/-- Whatever the duration, the fade-in expression stays within `[0, 255]`. -/
theorem fadeIn_expr_le (e D : ℕ) (he : e < D) :
    F32.toU32 (F32.div (F32.mul 255 (F32.ofU32 e)) (F32.ofU32 D)) ≤ 255 := by
  have hfe0 := F32.ofU32_nonneg e
  have hfD1 : 1 ≤ F32.ofU32 D := F32.one_le_ofU32 (by omega)
  have hfeD := F32.ofU32_mono he.le
  generalize F32.ofU32 e = fe at hfe0 hfeD ⊢
  generalize F32.ofU32 D = fD at hfD1 hfeD ⊢
  have hfD0 : 0 < fD := lt_of_lt_of_le one_pos hfD1
  unfold F32.div F32.mul
  have ha0 : 0 ≤ F32.round (255 * fe) := F32.round_nonneg (by positivity)
  have ha1 : F32.round (255 * fe) ≤ 255 * fD * (1 + (2 : ℚ) ^ (-24 : ℤ)) :=
    le_trans (F32.round_mono (by positivity) (by linarith : 255 * fe ≤ 255 * fD))
      (F32.round_le_mul (by linarith))
  have hq0 : 0 ≤ F32.round (255 * fe) / fD := div_nonneg ha0 hfD0.le
  have hq1 : F32.round (255 * fe) / fD ≤ (511 : ℤ) * (2 : ℚ) ^ (-1 : ℤ) := by
    rw [div_le_iff₀ hfD0]
    have hp : (2 : ℚ) ^ (-24 : ℤ) = 1 / 16777216 := by norm_num
    rw [hp] at ha1
    norm_num
    nlinarith
  have hz := F32.round_mono hq0 hq1
  rw [F32.round_of_rep 511 (-1) (by norm_num) (by norm_num)] at hz
  refine F32.toU32_le_of_lt (by norm_num) (F32.round_nonneg hq0) ?_
  norm_num at hz ⊢
  linarith

/-- Whatever the duration, the fade-out expression stays within `[0, 255]`. -/
theorem fadeOut_expr_le (e D : ℕ) (he : e < D) :
    F32.toU32 (F32.sub 255 (F32.mul 255 (F32.div (F32.ofU32 e) (F32.ofU32 D)))) ≤ 255 := by
  have hfe0 := F32.ofU32_nonneg e
  have hfD1 : 1 ≤ F32.ofU32 D := F32.one_le_ofU32 (by omega)
  have hfeD := F32.ofU32_mono he.le
  generalize F32.ofU32 e = fe at hfe0 hfeD ⊢
  generalize F32.ofU32 D = fD at hfD1 hfeD ⊢
  have hfD0 : 0 < fD := lt_of_lt_of_le one_pos hfD1
  unfold F32.sub F32.mul F32.div
  have ht0 : 0 ≤ fe / fD := div_nonneg hfe0 hfD0.le
  have ht1 : fe / fD ≤ 1 := by rw [div_le_one hfD0]; exact hfeD
  have hx0 := F32.round_nonneg ht0
  have hx1 := F32.round_mono ht0 ht1
  rw [F32.round_one] at hx1
  have hv0 : 0 ≤ 255 * F32.round (fe / fD) := by positivity
  have hy0 := F32.round_nonneg hv0
  have hy1 := F32.round_mono hv0 (by linarith : 255 * F32.round (fe / fD) ≤ 255)
  rw [F32.round_255] at hy1
  have hu0 : 0 ≤ 255 - F32.round (255 * F32.round (fe / fD)) := by linarith
  have hz := F32.round_mono hu0 (by linarith : 255 - F32.round (255 * F32.round (fe / fD)) ≤ 255)
  rw [F32.round_255] at hz
  refine F32.toU32_le_of_lt (by norm_num) (F32.round_nonneg hu0) ?_
  push_cast
  linarith

/-- The bound on the duration matters: 67108927 ms into a fade-in of `2 ^ 26 + 64` ms both
conversions `F32(elapsed)` and `F32(fadeinTime)` give the same value and the expression
yields 255, one more than the exact quotient 254. -/
theorem fadeIn_expr_large_duration :
    F32.toU32 (F32.div (F32.mul 255 (F32.ofU32 67108927)) (F32.ofU32 67108928)) = 255 ∧
      255 * 67108927 / 67108928 = 254 := by
  have h1 : F32.ofU32 67108927 = 67108928 := by
    have := F32.round_eq_of (q := 67108927) 26 8388616 (by norm_num)
      (by rw [abs_of_nonneg (by norm_num)]; norm_num)
      (by rw [abs_of_nonneg (by norm_num)]; norm_num)
      (by rw [abs_lt]; constructor <;> norm_num)
    unfold F32.ofU32
    norm_num at this ⊢
    exact this
  have h2 : F32.ofU32 67108928 = 67108928 := by
    have := F32.round_of_rep 8388616 3 (by norm_num) (by norm_num)
    unfold F32.ofU32
    norm_num at this ⊢
    exact this
  have h3 : F32.mul 255 67108928 = 17112776704 := by
    have := F32.round_eq_of (q := 255 * 67108928) 33 16711696 (by norm_num)
      (by rw [abs_of_nonneg (by norm_num)]; norm_num)
      (by rw [abs_of_nonneg (by norm_num)]; norm_num)
      (by rw [abs_lt]; constructor <;> norm_num)
    unfold F32.mul
    norm_num at this ⊢
    exact this
  have h4 : F32.div 17112776704 67108928 = 255 := by
    have := F32.round_eq_of (q := 17112776704 / 67108928) 7 16711680 (by norm_num)
      (by rw [abs_of_nonneg (by norm_num)]; norm_num)
      (by rw [abs_of_nonneg (by norm_num)]; norm_num)
      (by rw [abs_lt]; constructor <;> norm_num)
    unfold F32.div
    norm_num at this ⊢
    exact this
  refine ⟨?_, by norm_num⟩
  rw [h1, h2, h3, h4]
  exact F32.toU32_eq_of (n := 255) (by norm_num) (by norm_num) (by norm_num)

/-- The bound on the duration matters for the fade-out too: 33151 ms into a fade-out of
66043 ms the rounded product `255 * (F32(elapsed) / F32(fadeoutTime))` is exactly 128, so the
expression yields 127, one more than the exact quotient 126. -/
theorem fadeOut_expr_large_duration :
    F32.toU32 (F32.sub 255 (F32.mul 255 (F32.div (F32.ofU32 33151) (F32.ofU32 66043)))) = 127 ∧
      255 * (66043 - 33151) / 66043 = 126 := by
  have h1 : F32.ofU32 33151 = 33151 := by
    have := F32.round_natCast 33151 (by norm_num)
    unfold F32.ofU32
    exact_mod_cast this
  have h2 : F32.ofU32 66043 = 66043 := by
    have := F32.round_natCast 66043 (by norm_num)
    unfold F32.ofU32
    exact_mod_cast this
  have h3 : F32.div 33151 66043 = 8421505 / 16777216 := by
    have := F32.round_eq_of (q := 33151 / 66043) (-1) 8421505 (by norm_num)
      (by rw [abs_of_nonneg (by norm_num)]; norm_num)
      (by rw [abs_of_nonneg (by norm_num)]; norm_num)
      (by rw [abs_lt]; constructor <;> norm_num)
    unfold F32.div
    norm_num at this ⊢
    exact this
  have h4 : F32.mul 255 (8421505 / 16777216) = 128 := by
    have := F32.round_eq_of (q := 255 * (8421505 / 16777216)) 7 8388608 (by norm_num)
      (by rw [abs_of_nonneg (by norm_num)]; norm_num)
      (by rw [abs_of_nonneg (by norm_num)]; norm_num)
      (by rw [abs_lt]; constructor <;> norm_num)
    unfold F32.mul
    norm_num at this ⊢
    exact this
  have h5 : F32.sub 255 128 = 127 := by
    have := F32.round_natCast 127 (by norm_num)
    unfold F32.sub
    norm_num at this ⊢
    exact this
  refine ⟨?_, by norm_num⟩
  rw [h1, h2, h3, h4, h5]
  exact F32.toU32_eq_of (n := 127) (by norm_num) (by norm_num) (by norm_num)

/-! ### The fade update, step by step -/

theorem button_onRender_eq :
    GuiFadingButtonCtrl.onRender = GuiFadingBitmapCtrl.onRender := rfl

theorem bitmapButton_renderButton_eq :
    GuiFadingBitmapButtonCtrl.renderButton = GuiFadingBitmapCtrl.onRender := rfl

theorem button_fadeIn_eq :
    GuiFadingButtonCtrl.fadeIn = GuiFadingBitmapCtrl.fadeIn := rfl

theorem bitmapButton_fadeIn_eq :
    GuiFadingBitmapButtonCtrl.fadeIn = GuiFadingBitmapCtrl.fadeIn := rfl

theorem button_fadeOut_eq :
    GuiFadingButtonCtrl.fadeOut = GuiFadingBitmapCtrl.fadeOut := rfl

theorem bitmapButton_fadeOut_eq :
    GuiFadingBitmapButtonCtrl.fadeOut = GuiFadingBitmapCtrl.fadeOut := rfl

theorem button_onWake_eq :
    GuiFadingButtonCtrl.onWake = GuiFadingBitmapCtrl.onWake := rfl

theorem bitmapButton_onWake_eq :
    GuiFadingBitmapButtonCtrl.onWake = GuiFadingBitmapCtrl.onWake := rfl

namespace GuiFadingBitmapCtrl

theorem onRender_idle (s : FadeState) (now now2 : ℕ) (h : s.mMode = FadeMode.idle) :
    onRender s now now2 = s := by
  simp [onRender, h]

theorem onRender_fadingIn_lt (s : FadeState) (now now2 : ℕ) (h : s.mMode = FadeMode.fadingIn)
    (hlt : U32.sub now s.wakeTime < s.fadeinTime) :
    onRender s now now2 = { s with mAlpha := F32.toU32 (F32.div
      (F32.mul 255 (F32.ofU32 (U32.sub now s.wakeTime))) (F32.ofU32 s.fadeinTime)) } := by
  simp [onRender, h, hlt]

theorem onRender_fadingIn_ge (s : FadeState) (now now2 : ℕ) (h : s.mMode = FadeMode.fadingIn)
    (hge : s.fadeinTime ≤ U32.sub now s.wakeTime) :
    onRender s now now2 = { s with mAlpha := 255, wakeTime := now2, mMode := FadeMode.idle } := by
  simp [onRender, h, not_lt.mpr hge, setMode]

theorem onRender_fadingOut_lt (s : FadeState) (now now2 : ℕ)
    (h : s.mMode = FadeMode.fadingOut) (hlt : U32.sub now s.wakeTime < s.fadeoutTime) :
    onRender s now now2 = { s with mAlpha := F32.toU32 (F32.sub 255 (F32.mul 255
      (F32.div (F32.ofU32 (U32.sub now s.wakeTime)) (F32.ofU32 s.fadeoutTime)))) } := by
  simp [onRender, h, hlt]

theorem onRender_fadingOut_ge (s : FadeState) (now now2 : ℕ)
    (h : s.mMode = FadeMode.fadingOut) (hge : s.fadeoutTime ≤ U32.sub now s.wakeTime) :
    onRender s now now2 = { s with mAlpha := 0, wakeTime := now2, mMode := FadeMode.idle } := by
  simp [onRender, h, not_lt.mpr hge, setMode]

theorem fadeIn_idle (s : FadeState) (now : ℕ) (h : s.mMode = FadeMode.idle) :
    fadeIn s now = { s with wakeTime := now, mMode := FadeMode.fadingIn } := by
  simp [fadeIn, h, setMode]

theorem fadeOut_idle (s : FadeState) (now : ℕ) (h : s.mMode = FadeMode.idle) :
    fadeOut s now = { s with wakeTime := now, mMode := FadeMode.fadingOut } := by
  simp [fadeOut, h, setMode]

theorem fadeIn_of_ne_idle (s : FadeState) (now : ℕ) (h : s.mMode ≠ FadeMode.idle) :
    fadeIn s now = s := by
  simp [fadeIn, h]

theorem fadeOut_of_ne_idle (s : FadeState) (now : ℕ) (h : s.mMode ≠ FadeMode.idle) :
    fadeOut s now = s := by
  simp [fadeOut, h]

/-- One render tick keeps the alpha within `[0, 255]`. -/
theorem onRender_alpha_le (s : FadeState) (now now2 : ℕ) (h : s.mAlpha ≤ 255) :
    (onRender s now now2).mAlpha ≤ 255 := by
  cases hm : s.mMode
  · rw [onRender_idle s now now2 hm]; exact h
  · rcases lt_or_le (U32.sub now s.wakeTime) s.fadeinTime with hlt | hge
    · rw [onRender_fadingIn_lt s now now2 hm hlt]
      exact fadeIn_expr_le _ _ hlt
    · rw [onRender_fadingIn_ge s now now2 hm hge]
  · rcases lt_or_le (U32.sub now s.wakeTime) s.fadeoutTime with hlt | hge
    · rw [onRender_fadingOut_lt s now now2 hm hlt]
      exact fadeOut_expr_le _ _ hlt
    · rw [onRender_fadingOut_ge s now now2 hm hge]; simp

/-- Any call keeps the alpha within `[0, 255]`. -/
theorem call_alpha_le (s : FadeState) (c : FadeCall) (h : s.mAlpha ≤ 255) :
    (call s c).mAlpha ≤ 255 := by
  cases c with
  | fadeIn now =>
    simp only [call, fadeIn, setMode]; split_ifs <;> exact h
  | fadeOut now =>
    simp only [call, fadeOut, setMode]; split_ifs <;> exact h
  | onWake p now =>
    simp only [call, onWake, fadeIn, setMode]
    split_ifs <;> exact h
  | onRender texture now now2 => exact onRender_alpha_le s now now2 h

end GuiFadingBitmapCtrl

theorem button_call_eq :
    GuiFadingButtonCtrl.call = GuiFadingBitmapCtrl.call := by
  funext s c; cases c <;> rfl

theorem bitmapButton_call_alpha_le (s : FadeState) (c : FadeCall)
    (h : s.mAlpha ≤ 255) : (GuiFadingBitmapButtonCtrl.call s c).mAlpha ≤ 255 := by
  cases c with
  | fadeIn now => exact GuiFadingBitmapCtrl.call_alpha_le s (FadeCall.fadeIn now) h
  | fadeOut now => exact GuiFadingBitmapCtrl.call_alpha_le s (FadeCall.fadeOut now) h
  | onWake p now => exact GuiFadingBitmapCtrl.call_alpha_le s (FadeCall.onWake p now) h
  | onRender texture now now2 =>
    cases texture
    · exact h
    · exact GuiFadingBitmapCtrl.onRender_alpha_le s now now2 h

theorem foldl_call_alpha_le (call : FadeState → FadeCall → FadeState)
    (hstep : ∀ s c, s.mAlpha ≤ 255 → (call s c).mAlpha ≤ 255) :
    ∀ (calls : List FadeCall) (s : FadeState), s.mAlpha ≤ 255 →
      (calls.foldl call s).mAlpha ≤ 255 := by
  intro calls
  induction calls with
  | nil => intro s h; exact h
  | cons c cs ih => intro s h; exact ih _ (hstep s c h)

/-- Alpha after a run of ticks in time order, from a step whose in-progress states `P`
store `F now` and whose finished states `Q` are fixed and already hold the final value. -/
theorem renderTicks_alpha (step : FadeState → ℕ → ℕ → FadeState)
    (P Q : FadeState → Prop) (F : ℕ → ℕ) (t0 T : ℕ)
    (hP : ∀ s now now2, P s → t0 ≤ now → now < 2 ^ 32 →
      (step s now now2).mAlpha = F now ∧
        (P (step s now now2) ∨ (Q (step s now now2) ∧ T ≤ now)))
    (hQ : ∀ s now now2, Q s → step s now now2 = s)
    (hQF : ∀ s now, Q s → T ≤ now → s.mAlpha = F now) :
    ∀ (ts : List (ℕ × ℕ)) (s : FadeState) (τ t t2 : ℕ),
      (P s ∧ t0 ≤ τ ∨ Q s ∧ T ≤ τ) →
      List.Pairwise (fun a b => a ≤ b) (τ :: (ts ++ [(t, t2)]).map Prod.fst) → t < 2 ^ 32 →
      (renderTicks step s (ts ++ [(t, t2)])).mAlpha = F t := by
  intro ts
  induction ts with
  | nil =>
    intro s τ t t2 hs hord ht
    have hτ : τ ≤ t := List.rel_of_pairwise_cons hord (by simp)
    simp only [List.nil_append, renderTicks]
    rcases hs with ⟨hp, h0⟩ | ⟨hq, hT⟩
    · exact (hP s t t2 hp (le_trans h0 hτ) ht).1
    · rw [hQ s t t2 hq]; exact hQF s t hq (le_trans hT hτ)
  | cons a ts ih =>
    intro s τ t t2 hs hord ht
    have hτa : τ ≤ a.1 := List.rel_of_pairwise_cons hord (by simp)
    have hord' : List.Pairwise (fun a b => a ≤ b) (a.1 :: (ts ++ [(t, t2)]).map Prod.fst) := by
      have := List.Pairwise.of_cons hord
      simpa using this
    have hat : a.1 ≤ t := List.rel_of_pairwise_cons hord' (by simp)
    simp only [List.cons_append, renderTicks]
    apply ih _ a.1 t t2 _ hord' ht
    rcases hs with ⟨hp, h0⟩ | ⟨hq, hT⟩
    · rcases (hP s a.1 a.2 hp (le_trans h0 hτa) (lt_of_le_of_lt hat ht)).2 with h | ⟨h, h'⟩
      · exact Or.inl ⟨h, le_trans h0 hτa⟩
      · exact Or.inr ⟨h, h'⟩
    · rw [hQ s a.1 a.2 hq]; exact Or.inr ⟨hq, le_trans hT hτa⟩

theorem fadeIn_formula (e D : ℕ) (hD : 0 < D) :
    ⌊(255 : ℚ) * min 1 ((e : ℚ) / D)⌋ = if e < D then ((255 * e / D : ℕ) : ℤ) else 255 := by
  have hDq : (0 : ℚ) < (D : ℚ) := by exact_mod_cast hD
  split_ifs with h
  · have h1 : (e : ℚ) / D ≤ 1 := by
      rw [div_le_one hDq]; exact_mod_cast h.le
    have key := Rat.floor_natCast_div_natCast (255 * e) D
    have e1 : (255 : ℚ) * ((e : ℚ) / D) = ((255 * e : ℕ) : ℚ) / (D : ℚ) := by
      push_cast; ring
    rw [min_eq_right h1, e1, key]; norm_cast
  · have h1 : 1 ≤ (e : ℚ) / D := by
      rw [one_le_div hDq]; exact_mod_cast not_lt.mp h
    rw [min_eq_left h1]; norm_num

theorem fadeOut_formula (e D : ℕ) (hD : 0 < D) :
    ⌊(255 : ℚ) * max 0 (1 - (e : ℚ) / D)⌋
      = if e < D then ((255 * (D - e) / D : ℕ) : ℤ) else 0 := by
  have hDq : (0 : ℚ) < (D : ℚ) := by exact_mod_cast hD
  split_ifs with h
  · have h1 : (e : ℚ) / D ≤ 1 := by
      rw [div_le_one hDq]; exact_mod_cast h.le
    have key := Rat.floor_natCast_div_natCast (255 * (D - e)) D
    have e1 : (255 : ℚ) * (1 - (e : ℚ) / D) = ((255 * (D - e) : ℕ) : ℚ) / (D : ℚ) := by
      rw [Nat.cast_mul, Nat.cast_sub h.le]
      field_simp
    rw [max_eq_right (by linarith), e1, key]; norm_cast
  · have h1 : 1 ≤ (e : ℚ) / D := by
      rw [one_le_div hDq]; exact_mod_cast not_lt.mp h
    rw [max_eq_left (by linarith)]; norm_num

/-! ### Fade traces -/

namespace GuiFadingBitmapCtrl

/-- Alpha along a fade-in started at `t0`, for ticks in time order. -/
theorem fadeIn_trace (s : FadeState) (D t0 t t2 : ℕ) (ts : List (ℕ × ℕ))
    (hmode : s.mMode = FadeMode.fadingIn) (hwake : s.wakeTime = t0)
    (hdur : s.fadeinTime = D) (hD0 : 0 < D) (hD : D ≤ 65536)
    (hord : List.Pairwise (fun a b => a ≤ b) (t0 :: (ts ++ [(t, t2)]).map Prod.fst))
    (ht : t < 2 ^ 32) :
    ((renderTicks onRender s (ts ++ [(t, t2)])).mAlpha : ℤ)
      = ⌊(255 : ℚ) * min 1 (((t : ℚ) - t0) / D)⌋ := by
  have ht0 : t0 ≤ t := List.rel_of_pairwise_cons hord (by simp)
  have key := renderTicks_alpha onRender
    (fun s => s.mMode = FadeMode.fadingIn ∧ s.wakeTime = t0 ∧ s.fadeinTime = D)
    (fun s => s.mMode = FadeMode.idle ∧ s.mAlpha = 255)
    (fun now => if now - t0 < D then 255 * (now - t0) / D else 255) t0 (t0 + D)
    (by
      rintro s now now2 ⟨hm, hw, hd⟩ h0 hlt
      have hsub : U32.sub now s.wakeTime = now - t0 := by
        rw [hw]; exact U32.sub_of_le h0 hlt
      by_cases hc : now - t0 < D
      · rw [onRender_fadingIn_lt s now now2 hm (by rw [hsub, hd]; exact hc)]
        simp only [hc, if_true]
        refine ⟨?_, Or.inl ⟨hm, hw, hd⟩⟩
        rw [hsub, hd]
        exact fadeIn_expr_eq _ _ (by omega) hc
      · rw [onRender_fadingIn_ge s now now2 hm (by rw [hsub, hd]; omega)]
        simp only [hc, if_false]
        exact ⟨trivial, Or.inr ⟨⟨trivial, trivial⟩, by omega⟩⟩)
    (by rintro s now now2 ⟨hm, _⟩; exact onRender_idle s now now2 hm)
    (by
      rintro s now ⟨_, ha⟩ hT
      have : ¬ (now - t0 < D) := by omega
      simp only [this, if_false]; exact ha)
    ts s t0 t t2 (Or.inl ⟨⟨hmode, hwake, hdur⟩, le_refl _⟩) hord ht
  rw [key, ← Nat.cast_sub ht0, fadeIn_formula _ _ hD0]
  show ((if t - t0 < D then 255 * (t - t0) / D else 255 : ℕ) : ℤ) = _
  split_ifs <;> norm_cast

/-- Alpha along a fade-out started at `t0`, for ticks in time order. -/
theorem fadeOut_trace (s : FadeState) (D t0 t t2 : ℕ) (ts : List (ℕ × ℕ))
    (hmode : s.mMode = FadeMode.fadingOut) (hwake : s.wakeTime = t0)
    (hdur : s.fadeoutTime = D) (hD0 : 0 < D) (hD : D ≤ 65536)
    (hord : List.Pairwise (fun a b => a ≤ b) (t0 :: (ts ++ [(t, t2)]).map Prod.fst))
    (ht : t < 2 ^ 32) :
    ((renderTicks onRender s (ts ++ [(t, t2)])).mAlpha : ℤ)
      = ⌊(255 : ℚ) * max 0 (1 - ((t : ℚ) - t0) / D)⌋ := by
  have ht0 : t0 ≤ t := List.rel_of_pairwise_cons hord (by simp)
  have key := renderTicks_alpha onRender
    (fun s => s.mMode = FadeMode.fadingOut ∧ s.wakeTime = t0 ∧ s.fadeoutTime = D)
    (fun s => s.mMode = FadeMode.idle ∧ s.mAlpha = 0)
    (fun now => if now - t0 < D then 255 * (D - (now - t0)) / D else 0) t0 (t0 + D)
    (by
      rintro s now now2 ⟨hm, hw, hd⟩ h0 hlt
      have hsub : U32.sub now s.wakeTime = now - t0 := by
        rw [hw]; exact U32.sub_of_le h0 hlt
      by_cases hc : now - t0 < D
      · rw [onRender_fadingOut_lt s now now2 hm (by rw [hsub, hd]; exact hc)]
        simp only [hc, if_true]
        refine ⟨?_, Or.inl ⟨hm, hw, hd⟩⟩
        rw [hsub, hd]
        exact fadeOut_expr_eq _ _ (by omega) hc
      · rw [onRender_fadingOut_ge s now now2 hm (by rw [hsub, hd]; omega)]
        simp only [hc, if_false]
        exact ⟨trivial, Or.inr ⟨⟨trivial, trivial⟩, by omega⟩⟩)
    (by rintro s now now2 ⟨hm, _⟩; exact onRender_idle s now now2 hm)
    (by
      rintro s now ⟨_, ha⟩ hT
      have : ¬ (now - t0 < D) := by omega
      simp only [this, if_false]; exact ha)
    ts s t0 t t2 (Or.inl ⟨⟨hmode, hwake, hdur⟩, le_refl _⟩) hord ht
  rw [key, ← Nat.cast_sub ht0, fadeOut_formula _ _ hD0]
  show ((if t - t0 < D then 255 * (D - (t - t0)) / D else 0 : ℕ) : ℤ) = _
  split_ifs <;> norm_cast

/-- A tick that takes the mode from a fade into `idle` stores the terminal alpha and the
clock value read by `setMode`. -/
theorem onRender_enters_idle (s : FadeState) (now now2 : ℕ) (hm : s.mMode ≠ FadeMode.idle)
    (hi : (onRender s now now2).mMode = FadeMode.idle) :
    (onRender s now now2).wakeTime = now2 ∧
      (s.mMode = FadeMode.fadingIn → (onRender s now now2).mAlpha = 255) ∧
      (s.mMode = FadeMode.fadingOut → (onRender s now now2).mAlpha = 0) := by
  cases hmode : s.mMode
  · exact absurd hmode hm
  · rcases lt_or_le (U32.sub now s.wakeTime) s.fadeinTime with hlt | hge
    · rw [onRender_fadingIn_lt s now now2 hmode hlt] at hi
      simp [hmode] at hi
    · rw [onRender_fadingIn_ge s now now2 hmode hge]; simp
  · rcases lt_or_le (U32.sub now s.wakeTime) s.fadeoutTime with hlt | hge
    · rw [onRender_fadingOut_lt s now now2 hmode hlt] at hi
      simp [hmode] at hi
    · rw [onRender_fadingOut_ge s now now2 hmode hge]; simp

theorem renderTicks_idle (s : FadeState) (h : s.mMode = FadeMode.idle) :
    ∀ ts : List (ℕ × ℕ), renderTicks onRender s ts = s ∧ idleEntries onRender s ts = 0 := by
  intro ts
  induction ts with
  | nil => exact ⟨rfl, rfl⟩
  | cons t ts ih =>
    simp only [renderTicks, idleEntries, onRender_idle s t.1 t.2 h]
    refine ⟨ih.1, ?_⟩
    simp [h, ih.2]

theorem renderTicks_fadingIn_pre (s : FadeState) (h : s.mMode = FadeMode.fadingIn) :
    ∀ pre : List (ℕ × ℕ), (∀ p ∈ pre, U32.sub p.1 s.wakeTime < s.fadeinTime) →
      (renderTicks onRender s pre).mMode = FadeMode.fadingIn ∧
      (renderTicks onRender s pre).wakeTime = s.wakeTime ∧
      (renderTicks onRender s pre).fadeinTime = s.fadeinTime ∧
      ∀ rest, idleEntries onRender s (pre ++ rest)
        = idleEntries onRender (renderTicks onRender s pre) rest := by
  intro pre
  induction pre generalizing s with
  | nil => intro _; exact ⟨h, rfl, rfl, fun _ => rfl⟩
  | cons p pre ih =>
    intro hp
    have hlt := hp p (by simp)
    have hstep := onRender_fadingIn_lt s p.1 p.2 h hlt
    have ih' := ih (onRender s p.1 p.2) (by rw [hstep]; exact h)
      (by
        intro q hq
        have := hp q (by simp [hq])
        rw [hstep]; exact this)
    simp only [renderTicks]
    refine ⟨ih'.1, ?_, ?_, ?_⟩
    · rw [ih'.2.1, hstep]
    · rw [ih'.2.2.1, hstep]
    · intro rest
      have hm : (onRender s p.1 p.2).mMode = FadeMode.fadingIn := by rw [hstep]; exact h
      have e := ih'.2.2.2 rest
      show (if s.mMode ≠ FadeMode.idle ∧ (onRender s p.1 p.2).mMode = FadeMode.idle
          then 1 else 0) + idleEntries onRender (onRender s p.1 p.2) (pre ++ rest) = _
      rw [e]
      simp [hm]

end GuiFadingBitmapCtrl

theorem fadeWidgets_cases (w : FadeWidget) (hw : w ∈ fadeWidgets) :
    w.fadeIn = GuiFadingBitmapCtrl.fadeIn ∧ w.fadeOut = GuiFadingBitmapCtrl.fadeOut ∧
    w.onWake = GuiFadingBitmapCtrl.onWake ∧ w.render = GuiFadingBitmapCtrl.onRender ∧
    w.new = GuiFadingBitmapCtrl.new ∧
    (∀ s c, s.mAlpha ≤ 255 → (w.call s c).mAlpha ≤ 255) := by
  simp only [fadeWidgets, List.mem_cons, List.mem_singleton, List.not_mem_nil, or_false] at hw
  rcases hw with rfl | rfl | rfl
  · exact ⟨rfl, rfl, rfl, rfl, rfl, GuiFadingBitmapCtrl.call_alpha_le⟩
  · refine ⟨rfl, rfl, rfl, rfl, rfl, ?_⟩
    show ∀ s c, s.mAlpha ≤ 255 → (GuiFadingButtonCtrl.call s c).mAlpha ≤ 255
    rw [button_call_eq]; exact GuiFadingBitmapCtrl.call_alpha_le
  · exact ⟨rfl, rfl, rfl, rfl, rfl, bitmapButton_call_alpha_le⟩

/-! ### Claims on the fading controls -/

/-- C1 (amended): in each of the three fading controls, for a fade-in of duration `D` with
`0 < D ≤ 65536` ms started from Idle at time `t0`, after every render tick at a time
`t ≥ t0` (ticks taken in time order) the stored alpha is `⌊255 * min 1 ((t - t0) / D)⌋`:
the conversion to `U32` truncates, it does not round. -/
theorem C1_fadeIn_alpha_floor (w : FadeWidget) (hw : w ∈ fadeWidgets) (s0 : FadeState)
    (D t0 t t2 : ℕ) (ts : List (ℕ × ℕ))
    (hidle : s0.mMode = FadeMode.idle) (hdur : s0.fadeinTime = D)
    (hD0 : 0 < D) (hD : D ≤ 65536)
    (hord : List.Pairwise (fun a b => a ≤ b) (t0 :: (ts ++ [(t, t2)]).map Prod.fst))
    (ht : t < 2 ^ 32) :
    ((renderTicks w.render (w.fadeIn s0 t0) (ts ++ [(t, t2)])).mAlpha : ℤ)
      = ⌊(255 : ℚ) * min 1 (((t : ℚ) - t0) / D)⌋ := by
  obtain ⟨hfi, -, -, hr, -, -⟩ := fadeWidgets_cases w hw
  rw [hfi, hr, GuiFadingBitmapCtrl.fadeIn_idle s0 t0 hidle]
  exact GuiFadingBitmapCtrl.fadeIn_trace _ D t0 t t2 ts rfl rfl hdur hD0 hD hord ht

/-- Instance of C1: a one-second fade-in of a fresh `GuiFadingBitmapCtrl` started at
time 100, ticks at 600 and 1099. -/
theorem C1_fadeIn_alpha_floor_witness :
    ((renderTicks GuiFadingBitmapCtrl.onRender
        (GuiFadingBitmapCtrl.fadeIn GuiFadingBitmapCtrl.new 100)
        ([(600, 600)] ++ [(1099, 1100)])).mAlpha : ℤ)
      = ⌊(255 : ℚ) * min 1 ((((1099 : ℕ) : ℚ) - ((100 : ℕ) : ℚ)) / ((1000 : ℕ) : ℚ))⌋ :=
  C1_fadeIn_alpha_floor GuiFadingBitmapCtrl.widget (by simp [fadeWidgets])
    GuiFadingBitmapCtrl.new 1000 100 1099 1100 [(600, 600)] rfl rfl
    (by norm_num) (by norm_num) (by simp) (by norm_num)

/-- C1 as stated fails: 999 ms into a 1000 ms fade-in the stored alpha is 254, while
`round (255 * min 1 (999 / 1000))` is 255. -/
theorem C1_round_counterexample :
    (GuiFadingBitmapCtrl.onRender
        (GuiFadingBitmapCtrl.fadeIn GuiFadingBitmapCtrl.new 0) 999 999).mAlpha = 254 ∧
      round ((255 : ℚ) * min 1 (((999 : ℚ) - 0) / 1000)) = 255 := by
  constructor
  · have hs : GuiFadingBitmapCtrl.fadeIn GuiFadingBitmapCtrl.new 0
        = ⟨0, 1000, 1000, 255, FadeMode.fadingIn, false⟩ := rfl
    have hsub : U32.sub 999 0 = 999 := U32.sub_of_le (by norm_num) (by norm_num)
    rw [hs, GuiFadingBitmapCtrl.onRender_fadingIn_lt _ 999 999 rfl (by rw [hsub]; norm_num)]
    show F32.toU32 (F32.div (F32.mul 255 (F32.ofU32 (U32.sub 999 0))) (F32.ofU32 1000)) = 254
    rw [hsub, fadeIn_expr_eq 999 1000 (by norm_num) (by norm_num)]
  · rw [round_eq, Int.floor_eq_iff]
    norm_num

/-- C2 (amended): in each of the three fading controls, for a fade-out of duration `D`
with `0 < D ≤ 65536` ms started from Idle at time `t0`, after every render tick at a time
`t ≥ t0` (ticks taken in time order) the stored alpha is
`⌊255 * max 0 (1 - (t - t0) / D)⌋` (truncation, not rounding); and, for any duration, the
tick that ends a fade-out stores alpha 0. -/
theorem C2_fadeOut_alpha_floor (w : FadeWidget) (hw : w ∈ fadeWidgets) (s0 : FadeState)
    (D t0 t t2 : ℕ) (ts : List (ℕ × ℕ))
    (hidle : s0.mMode = FadeMode.idle) (hdur : s0.fadeoutTime = D)
    (hD0 : 0 < D) (hD : D ≤ 65536)
    (hord : List.Pairwise (fun a b => a ≤ b) (t0 :: (ts ++ [(t, t2)]).map Prod.fst))
    (ht : t < 2 ^ 32) :
    ((renderTicks w.render (w.fadeOut s0 t0) (ts ++ [(t, t2)])).mAlpha : ℤ)
        = ⌊(255 : ℚ) * max 0 (1 - ((t : ℚ) - t0) / D)⌋ ∧
      ∀ (s : FadeState) (now now2 : ℕ), s.mMode = FadeMode.fadingOut →
        (w.render s now now2).mMode = FadeMode.idle → (w.render s now now2).mAlpha = 0 := by
  obtain ⟨-, hfo, -, hr, -, -⟩ := fadeWidgets_cases w hw
  rw [hfo, hr, GuiFadingBitmapCtrl.fadeOut_idle s0 t0 hidle]
  refine ⟨GuiFadingBitmapCtrl.fadeOut_trace _ D t0 t t2 ts rfl rfl hdur hD0 hD hord ht, ?_⟩
  intro s now now2 hm hi
  exact (GuiFadingBitmapCtrl.onRender_enters_idle s now now2 (by rw [hm]; decide) hi).2.2 hm

/-- Instance of C2: a one-second fade-out of a fresh `GuiFadingButtonCtrl` started at
time 100 with ticks at 600 and 1099, and the tick at 1100 that ends a fade-out. -/
theorem C2_fadeOut_alpha_floor_witness :
    ((renderTicks GuiFadingButtonCtrl.onRender
        (GuiFadingButtonCtrl.fadeOut GuiFadingButtonCtrl.new 100)
        ([(600, 600)] ++ [(1099, 1100)])).mAlpha : ℤ)
        = ⌊(255 : ℚ) * max 0 (1 - (((1099 : ℕ) : ℚ) - ((100 : ℕ) : ℚ)) / ((1000 : ℕ) : ℚ))⌋ ∧
      (GuiFadingButtonCtrl.onRender ⟨100, 1000, 1000, 3, FadeMode.fadingOut, false⟩
        1100 1101).mAlpha = 0 :=
  have h := C2_fadeOut_alpha_floor GuiFadingButtonCtrl.widget (by simp [fadeWidgets])
    GuiFadingButtonCtrl.new 1000 100 1099 1100 [(600, 600)] rfl rfl
    (by norm_num) (by norm_num) (by simp) (by norm_num)
  ⟨h.1, h.2 ⟨100, 1000, 1000, 3, FadeMode.fadingOut, false⟩ 1100 1101 rfl (by decide)⟩

/-- C2 as stated fails: 1 ms into a 1000 ms fade-out the stored alpha is 254, while
`round (255 * max 0 (1 - 1 / 1000))` is 255. -/
theorem C2_round_counterexample :
    (GuiFadingBitmapCtrl.onRender
        (GuiFadingBitmapCtrl.fadeOut GuiFadingBitmapCtrl.new 0) 1 1).mAlpha = 254 ∧
      round ((255 : ℚ) * max 0 (1 - ((1 : ℚ) - 0) / 1000)) = 255 := by
  constructor
  · have hs : GuiFadingBitmapCtrl.fadeOut GuiFadingBitmapCtrl.new 0
        = ⟨0, 1000, 1000, 255, FadeMode.fadingOut, false⟩ := rfl
    have hsub : U32.sub 1 0 = 1 := U32.sub_of_le (by norm_num) (by norm_num)
    rw [hs, GuiFadingBitmapCtrl.onRender_fadingOut_lt _ 1 1 rfl (by rw [hsub]; norm_num)]
    show F32.toU32 (F32.sub 255 (F32.mul 255
      (F32.div (F32.ofU32 (U32.sub 1 0)) (F32.ofU32 1000)))) = 254
    rw [hsub, fadeOut_expr_eq 1 1000 (by norm_num) (by norm_num)]
  · rw [round_eq, Int.floor_eq_iff]
    norm_num

/-- C3: in each fading control, during a fade-in the ticks with `elapsed < fadeinTime`
keep the mode FadingIn, the first tick with `elapsed ≥ fadeinTime` stores alpha 255 and
mode Idle, every later run of render ticks leaves mode Idle and alpha 255, and over the
whole run the mode enters Idle exactly once. -/
theorem C3_fadeIn_completes_once (w : FadeWidget) (hw : w ∈ fadeWidgets) (s : FadeState)
    (pre later : List (ℕ × ℕ)) (now now2 : ℕ)
    (hmode : s.mMode = FadeMode.fadingIn)
    (hpre : ∀ p ∈ pre, U32.sub p.1 s.wakeTime < s.fadeinTime)
    (hend : s.fadeinTime ≤ U32.sub now s.wakeTime) :
    (renderTicks w.render s pre).mMode = FadeMode.fadingIn ∧
    (w.render (renderTicks w.render s pre) now now2).mAlpha = 255 ∧
    (w.render (renderTicks w.render s pre) now now2).mMode = FadeMode.idle ∧
    (∀ more : List (ℕ × ℕ),
      (renderTicks w.render (w.render (renderTicks w.render s pre) now now2) more).mMode
          = FadeMode.idle ∧
      (renderTicks w.render (w.render (renderTicks w.render s pre) now now2) more).mAlpha
          = 255) ∧
    idleEntries w.render s (pre ++ (now, now2) :: later) = 1 := by
  obtain ⟨-, -, -, hr, -, -⟩ := fadeWidgets_cases w hw
  rw [hr]
  obtain ⟨h1, h2, h3, h4⟩ := GuiFadingBitmapCtrl.renderTicks_fadingIn_pre s hmode pre hpre
  have hge : (renderTicks GuiFadingBitmapCtrl.onRender s pre).fadeinTime
      ≤ U32.sub now (renderTicks GuiFadingBitmapCtrl.onRender s pre).wakeTime := by
    rw [h2, h3]; exact hend
  have hstep := GuiFadingBitmapCtrl.onRender_fadingIn_ge _ now now2 h1 hge
  have hidle : (GuiFadingBitmapCtrl.onRender
      (renderTicks GuiFadingBitmapCtrl.onRender s pre) now now2).mMode = FadeMode.idle := by
    rw [hstep]
  have halpha : (GuiFadingBitmapCtrl.onRender
      (renderTicks GuiFadingBitmapCtrl.onRender s pre) now now2).mAlpha = 255 := by
    rw [hstep]
  refine ⟨h1, halpha, hidle, ?_, ?_⟩
  · intro more
    rw [(GuiFadingBitmapCtrl.renderTicks_idle _ hidle more).1]
    exact ⟨hidle, halpha⟩
  · rw [h4]
    show (if (renderTicks GuiFadingBitmapCtrl.onRender s pre).mMode ≠ FadeMode.idle ∧
        (GuiFadingBitmapCtrl.onRender (renderTicks GuiFadingBitmapCtrl.onRender s pre)
          now now2).mMode = FadeMode.idle then 1 else 0)
      + idleEntries GuiFadingBitmapCtrl.onRender (GuiFadingBitmapCtrl.onRender
          (renderTicks GuiFadingBitmapCtrl.onRender s pre) now now2) later = 1
    rw [(GuiFadingBitmapCtrl.renderTicks_idle _ hidle later).2]
    simp [h1, hidle]

/-- Instance of C3: a one-second fade-in started at time 0, ticks at 400 and 1000, then
ticks at 1016 and 1033. -/
theorem C3_fadeIn_completes_once_witness :
    (GuiFadingBitmapCtrl.onRender (renderTicks GuiFadingBitmapCtrl.onRender
        ⟨0, 1000, 1000, 0, FadeMode.fadingIn, false⟩ [(400, 400)]) 1000 1001).mAlpha = 255 ∧
    idleEntries GuiFadingBitmapCtrl.onRender ⟨0, 1000, 1000, 0, FadeMode.fadingIn, false⟩
      ([(400, 400)] ++ (1000, 1001) :: [(1016, 1016), (1033, 1033)]) = 1 :=
  have h := C3_fadeIn_completes_once GuiFadingBitmapCtrl.widget (by simp [fadeWidgets])
    ⟨0, 1000, 1000, 0, FadeMode.fadingIn, false⟩ [(400, 400)]
    [(1016, 1016), (1033, 1033)] 1000 1001 rfl
    (by
      intro p hp
      simp only [List.mem_singleton] at hp
      subst hp
      show U32.sub 400 0 < 1000
      rw [U32.sub_of_le (by norm_num) (by norm_num)]; norm_num)
    (by
      show 1000 ≤ U32.sub 1000 0
      rw [U32.sub_of_le (by norm_num) (by norm_num)])
  ⟨h.2.1, h.2.2.2.2⟩

/-- C4: in each of the three fading controls, when the mode is FadingIn or FadingOut,
`fadeIn` and `fadeOut` return the state unchanged (mode, wake time and alpha included). -/
theorem C4_fade_calls_noop_during_fade (w : FadeWidget) (hw : w ∈ fadeWidgets)
    (s : FadeState) (now : ℕ)
    (h : s.mMode = FadeMode.fadingIn ∨ s.mMode = FadeMode.fadingOut) :
    w.fadeIn s now = s ∧ w.fadeOut s now = s := by
  obtain ⟨hfi, hfo, -, -, -, -⟩ := fadeWidgets_cases w hw
  have hne : s.mMode ≠ FadeMode.idle := by
    rcases h with h | h <;> rw [h] <;> decide
  rw [hfi, hfo]
  exact ⟨GuiFadingBitmapCtrl.fadeIn_of_ne_idle s now hne,
    GuiFadingBitmapCtrl.fadeOut_of_ne_idle s now hne⟩

/-- Instance of C4: `GuiFadingBitmapButtonCtrl` half-way through a fade-out. -/
theorem C4_fade_calls_noop_during_fade_witness :
    GuiFadingBitmapButtonCtrl.fadeIn ⟨40, 1000, 1000, 128, FadeMode.fadingOut, false⟩ 540
        = ⟨40, 1000, 1000, 128, FadeMode.fadingOut, false⟩ ∧
      GuiFadingBitmapButtonCtrl.fadeOut ⟨40, 1000, 1000, 128, FadeMode.fadingOut, false⟩ 540
        = ⟨40, 1000, 1000, 128, FadeMode.fadingOut, false⟩ :=
  C4_fade_calls_noop_during_fade GuiFadingBitmapButtonCtrl.widget (by simp [fadeWidgets])
    ⟨40, 1000, 1000, 128, FadeMode.fadingOut, false⟩ 540 (Or.inr rfl)

/-- C5: in each of the three fading controls, from Idle `fadeIn` (resp. `fadeOut`) sets
the mode to FadingIn (resp. FadingOut) and the wake time to the clock value and changes
nothing else, and a render tick that takes the mode from a fade to Idle sets the wake
time to the clock value read at that moment. -/
theorem C5_mode_change_records_time (w : FadeWidget) (hw : w ∈ fadeWidgets)
    (s : FadeState) (now now2 : ℕ) :
    (s.mMode = FadeMode.idle →
      w.fadeIn s now = { s with mMode := FadeMode.fadingIn, wakeTime := now } ∧
      w.fadeOut s now = { s with mMode := FadeMode.fadingOut, wakeTime := now }) ∧
    (s.mMode ≠ FadeMode.idle → (w.render s now now2).mMode = FadeMode.idle →
      (w.render s now now2).wakeTime = now2) := by
  obtain ⟨hfi, hfo, -, hr, -, -⟩ := fadeWidgets_cases w hw
  rw [hfi, hfo, hr]
  refine ⟨fun h => ⟨GuiFadingBitmapCtrl.fadeIn_idle s now h,
    GuiFadingBitmapCtrl.fadeOut_idle s now h⟩, fun hm hi => ?_⟩
  exact (GuiFadingBitmapCtrl.onRender_enters_idle s now now2 hm hi).1

/-- Instance of C5: `fadeIn` on a fresh `GuiFadingButtonCtrl` at time 7, and the tick at
time 1500 (clock 1501 inside `setMode`) that ends a fade-out. -/
theorem C5_mode_change_records_time_witness :
    GuiFadingButtonCtrl.fadeIn GuiFadingButtonCtrl.new 7
        = { GuiFadingButtonCtrl.new with mMode := FadeMode.fadingIn, wakeTime := 7 } ∧
      (GuiFadingButtonCtrl.onRender ⟨0, 1000, 1000, 9, FadeMode.fadingOut, false⟩
        1500 1501).wakeTime = 1501 :=
  ⟨((C5_mode_change_records_time GuiFadingButtonCtrl.widget (by simp [fadeWidgets])
      GuiFadingButtonCtrl.new 7 0).1 rfl).1,
    (C5_mode_change_records_time GuiFadingButtonCtrl.widget (by simp [fadeWidgets])
      ⟨0, 1000, 1000, 9, FadeMode.fadingOut, false⟩ 1500 1501).2 (by decide) (by decide)⟩

/-- C6: in each of the three fading controls, in every state reached from a freshly
constructed control with any configured durations and `fadeInOnWake` setting, by any
sequence of `fadeIn`, `fadeOut`, `onWake` and render calls with any clock values, the
stored alpha is between 0 and 255. -/
theorem C6_alpha_in_range (w : FadeWidget) (hw : w ∈ fadeWidgets)
    (fadeinTime fadeoutTime : ℕ) (fadeInOnWake : Bool) (calls : List FadeCall) :
    0 ≤ (calls.foldl w.call (w.configured fadeinTime fadeoutTime fadeInOnWake)).mAlpha ∧
      (calls.foldl w.call (w.configured fadeinTime fadeoutTime fadeInOnWake)).mAlpha ≤ 255 := by
  obtain ⟨-, -, -, -, hn, hc⟩ := fadeWidgets_cases w hw
  refine ⟨Nat.zero_le _, foldl_call_alpha_le w.call hc calls _ ?_⟩
  show w.new.mAlpha ≤ 255
  rw [hn]; decide

/-- Instance of C6: a `GuiFadingBitmapButtonCtrl` with a zero fade-in time and a
three-day fade-out time, woken, faded out, and rendered with and without a texture. -/
theorem C6_alpha_in_range_witness :
    0 ≤ ([FadeCall.onWake true 5, FadeCall.fadeOut 9, FadeCall.onRender true 77 77,
        FadeCall.onRender false 90 90, FadeCall.fadeIn 100].foldl
        GuiFadingBitmapButtonCtrl.call
        (GuiFadingBitmapButtonCtrl.widget.configured 0 259200000 true)).mAlpha ∧
      ([FadeCall.onWake true 5, FadeCall.fadeOut 9, FadeCall.onRender true 77 77,
        FadeCall.onRender false 90 90, FadeCall.fadeIn 100].foldl
        GuiFadingBitmapButtonCtrl.call
        (GuiFadingBitmapButtonCtrl.widget.configured 0 259200000 true)).mAlpha ≤ 255 :=
  C6_alpha_in_range GuiFadingBitmapButtonCtrl.widget (by simp [fadeWidgets])
    0 259200000 true _

/-! ### The object view: bit vectors and shape instances -/

theorem BitVector.clear_setSize (b : BitVector) (n : ℕ) :
    BitVector.clear (BitVector.setSize b n) = List.replicate n false := by
  unfold BitVector.clear BitVector.setSize
  congr 1
  simp only [List.length_append, List.length_take, List.length_replicate]
  omega

theorem BitVector.test_replicate_true {n j : ℕ} (h : j < n) :
    BitVector.test (List.replicate n true) j = true := by
  simp [BitVector.test, List.getElem?_replicate, h]

theorem BitVector.test_set_replicate (n i j : ℕ) (hi : i < n) (hj : j < n) :
    BitVector.test ((List.replicate n true).set i false) j = decide (j ≠ i) := by
  unfold BitVector.test
  rw [List.getD_eq_getElem?_getD, List.getElem?_set]
  by_cases h : i = j
  · subst h; simp [hi]
  · have h' : j ≠ i := fun e => h e.symm
    simp [h, h', List.getElem?_replicate, hj]

theorem set_replicate_append_drop (l : List Bool) (k : ℕ) (h : Bool) (hk : k < l.length) :
    (List.replicate k h ++ l.drop k).set k h = List.replicate (k + 1) h ++ l.drop (k + 1) := by
  apply List.ext_getElem?
  intro j
  rw [List.getElem?_set]
  simp only [List.length_append, List.length_replicate, List.length_drop,
    List.getElem?_append, List.getElem?_replicate, List.getElem?_drop]
  by_cases h1 : k = j
  · subst h1
    have : k < k + (l.length - k) := by omega
    simp [this]
  · by_cases h2 : j < k
    · have : j < k + 1 := by omega
      simp [h1, h2, this]
    · have h3 : ¬ j < k + 1 := by omega
      simp only [h1, h2, h3, if_false]
      congr 1
      omega

namespace GuiObjectView

theorem setAllMeshesHiddenLoop_eq_foldl (h : Bool) :
    ∀ (is : List ℕ) (m : TSShapeInstance),
      setAllMeshesHiddenLoop m h is = is.foldl (fun m i => m.setMeshForceHidden i h) m := by
  intro is
  induction is with
  | nil => intro m; rfl
  | cons i is ih => intro m; simp only [setAllMeshesHiddenLoop, List.foldl_cons]; exact ih _

theorem setAllMeshesHiddenLoop_range (m : TSShapeInstance) (h : Bool) :
    ∀ k : ℕ, k ≤ m.meshForceHidden.length →
      (setAllMeshesHiddenLoop m h (List.range k)).meshForceHidden
          = List.replicate k h ++ m.meshForceHidden.drop k ∧
      (setAllMeshesHiddenLoop m h (List.range k)).shape = m.shape ∧
      (setAllMeshesHiddenLoop m h (List.range k)).threads = m.threads := by
  intro k
  induction k with
  | zero => intro _; simp [setAllMeshesHiddenLoop]
  | succ k ih =>
    intro hk
    obtain ⟨h1, h2, h3⟩ := ih (by omega)
    rw [setAllMeshesHiddenLoop_eq_foldl] at h1 h2 h3 ⊢
    rw [List.range_succ, List.foldl_append]
    simp only [List.foldl_cons, List.foldl_nil]
    refine ⟨?_, h2, h3⟩
    show ((List.foldl (fun m i => m.setMeshForceHidden i h) m (List.range k)).meshForceHidden).set
      k h = _
    rw [h1]
    exact set_replicate_append_drop _ k h (by omega)

theorem reSkinLoop_frame (skins : List String) :
    ∀ (m : TSShapeInstance) (applied : String),
      (reSkinLoop m applied skins).1.shape = m.shape ∧
      (reSkinLoop m applied skins).1.meshForceHidden = m.meshForceHidden ∧
      (reSkinLoop m applied skins).1.threads = m.threads := by
  induction skins with
  | nil => intro m applied; exact ⟨rfl, rfl, rfl⟩
  | cons skin rest ih =>
    intro m applied
    unfold reSkinLoop
    cases splitOldNew skin with
    | none => exact ih _ _
    | some p => exact ih _ _

/-- With a model present `reSkin` returns a state, which differs from the given one at most
in the model's skin requests and in `mAppliedSkinName`. -/
theorem reSkin_of_model (E : Engine) (s : GuiObjectView) (m : TSShapeInstance)
    (hm : s.mModel = some m) :
    ∃ (m' : TSShapeInstance) (applied : String),
      reSkin E s = some { s with mModel := some m', mAppliedSkinName := applied } ∧
      m'.shape = m.shape ∧ m'.meshForceHidden = m.meshForceHidden ∧
      m'.threads = m.threads := by
  unfold reSkin
  by_cases hv : s.mSkinNameHandle.isValidString
  · simp only [hv, if_true, hm]
    cases hsp : E.split (s.mSkinNameHandle.getString E) with
    | nil => exact ⟨m, s.mAppliedSkinName, by simp [← hm], rfl, rfl, rfl⟩
    | cons skin rest =>
      obtain ⟨h1, h2, h3⟩ := reSkinLoop_frame (skin :: rest) m s.mAppliedSkinName
      exact ⟨_, _, rfl, h1, h2, h3⟩
  · simp only [hv]
    exact ⟨m, s.mAppliedSkinName, by simp [← hm], rfl, rfl, rfl⟩

end GuiObjectView

namespace GuiObjectView

theorem setObjectModel_camera_frame (s : GuiObjectView) (shape : TSShape) :
    (setObjectModel_camera s shape).mModel = s.mModel ∧
    (setObjectModel_camera s shape).mMeshHidden = s.mMeshHidden ∧
    (setObjectModel_camera s shape).mRunThread = s.mRunThread ∧
    (setObjectModel_camera s shape).mAnimationSeq = s.mAnimationSeq ∧
    (setObjectModel_camera s shape).mAnimationSeqName = s.mAnimationSeqName ∧
    (setObjectModel_camera s shape).mMountedModel = s.mMountedModel ∧
    (setObjectModel_camera s shape).mMountNodeName = s.mMountNodeName ∧
    (setObjectModel_camera s shape).mMountNode = s.mMountNode ∧
    (setObjectModel_camera s shape).mMountTransform = s.mMountTransform := by
  unfold setObjectModel_camera
  dsimp only
  split_ifs <;> exact ⟨rfl, rfl, rfl, rfl, rfl, rfl, rfl, rfl, rfl⟩

/-- What `_initAnimation` leaves alone. -/
theorem _initAnimation_frame (s : GuiObjectView) (model : TSShapeInstance) (vnow : ℤ) :
    (_initAnimation s model vnow).mMeshHidden = s.mMeshHidden ∧
    (_initAnimation s model vnow).mMountedModel = s.mMountedModel ∧
    (_initAnimation s model vnow).mMountNodeName = s.mMountNodeName ∧
    (_initAnimation s model vnow).mMountNode = s.mMountNode ∧
    (_initAnimation s model vnow).mMountTransform = s.mMountTransform := by
  unfold _initAnimation
  dsimp only
  split_ifs
  all_goals first
    | exact ⟨rfl, rfl, rfl, rfl, rfl⟩
    | (split <;> exact ⟨rfl, rfl, rfl, rfl, rfl⟩)

/-- The model after `_initAnimation` is the given one up to its animation threads. -/
theorem _initAnimation_model (s : GuiObjectView) (model : TSShapeInstance) (vnow : ℤ)
    (hm : s.mModel = some model) :
    ∃ m', (_initAnimation s model vnow).mModel = some m' ∧ m'.shape = model.shape ∧
      m'.meshForceHidden = model.meshForceHidden := by
  unfold _initAnimation
  dsimp only
  split_ifs
  all_goals first
    | exact ⟨model, hm, rfl, rfl⟩
    | (split <;> exact ⟨_, rfl, rfl, rfl⟩)

/-- The sequence index and thread chosen by `_initAnimation` depend only on the configured
sequence name and index, the current thread, the shape and the number of threads. -/
theorem _initAnimation_congr (s s' : GuiObjectView) (model model' : TSShapeInstance)
    (vnow : ℤ) (h1 : s.mAnimationSeqName = s'.mAnimationSeqName)
    (h2 : s.mAnimationSeq = s'.mAnimationSeq) (h3 : s.mRunThread = s'.mRunThread)
    (h4 : model.shape = model'.shape) (h5 : model.threads.length = model'.threads.length) :
    (_initAnimation s model vnow).mAnimationSeq = (_initAnimation s' model' vnow).mAnimationSeq ∧
    (_initAnimation s model vnow).mRunThread = (_initAnimation s' model' vnow).mRunThread := by
  unfold _initAnimation
  dsimp only
  rw [← h1, ← h2, ← h3, ← h4]
  split_ifs
  all_goals first
    | exact ⟨rfl, rfl⟩
    | exact ⟨h2, h3⟩
    | (cases s.mRunThread <;> simp [TSShapeInstance.addThread, h5])

/-- What `_initMount` leaves alone. -/
theorem _initMount_frame (E : Engine) (s : GuiObjectView) (model : TSShapeInstance) :
    (_initMount E s model).mMeshHidden = s.mMeshHidden ∧
    (_initMount E s model).mModel = s.mModel ∧
    (_initMount E s model).mAnimationSeq = s.mAnimationSeq ∧
    (_initMount E s model).mRunThread = s.mRunThread := by
  unfold _initMount
  cases s.mMountedModel with
  | none => exact ⟨rfl, rfl, rfl, rfl⟩
  | some mounted =>
    dsimp only
    split_ifs <;> exact ⟨rfl, rfl, rfl, rfl⟩

theorem _initMount_of_no_mounted (E : Engine) (s : GuiObjectView) (model : TSShapeInstance)
    (h : s.mMountedModel = none) : _initMount E s model = s := by
  unfold _initMount
  rw [h]

/-- With a mounted model and a mount node name, the mount node and transform chosen by
`_initMount` depend only on that model, that name and the primary shape. -/
theorem _initMount_congr (E : Engine) (s s' : GuiObjectView) (model model' : TSShapeInstance)
    (mounted : TSShapeInstance) (h1 : s.mMountedModel = some mounted)
    (h1' : s'.mMountedModel = some mounted) (h2 : s.mMountNodeName = s'.mMountNodeName)
    (h3 : ¬ s.mMountNodeName.isEmpty) (h4 : model.shape = model'.shape) :
    (_initMount E s model).mMountNode = (_initMount E s' model').mMountNode ∧
    (_initMount E s model).mMountTransform = (_initMount E s' model').mMountTransform := by
  unfold _initMount
  rw [h1, h1']
  dsimp only
  rw [← h2, ← h4]
  simp only [h3, Bool.false_eq_true, if_false, not_false_eq_true, true_and]
  split_ifs <;> exact ⟨rfl, rfl⟩

theorem setObjectModel_instantiate_frame (s : GuiObjectView) (shape : TSShape)
    (modelName : String) :
    (setObjectModel_instantiate s shape modelName).mModel = some (TSShapeInstance.new shape) ∧
    (setObjectModel_instantiate s shape modelName).mMeshHidden
      = (if modelName.isEmpty then s.mMeshHidden
          else List.replicate shape.objectsSize false) ∧
    (setObjectModel_instantiate s shape modelName).mRunThread = s.mRunThread ∧
    (setObjectModel_instantiate s shape modelName).mAnimationSeq = s.mAnimationSeq ∧
    (setObjectModel_instantiate s shape modelName).mAnimationSeqName = s.mAnimationSeqName ∧
    (setObjectModel_instantiate s shape modelName).mMountedModel = s.mMountedModel ∧
    (setObjectModel_instantiate s shape modelName).mMountNodeName = s.mMountNodeName ∧
    (setObjectModel_instantiate s shape modelName).mMountNode = s.mMountNode ∧
    (setObjectModel_instantiate s shape modelName).mMountTransform = s.mMountTransform := by
  unfold setObjectModel_instantiate
  dsimp only
  by_cases h : modelName.isEmpty
  · rw [if_neg (not_not.mpr h), if_pos h]
    exact ⟨rfl, rfl, rfl, rfl, rfl, rfl, rfl, rfl, rfl⟩
  · rw [if_pos h, if_neg h]
    exact ⟨rfl, BitVector.clear_setSize _ _, rfl, rfl, rfl, rfl, rfl, rfl, rfl⟩

/-- Successful `setObjectModel`, stage by stage: `s5` is the state before `_initAnimation`
and `m4` its model, `m6` the model before `_initMount`. -/
theorem setObjectModel_of_load (E : Engine) (s : GuiObjectView) (modelName : String)
    (vnow : ℤ) (shape : TSShape) (hload : E.load modelName = some shape) :
    ∃ (s5 : GuiObjectView) (m4 m6 : TSShapeInstance),
      setObjectModel E s modelName vnow = some (_initMount E (_initAnimation s5 m4 vnow) m6) ∧
      (_initAnimation s5 m4 vnow).mModel = some m6 ∧
      m6.shape = shape ∧ m6.meshForceHidden = List.replicate shape.objectsSize false ∧
      s5.mModel = some m4 ∧ m4.shape = shape ∧ m4.threads = [] ∧
      s5.mRunThread = none ∧
      s5.mMeshHidden = (if modelName.isEmpty then s.mMeshHidden
        else List.replicate shape.objectsSize false) ∧
      s5.mAnimationSeq = s.mAnimationSeq ∧ s5.mAnimationSeqName = s.mAnimationSeqName ∧
      s5.mMountedModel = s.mMountedModel ∧ s5.mMountNodeName = s.mMountNodeName ∧
      s5.mMountNode = s.mMountNode ∧ s5.mMountTransform = s.mMountTransform := by
  obtain ⟨i1, i2, i3, i4, i5, i6, i7, i8, i9⟩ := setObjectModel_instantiate_frame
    { s with mModel := none, mRunThread := none, mModelName := "" } shape modelName
  obtain ⟨m4, applied, hre, hs4, hf4, ht4⟩ := reSkin_of_model E _ _ i1
  obtain ⟨c1, c2, c3, c4, c5, c6, c7, c8, c9⟩ := setObjectModel_camera_frame
    { setObjectModel_instantiate { s with mModel := none, mRunThread := none, mModelName := "" } shape modelName with mModel := some m4, mAppliedSkinName := applied } shape
  obtain ⟨m6, hm6, hs6, hf6⟩ := _initAnimation_model _ m4 vnow c1
  refine ⟨_, m4, m6, ?_, hm6, hs6.trans hs4, ?_, c1, hs4, ht4, ?_, ?_, ?_, ?_, ?_, ?_, ?_, ?_⟩
  · unfold setObjectModel
    simp only [hload, hre, c1, hm6]
  · rw [hf6, hf4]; rfl
  · rw [c3]; exact i3
  · rw [c2]; exact i2
  · rw [c4]; exact i4
  · rw [c5]; exact i5
  · rw [c6]; exact i6
  · rw [c7]; exact i7
  · rw [c8]; exact i8
  · rw [c9]; exact i9

end GuiObjectView

/-! ### Claims on the object view -/

namespace GuiObjectView

theorem S32_toU32_natCast (i : ℕ) (hi : i < 2 ^ 31) : S32.toU32 (i : ℤ) = i := by
  unfold S32.toU32
  rw [Int.emod_eq_of_lt (by positivity) (by exact_mod_cast (by omega : i < 2 ^ 32))]
  simp

theorem setAllMeshesHidden_of_model (s : GuiObjectView) (m : TSShapeInstance) (n : ℕ)
    (h : Bool) (hm : s.mModel = some m) (hlen : m.meshForceHidden.length = n)
    (hb : s.mMeshHidden.getSize = n) :
    (setAllMeshesHidden s h).mMeshHidden = List.replicate n h ∧
    ∃ m', (setAllMeshesHidden s h).mModel = some m' ∧
      m'.meshForceHidden = List.replicate n h := by
  have hsize : (if h then BitVector.set s.mMeshHidden else BitVector.clear s.mMeshHidden)
      = List.replicate n h := by
    unfold BitVector.getSize at hb
    cases h <;> simp [BitVector.set, BitVector.clear, hb]
  unfold setAllMeshesHidden
  dsimp only
  rw [hm]
  dsimp only
  refine ⟨?_, _, rfl, ?_⟩
  · simpa using hsize
  · rw [hsize]
    have := (setAllMeshesHiddenLoop_range m h n (by omega)).1
    simp only [BitVector.getSize, List.length_replicate]
    rw [this, ← hlen]
    simp

theorem setMeshHidden_of_model (s : GuiObjectView) (m : TSShapeInstance) (i : ℕ) (h : Bool)
    (hm : s.mModel = some m) (hi : i < s.mMeshHidden.getSize) (hi31 : i < 2 ^ 31) :
    (setMeshHidden s (i : ℤ) h).mMeshHidden = List.set s.mMeshHidden i h ∧
    (setMeshHidden s (i : ℤ) h).mModel = some (m.setMeshForceHidden i h) := by
  have h1 : ¬ ((i : ℤ) = -1 ∨ s.mMeshHidden.getSize ≤ S32.toU32 (i : ℤ)) := by
    rw [S32_toU32_natCast i hi31]
    intro hc
    rcases hc with hc | hc
    · omega
    · omega
  unfold setMeshHidden
  rw [if_neg h1]
  dsimp only
  rw [hm, S32_toU32_natCast i hi31]
  dsimp only
  cases h <;> exact ⟨rfl, rfl⟩

end GuiObjectView

/-- C7 (amended): when the configured minimum does not exceed the maximum, after
`setOrbitDistance(d)` (also through the script method, and when `onStaticModified`
re-applies the stored distance) the stored orbit distance lies in `[min, max]`: it is `d`
when `min ≤ d ≤ max`, `min` when `d < min`, `max` when `d > max`; the bounds themselves are
not changed. -/
theorem C7_setOrbitDistance_clamps (s : GuiObjectView) (d : ℚ)
    (h : s.mMinOrbitDist ≤ s.mMaxOrbitDist) :
    s.mMinOrbitDist ≤ (GuiObjectView.setOrbitDistance s d).mOrbitDist ∧
    (GuiObjectView.setOrbitDistance s d).mOrbitDist ≤ s.mMaxOrbitDist ∧
    (s.mMinOrbitDist ≤ d → d ≤ s.mMaxOrbitDist →
      (GuiObjectView.setOrbitDistance s d).mOrbitDist = d) ∧
    (d < s.mMinOrbitDist → (GuiObjectView.setOrbitDistance s d).mOrbitDist = s.mMinOrbitDist) ∧
    (s.mMaxOrbitDist < d → (GuiObjectView.setOrbitDistance s d).mOrbitDist = s.mMaxOrbitDist) ∧
    (GuiObjectView.setOrbitDistance s d).mMinOrbitDist = s.mMinOrbitDist ∧
    (GuiObjectView.setOrbitDistance s d).mMaxOrbitDist = s.mMaxOrbitDist ∧
    GuiObjectView.script_setOrbitDistance s d = GuiObjectView.setOrbitDistance s d ∧
    s.mMinOrbitDist ≤ (GuiObjectView.onStaticModified_orbitDistance s).mOrbitDist ∧
    (GuiObjectView.onStaticModified_orbitDistance s).mOrbitDist ≤ s.mMaxOrbitDist := by
  simp only [GuiObjectView.setOrbitDistance, GuiObjectView.script_setOrbitDistance,
    GuiObjectView.onStaticModified_orbitDistance, mClampF]
  refine ⟨le_max_right _ _, max_le (min_le_right _ _) h, ?_, ?_, ?_, trivial, trivial, trivial,
    le_max_right _ _, max_le (min_le_right _ _) h⟩
  · intro h1 h2
    rw [min_eq_left h2, max_eq_left h1]
  · intro h1
    rw [min_eq_left (le_trans h1.le h), max_eq_right h1.le]
  · intro h1
    rw [min_eq_right h1.le, max_eq_left h]

/-- Instance of C7: a fresh view (min 1, max 5) asked for the distance 7. -/
theorem C7_setOrbitDistance_clamps_witness :
    (GuiObjectView.setOrbitDistance sampleView 7).mOrbitDist = sampleView.mMaxOrbitDist :=
  (C7_setOrbitDistance_clamps sampleView 7
    (by show (1 : ℚ) ≤ 5; norm_num)).2.2.2.2.1 (by show (5 : ℚ) < 7; norm_num)

/-- C7 as stated fails: loading a model of radius 10 into a fresh view sets the minimum
to 10 above the maximum 5, and `setOrbitDistance(7)` then stores 10, which is neither
within `[min, max]` nor the maximum that the claim gives for `d > max`. -/
theorem C7_min_above_max_counterexample :
    (GuiObjectView.setObjectModel sampleEngine sampleView "player.dts" 0).map
        (fun s => (s.mMinOrbitDist, s.mMaxOrbitDist,
          (GuiObjectView.setOrbitDistance s 7).mOrbitDist)) = some (10, 5, 10) ∧
      ¬ ((10 : ℚ) ≤ 5) := by
  constructor
  · rfl
  · norm_num

/-- C8: after `setObjectModel` has loaded a model with `N` meshes (from a non-empty model
name), `setAllMeshesHidden(true)` marks all `N` meshes hidden, in the view's mesh-hidden
vector and on the model; a following `setMeshHidden(i, false)` with `0 ≤ i < N` (`i` an
`S32`, so below `2 ^ 31`) unhides exactly index `i`: mesh `i` is not hidden and every
other mesh is still hidden. -/
theorem C8_hide_all_then_unhide_one (E : Engine) (s : GuiObjectView) (modelName : String)
    (vnow : ℤ) (shape : TSShape) (i : ℕ) (hload : E.load modelName = some shape)
    (hname : modelName ≠ "") (hi : i < shape.objectsSize) (hi31 : i < 2 ^ 31) :
    ∃ s1 : GuiObjectView, GuiObjectView.setObjectModel E s modelName vnow = some s1 ∧
      (GuiObjectView.setAllMeshesHidden s1 true).mMeshHidden.getSize = shape.objectsSize ∧
      (∀ j, j < shape.objectsSize →
        (GuiObjectView.setAllMeshesHidden s1 true).mMeshHidden.test j = true) ∧
      ((GuiObjectView.setAllMeshesHidden s1 true).mModel.map
        (fun m => m.meshForceHidden)) = some (List.replicate shape.objectsSize true) ∧
      (GuiObjectView.setMeshHidden (GuiObjectView.setAllMeshesHidden s1 true)
        (i : ℤ) false).mMeshHidden.getSize = shape.objectsSize ∧
      (GuiObjectView.setMeshHidden (GuiObjectView.setAllMeshesHidden s1 true)
        (i : ℤ) false).mMeshHidden.test i = false ∧
      (∀ j, j < shape.objectsSize → j ≠ i →
        (GuiObjectView.setMeshHidden (GuiObjectView.setAllMeshesHidden s1 true)
          (i : ℤ) false).mMeshHidden.test j = true) ∧
      ((GuiObjectView.setMeshHidden (GuiObjectView.setAllMeshesHidden s1 true)
        (i : ℤ) false).mModel.map (fun m => m.meshForceHidden))
          = some ((List.replicate shape.objectsSize true).set i false) := by
  have hne : ¬ modelName.isEmpty := by
    rw [String.isEmpty_iff]; exact hname
  obtain ⟨s5, m4, m6, hres, hm6, -, hf6, -, -, -, -, hmesh, -⟩ :=
    GuiObjectView.setObjectModel_of_load E s modelName vnow shape hload
  rw [if_neg hne] at hmesh
  obtain ⟨f1, f2, -, -⟩ := GuiObjectView._initMount_frame E
    (GuiObjectView._initAnimation s5 m4 vnow) m6
  obtain ⟨g1, -⟩ := GuiObjectView._initAnimation_frame s5 m4 vnow
  refine ⟨_, hres, ?_⟩
  have hmodel : (GuiObjectView._initMount E (GuiObjectView._initAnimation s5 m4 vnow) m6).mModel
      = some m6 := f2.trans hm6
  have hvec : (GuiObjectView._initMount E (GuiObjectView._initAnimation s5 m4 vnow)
      m6).mMeshHidden = List.replicate shape.objectsSize false := by
    rw [f1, g1, hmesh]
  obtain ⟨a1, m', a2, a3⟩ := GuiObjectView.setAllMeshesHidden_of_model _ m6 shape.objectsSize
    true hmodel (by rw [hf6]; simp) (by rw [hvec]; simp [BitVector.getSize])
  obtain ⟨b1, b2⟩ := GuiObjectView.setMeshHidden_of_model _ m' i false a2
    (by rw [a1]; simpa [BitVector.getSize] using hi) hi31
  refine ⟨?_, ?_, ?_, ?_, ?_, ?_, ?_⟩
  · rw [a1]; simp [BitVector.getSize]
  · intro j hj; rw [a1]; exact BitVector.test_replicate_true hj
  · rw [a2, ← a3]; rfl
  · rw [b1, a1]; simp [BitVector.getSize]
  · rw [b1, a1, BitVector.test_set_replicate _ _ _ hi hi]; simp
  · intro j hj hji
    rw [b1, a1, BitVector.test_set_replicate _ _ _ hi hj]; simpa using hji
  · rw [b2]
    simp only [Option.map_some', TSShapeInstance.setMeshForceHidden, a3]

/-- Instance of C8: the three-mesh sample model loaded into a fresh view, then all meshes
hidden and mesh 1 shown again. -/
theorem C8_hide_all_then_unhide_one_witness :
    ∃ s1 : GuiObjectView,
      GuiObjectView.setObjectModel sampleEngine sampleView "player.dts" 0 = some s1 ∧
      (GuiObjectView.setMeshHidden (GuiObjectView.setAllMeshesHidden s1 true)
        ((1 : ℕ) : ℤ) false).mMeshHidden.test 1 = false ∧
      (∀ j, j < 3 → j ≠ 1 →
        (GuiObjectView.setMeshHidden (GuiObjectView.setAllMeshesHidden s1 true)
          ((1 : ℕ) : ℤ) false).mMeshHidden.test j = true) :=
  have h := C8_hide_all_then_unhide_one sampleEngine sampleView "player.dts" 0
    (sampleShape 3 10) 1 rfl (by decide) (by decide) (by norm_num)
  h.elim fun s1 hs => ⟨s1, hs.1, hs.2.2.2.2.2.1, hs.2.2.2.2.2.2.1⟩

/-- C9 (amended): when the resource loader fails, `setObjectModel` leaves the view without
a primary model (model pointer null, model name empty, animation thread null) and
`setMountedObject` leaves it without a mounted model (pointer null, name empty), every
other field unchanged: the model that was loaded before the call is deleted, not kept,
and the state is the prior one exactly when it held no such model before. -/
theorem C9_failed_load_clears_model (E : Engine) (s : GuiObjectView) (modelName : String)
    (vnow : ℤ) (h : E.load modelName = none) :
    GuiObjectView.setObjectModel E s modelName vnow
        = some { s with mModel := none, mRunThread := none, mModelName := "" } ∧
      GuiObjectView.setMountedObject E s modelName
        = { s with mMountedModel := none, mMountedModelName := "" } ∧
      (s.mModel = none → s.mRunThread = none → s.mModelName = "" →
        GuiObjectView.setObjectModel E s modelName vnow = some s) ∧
      (s.mMountedModel = none → s.mMountedModelName = "" →
        GuiObjectView.setMountedObject E s modelName = s) := by
  have h1 : GuiObjectView.setObjectModel E s modelName vnow
      = some { s with mModel := none, mRunThread := none, mModelName := "" } := by
    unfold GuiObjectView.setObjectModel
    simp only [h]
  have h2 : GuiObjectView.setMountedObject E s modelName
      = { s with mMountedModel := none, mMountedModelName := "" } := by
    unfold GuiObjectView.setMountedObject
    simp only [h]
  refine ⟨h1, h2, ?_, ?_⟩
  · intro e1 e2 e3
    rw [h1, ← e1, ← e2, ← e3]
  · intro e1 e2
    rw [h2, ← e1, ← e2]

/-- Instance of C9: a file the sample loader does not know, requested as primary model
and as mounted model of a fresh view. -/
theorem C9_failed_load_clears_model_witness :
    GuiObjectView.setObjectModel sampleEngine sampleView "missing.dts" 0
        = some { sampleView with mModel := none, mRunThread := none, mModelName := "" } ∧
      GuiObjectView.setMountedObject sampleEngine sampleView "missing.dts"
        = { sampleView with mMountedModel := none, mMountedModelName := "" } :=
  ⟨(C9_failed_load_clears_model sampleEngine sampleView "missing.dts" 0 rfl).1,
    (C9_failed_load_clears_model sampleEngine sampleView "missing.dts" 0 rfl).2.1⟩

/-- C9 as stated fails: a view playing `"idle"` on the loaded `"player.dts"` has a model, the
name `"player.dts"` and an animation thread; after `setObjectModel` on a file that fails to
load it has no model, an empty name and no thread. The same happens to the mounted model
on `setMountedObject`. -/
theorem C9_prior_model_lost_counterexample :
    (GuiObjectView.setObjectModel sampleEngine
        (GuiObjectView.setObjectAnimation_name sampleView "idle" 0) "player.dts" 0).map
        (fun s => (s.mModel.isSome, s.mModelName, s.mRunThread))
      = some (true, "player.dts", some 0) ∧
    ((GuiObjectView.setObjectModel sampleEngine
        (GuiObjectView.setObjectAnimation_name sampleView "idle" 0) "player.dts" 0).bind
        (fun s => GuiObjectView.setObjectModel sampleEngine s "missing.dts" 0)).map
        (fun s => (s.mModel.isSome, s.mModelName, s.mRunThread))
      = some (false, "", none) ∧
    (GuiObjectView.setMountedObject sampleEngine sampleView "weapon.dts").mMountedModel.isSome
      = true ∧
    (GuiObjectView.setMountedObject sampleEngine
        (GuiObjectView.setMountedObject sampleEngine sampleView "weapon.dts")
        "missing.dts").mMountedModel.isSome = false := by
  exact ⟨rfl, rfl, rfl, rfl⟩

/-- C10 (amended): for every prior state, after a successful `setObjectModel(m)` with a
non-empty name the mesh-hidden vector (size `N`, all visible) and the animation sequence
index and thread equal what the same call produces on a freshly constructed view carrying
the same configuration; the mount node index and mount transform equal them when a
mounted model is present and the mount node name is non-empty; without a mounted model
the call leaves the mount node index and mount transform as they were before it. -/
theorem C10_reload_matches_fresh_load (E : Engine) (s : GuiObjectView) (modelName : String)
    (vnow : ℤ) (shape : TSShape) (mMountTransform : MatrixF) (mHomePos : Point3F)
    (mHomeZ : ℚ) (hload : E.load modelName = some shape) (hname : modelName ≠ "") :
    ∃ a b : GuiObjectView,
      GuiObjectView.setObjectModel E s modelName vnow = some a ∧
      GuiObjectView.setObjectModel E
        (GuiObjectView.freshLike s mMountTransform mHomePos mHomeZ) modelName vnow = some b ∧
      a.mMeshHidden = List.replicate shape.objectsSize false ∧
      b.mMeshHidden = List.replicate shape.objectsSize false ∧
      a.mAnimationSeq = b.mAnimationSeq ∧ a.mRunThread = b.mRunThread ∧
      (s.mMountedModel ≠ none → s.mMountNodeName ≠ "" →
        a.mMountNode = b.mMountNode ∧ a.mMountTransform = b.mMountTransform) ∧
      (s.mMountedModel = none →
        a.mMountNode = s.mMountNode ∧ a.mMountTransform = s.mMountTransform) := by
  have hne : ¬ modelName.isEmpty := by
    rw [String.isEmpty_iff]; exact hname
  obtain ⟨s5, m4, m6, hres, hm6, hs6, -, hm4, hs4, ht4, hr5, hmesh, hseq, hsn, hmm, hmn,
    hnode, htr⟩ := GuiObjectView.setObjectModel_of_load E s modelName vnow shape hload
  obtain ⟨s5', m4', m6', hres', hm6', hs6', -, hm4', hs4', ht4', hr5', hmesh', hseq', hsn',
    hmm', hmn', -, -⟩ := GuiObjectView.setObjectModel_of_load E
      (GuiObjectView.freshLike s mMountTransform mHomePos mHomeZ) modelName vnow shape hload
  rw [if_neg hne] at hmesh hmesh'
  obtain ⟨f1, -, f3, f4⟩ := GuiObjectView._initMount_frame E
    (GuiObjectView._initAnimation s5 m4 vnow) m6
  obtain ⟨f1', -, f3', f4'⟩ := GuiObjectView._initMount_frame E
    (GuiObjectView._initAnimation s5' m4' vnow) m6'
  obtain ⟨g1, g2, g3, g4, g5⟩ := GuiObjectView._initAnimation_frame s5 m4 vnow
  obtain ⟨g1', g2', g3', -, -⟩ := GuiObjectView._initAnimation_frame s5' m4' vnow
  obtain ⟨c1, c2⟩ := GuiObjectView._initAnimation_congr s5 s5' m4 m4' vnow
    (by rw [hsn, hsn']; rfl) (by rw [hseq, hseq']; rfl) (by rw [hr5, hr5'])
    (by rw [hs4, hs4']) (by rw [ht4, ht4'])
  refine ⟨_, _, hres, hres', ?_, ?_, ?_, ?_, ?_, ?_⟩
  · rw [f1, g1, hmesh]
  · rw [f1', g1', hmesh']
  · rw [f3, f3', c1]
  · rw [f4, f4', c2]
  · intro hmounted hnode
    obtain ⟨mounted, hmo⟩ := Option.ne_none_iff_exists'.mp hmounted
    refine GuiObjectView._initMount_congr E _ _ m6 m6' mounted ?_ ?_ ?_ ?_ ?_
    · rw [g2, hmm, hmo]
    · rw [g2', hmm']; exact hmo
    · rw [g3, g3', hmn, hmn']; rfl
    · rw [g3, hmn, String.isEmpty_iff]; exact hnode
    · rw [hs6, hs6']
  · intro hnone
    rw [GuiObjectView._initMount_of_no_mounted E _ m6 (by rw [g2, hmm]; exact hnone)]
    exact ⟨by rw [g4, hnode], by rw [g5, htr]⟩

/-- Instance of C10: a view showing `"player.dts"` with `"weapon.dts"` mounted and playing
`"idle"`, whose primary model is set again. -/
theorem C10_reload_matches_fresh_load_witness :
    ∃ a b : GuiObjectView,
      GuiObjectView.setObjectModel sampleEngine
        (GuiObjectView.setMountedObject sampleEngine
          (GuiObjectView.setObjectAnimation_name sampleView "idle" 0) "weapon.dts")
        "player.dts" 7 = some a ∧
      GuiObjectView.setObjectModel sampleEngine
        (GuiObjectView.freshLike (GuiObjectView.setMountedObject sampleEngine
          (GuiObjectView.setObjectAnimation_name sampleView "idle" 0) "weapon.dts")
          MatrixF.identity ⟨0, 0, 0⟩ 0) "player.dts" 7 = some b ∧
      a.mMeshHidden = List.replicate 3 false ∧ a.mRunThread = b.mRunThread ∧
      a.mMountNode = b.mMountNode ∧ a.mMountTransform = b.mMountTransform :=
  have h := C10_reload_matches_fresh_load sampleEngine
    (GuiObjectView.setMountedObject sampleEngine
      (GuiObjectView.setObjectAnimation_name sampleView "idle" 0) "weapon.dts")
    "player.dts" 7 (sampleShape 3 10) MatrixF.identity ⟨0, 0, 0⟩ 0 rfl (by decide)
  have hm : (GuiObjectView.setMountedObject sampleEngine
      (GuiObjectView.setObjectAnimation_name sampleView "idle" 0) "weapon.dts").mMountedModel
      ≠ none := fun hn => Option.noConfusion hn
  h.elim fun a ha => ha.elim fun b hb =>
    ⟨a, b, hb.1, hb.2.1, hb.2.2.1, hb.2.2.2.2.2.1,
      (hb.2.2.2.2.2.2.1 hm (by decide)).1, (hb.2.2.2.2.2.2.1 hm (by decide)).2⟩

/-- C10 as stated fails: a view that showed `"player.dts"` with `"weapon.dts"` mounted on node
3 and then lost the mounted model to a failed load keeps mount node index 3 when its
primary model is set again, while a freshly constructed view with the same configuration
(no mounted model) ends with mount node index -1. -/
theorem C10_stale_mount_node_counterexample :
    ((GuiObjectView.setObjectModel sampleEngine sampleView "player.dts" 0).bind
        (fun s1 => GuiObjectView.setObjectModel sampleEngine
          (GuiObjectView.setMountedObject sampleEngine
            (GuiObjectView.setMountedObject sampleEngine s1 "weapon.dts") "missing.dts")
          "player.dts" 0)).map (fun a => a.mMountNode) = some 3 ∧
    ((GuiObjectView.setObjectModel sampleEngine sampleView "player.dts" 0).bind
        (fun s1 => GuiObjectView.setObjectModel sampleEngine
          (GuiObjectView.freshLike
            (GuiObjectView.setMountedObject sampleEngine
              (GuiObjectView.setMountedObject sampleEngine s1 "weapon.dts") "missing.dts")
            MatrixF.identity ⟨0, 0, 0⟩ 0)
          "player.dts" 0)).map (fun b => b.mMountNode) = some (-1) := by
  exact ⟨rfl, rfl⟩

/-! ### The object view: pointer input -/

theorem S32.wrap_of_mem (i : ℤ) (h1 : -2 ^ 31 ≤ i) (h2 : i < 2 ^ 31) : S32.wrap i = i := by
  unfold S32.wrap
  omega

theorem S32.wrap_mem (i : ℤ) : -2 ^ 31 ≤ S32.wrap i ∧ S32.wrap i < 2 ^ 31 := by
  unfold S32.wrap
  omega

/-- An `S32` that is negative, or at least a size within the `S32` range, is at least that
size when compared as a `U32`. -/
theorem S32.le_toU32_of_out_of_range (n : ℕ) (i : ℤ) (hn : n ≤ 2 ^ 31) (h1 : -2 ^ 31 ≤ i)
    (h2 : i < 2 ^ 31) (hout : i < 0 ∨ (n : ℤ) ≤ i) : n ≤ S32.toU32 i := by
  unfold S32.toU32
  omega

theorem F32.ofS32_of_abs_le (i : ℤ) (h : |i| ≤ 2 ^ 24) : F32.ofS32 i = i :=
  F32.round_intCast i h

namespace GuiObjectView

theorem onRightMouseDragged_orbitZ_frame (s : GuiObjectView) (delta : ℤ) (chestZ : ℚ) :
    (onRightMouseDragged_orbitZ s delta chestZ).mOrbitDist = s.mOrbitDist ∧
    (onRightMouseDragged_orbitZ s delta chestZ).mMinOrbitDist = s.mMinOrbitDist ∧
    (onRightMouseDragged_orbitZ s delta chestZ).mMaxOrbitDist = s.mMaxOrbitDist := by
  unfold onRightMouseDragged_orbitZ
  dsimp only
  split_ifs <;> exact ⟨rfl, rfl, rfl⟩

/-- In the Zooming state with a model, `onRightMouseDragged` returns a state whose orbit
distance is the new distance when that lies within the bounds and the old one otherwise. -/
theorem onRightMouseDragged_of_zooming (s : GuiObjectView) (event : GuiEvent)
    (model : TSShapeInstance) (hz : s.mMouseState = MouseState.Zooming)
    (hm : s.mModel = some model) :
    ∃ s1 : GuiObjectView, onRightMouseDragged s event = some s1 ∧
      s1.mOrbitDist =
        (if s.mMinOrbitDist ≤ F32.add s.mOrbitDist (F32.mul
              (F32.ofS32 (S32.wrap (event.mousePoint.y - s.mLastMousePoint.y))) s.mCameraSpeed) ∧
            F32.add s.mOrbitDist (F32.mul
              (F32.ofS32 (S32.wrap (event.mousePoint.y - s.mLastMousePoint.y))) s.mCameraSpeed)
              ≤ s.mMaxOrbitDist then
          F32.add s.mOrbitDist (F32.mul
            (F32.ofS32 (S32.wrap (event.mousePoint.y - s.mLastMousePoint.y))) s.mCameraSpeed)
        else s.mOrbitDist) ∧
      s1.mMinOrbitDist = s.mMinOrbitDist ∧ s1.mMaxOrbitDist = s.mMaxOrbitDist := by
  unfold onRightMouseDragged
  rw [if_neg (by rw [hz]; exact fun h => h rfl)]
  dsimp only
  rw [hm]
  dsimp only
  split_ifs
  all_goals first
    | exact ⟨_, rfl, rfl, rfl, rfl⟩
    | exact ⟨_, rfl, (onRightMouseDragged_orbitZ_frame _ _ _).1,
        (onRightMouseDragged_orbitZ_frame _ _ _).2.1, (onRightMouseDragged_orbitZ_frame _ _ _).2.2⟩

end GuiObjectView

/-- C11 (amended): in the Zooming state with a model loaded, `onRightMouseDragged` stores
the new orbit distance `oldDistance + dy * cameraSpeed` (single-precision sum and product)
when it lies within `[minOrbitDist, maxOrbitDist]` and keeps the old distance otherwise: a
move that would leave the range is rejected, not clamped. The bounds are unchanged, so a
distance within the range stays within it. -/
theorem C11_right_drag_keeps_distance_in_range (s : GuiObjectView) (event : GuiEvent)
    (model : TSShapeInstance) (hz : s.mMouseState = MouseState.Zooming)
    (hm : s.mModel = some model) :
    ∃ s1 : GuiObjectView, GuiObjectView.onRightMouseDragged s event = some s1 ∧
      s1.mOrbitDist =
        (if s.mMinOrbitDist ≤ F32.add s.mOrbitDist (F32.mul
              (F32.ofS32 (S32.wrap (event.mousePoint.y - s.mLastMousePoint.y))) s.mCameraSpeed) ∧
            F32.add s.mOrbitDist (F32.mul
              (F32.ofS32 (S32.wrap (event.mousePoint.y - s.mLastMousePoint.y))) s.mCameraSpeed)
              ≤ s.mMaxOrbitDist then
          F32.add s.mOrbitDist (F32.mul
            (F32.ofS32 (S32.wrap (event.mousePoint.y - s.mLastMousePoint.y))) s.mCameraSpeed)
        else s.mOrbitDist) ∧
      s1.mMinOrbitDist = s.mMinOrbitDist ∧ s1.mMaxOrbitDist = s.mMaxOrbitDist ∧
      (s.mMinOrbitDist ≤ s.mOrbitDist → s.mOrbitDist ≤ s.mMaxOrbitDist →
        s1.mMinOrbitDist ≤ s1.mOrbitDist ∧ s1.mOrbitDist ≤ s1.mMaxOrbitDist) := by
  obtain ⟨s1, h1, h2, h3, h4⟩ := GuiObjectView.onRightMouseDragged_of_zooming s event model hz hm
  refine ⟨s1, h1, h2, h3, h4, ?_⟩
  intro hlo hhi
  rw [h2, h3, h4]
  split_ifs with hc
  · exact hc
  · exact ⟨hlo, hhi⟩

/-- Instance of C11: the sample view at distance 4 (bounds 1 and 5, camera speed `1 / 2`)
dragged down by 4 pixels. -/
theorem C11_right_drag_keeps_distance_in_range_witness :
    ∃ s1 : GuiObjectView,
      GuiObjectView.onRightMouseDragged sampleZoomingView ⟨⟨0, 4⟩⟩ = some s1 ∧
      s1.mMinOrbitDist ≤ s1.mOrbitDist ∧ s1.mOrbitDist ≤ s1.mMaxOrbitDist :=
  have h := C11_right_drag_keeps_distance_in_range sampleZoomingView ⟨⟨0, 4⟩⟩
    (TSShapeInstance.new (sampleShape 1 1)) rfl rfl
  h.elim fun s1 hs =>
    ⟨s1, hs.1, hs.2.2.2.2 (by show (1 : ℚ) ≤ 4; norm_num) (by show (4 : ℚ) ≤ 5; norm_num)⟩

/-- C11 as stated fails: at distance 4 with bounds 1 and 5 and camera speed `1 / 2`, a drag
by 4 pixels asks for distance 6; the handler keeps 4, while the clamp of 6 is 5. -/
theorem C11_rejected_not_clamped_counterexample :
    (GuiObjectView.onRightMouseDragged sampleZoomingView ⟨⟨0, 4⟩⟩).map
        (fun s => s.mOrbitDist) = some 4 ∧
      mClampF (sampleZoomingView.mOrbitDist + 4 * sampleZoomingView.mCameraSpeed)
        sampleZoomingView.mMinOrbitDist sampleZoomingView.mMaxOrbitDist = 5 := by
  constructor
  · obtain ⟨s1, h1, h2, -, -⟩ := GuiObjectView.onRightMouseDragged_of_zooming sampleZoomingView
      ⟨⟨0, 4⟩⟩ (TSShapeInstance.new (sampleShape 1 1)) rfl rfl
    have e1 : sampleZoomingView.mOrbitDist = 4 := rfl
    have e2 : sampleZoomingView.mCameraSpeed = 1 / 2 := rfl
    have e3 : sampleZoomingView.mMinOrbitDist = 1 := rfl
    have e4 : sampleZoomingView.mMaxOrbitDist = 5 := rfl
    have e5 : S32.wrap ((⟨⟨0, 4⟩⟩ : GuiEvent).mousePoint.y - sampleZoomingView.mLastMousePoint.y)
        = 4 := by decide
    have e6 : F32.ofS32 4 = 4 := by
      have := F32.ofS32_of_abs_le 4 (by norm_num)
      exact_mod_cast this
    have e7 : F32.mul 4 (1 / 2) = 2 := by
      have := F32.round_natCast 2 (by norm_num)
      unfold F32.mul
      norm_num at this ⊢
      exact this
    have e8 : F32.add 4 2 = 6 := by
      have := F32.round_natCast 6 (by norm_num)
      unfold F32.add
      norm_num at this ⊢
      exact this
    rw [e1, e2, e3, e4, e5, e6, e7, e8] at h2
    rw [h1, Option.map_some', h2]
    norm_num
  · show mClampF ((4 : ℚ) + 4 * (1 / 2)) 1 5 = 5
    unfold mClampF
    norm_num

/-- C12: in each of the three fading controls, when the parent control wakes, `onWake`
with `fadeInOnWake` set does what `fadeIn` does (from Idle the mode becomes FadingIn and
the wake time the clock value), and with `fadeInOnWake` not set it stores the clock value
in the wake time and changes nothing else, so no fade starts and mode and alpha stay; when
the parent refuses to wake nothing changes. -/
theorem C12_onWake_fades_in_or_records_time (w : FadeWidget) (hw : w ∈ fadeWidgets)
    (s : FadeState) (now : ℕ) :
    (s.fadeIn_onWake = true → w.onWake s true now = (true, w.fadeIn s now)) ∧
    (s.fadeIn_onWake = true → s.mMode = FadeMode.idle →
      (w.onWake s true now).2 = { s with mMode := FadeMode.fadingIn, wakeTime := now }) ∧
    (s.fadeIn_onWake = false → w.onWake s true now = (true, { s with wakeTime := now })) ∧
    w.onWake s false now = (false, s) := by
  obtain ⟨hfi, -, hwk, -, -, -⟩ := fadeWidgets_cases w hw
  rw [hfi, hwk]
  refine ⟨?_, ?_, ?_, ?_⟩
  · intro h
    simp [GuiFadingBitmapCtrl.onWake, h]
  · intro h hidle
    simp [GuiFadingBitmapCtrl.onWake, h, GuiFadingBitmapCtrl.fadeIn_idle s now hidle]
  · intro h
    simp [GuiFadingBitmapCtrl.onWake, h]
  · simp [GuiFadingBitmapCtrl.onWake]

/-- Instance of C12: a `GuiFadingBitmapButtonCtrl` configured to fade in on wake, and a
fresh `GuiFadingButtonCtrl`, both woken at time 42. -/
theorem C12_onWake_fades_in_or_records_time_witness :
    (GuiFadingBitmapButtonCtrl.onWake
        (GuiFadingBitmapButtonCtrl.widget.configured 500 500 true) true 42).2
      = { GuiFadingBitmapButtonCtrl.widget.configured 500 500 true with
          mMode := FadeMode.fadingIn, wakeTime := 42 } ∧
    GuiFadingButtonCtrl.onWake GuiFadingButtonCtrl.new true 42
      = (true, { GuiFadingButtonCtrl.new with wakeTime := 42 }) :=
  ⟨(C12_onWake_fades_in_or_records_time GuiFadingBitmapButtonCtrl.widget
      (by simp [fadeWidgets]) (GuiFadingBitmapButtonCtrl.widget.configured 500 500 true)
      42).2.1 rfl rfl,
    (C12_onWake_fades_in_or_records_time GuiFadingButtonCtrl.widget
      (by simp [fadeWidgets]) GuiFadingButtonCtrl.new 42).2.2.1 rfl⟩

/-- C13 (amended): the fade update runs on every `onRender` of `GuiFadingBitmapCtrl` and
`GuiFadingButtonCtrl`, and on an `onRender` of `GuiFadingBitmapButtonCtrl` for which a
texture exists for the current button state: during a fade-in (resp. fade-out) alpha is
recomputed from `elapsed = now - wakeTime` while `elapsed` is below the duration, and
otherwise alpha becomes 255 (resp. 0) and the mode Idle. Without a texture
`GuiFadingBitmapButtonCtrl::onRender` leaves the fade fields as they are. -/
theorem C13_render_tick_advances_fade (step : FadeState → ℕ → ℕ → FadeState)
    (hstep : step ∈ [GuiFadingBitmapCtrl.onRender, GuiFadingButtonCtrl.onRender,
      fun s now now2 => GuiFadingBitmapButtonCtrl.onRender s true now now2])
    (s : FadeState) (now now2 : ℕ) :
    (s.mMode = FadeMode.fadingIn → U32.sub now s.wakeTime < s.fadeinTime →
      (step s now now2).mAlpha = F32.toU32 (F32.div
        (F32.mul 255 (F32.ofU32 (U32.sub now s.wakeTime))) (F32.ofU32 s.fadeinTime)) ∧
      (step s now now2).mMode = FadeMode.fadingIn) ∧
    (s.mMode = FadeMode.fadingIn → s.fadeinTime ≤ U32.sub now s.wakeTime →
      (step s now now2).mAlpha = 255 ∧ (step s now now2).mMode = FadeMode.idle) ∧
    (s.mMode = FadeMode.fadingOut → U32.sub now s.wakeTime < s.fadeoutTime →
      (step s now now2).mAlpha = F32.toU32 (F32.sub 255 (F32.mul 255
        (F32.div (F32.ofU32 (U32.sub now s.wakeTime)) (F32.ofU32 s.fadeoutTime)))) ∧
      (step s now now2).mMode = FadeMode.fadingOut) ∧
    (s.mMode = FadeMode.fadingOut → s.fadeoutTime ≤ U32.sub now s.wakeTime →
      (step s now now2).mAlpha = 0 ∧ (step s now now2).mMode = FadeMode.idle) ∧
    GuiFadingBitmapButtonCtrl.onRender s false now now2 = s := by
  have hs : step = GuiFadingBitmapCtrl.onRender := by
    simp only [List.mem_cons, List.mem_singleton, List.not_mem_nil, or_false] at hstep
    rcases hstep with rfl | rfl | rfl
    · rfl
    · rfl
    · rfl
  subst hs
  refine ⟨?_, ?_, ?_, ?_, rfl⟩
  · intro h hlt
    rw [GuiFadingBitmapCtrl.onRender_fadingIn_lt s now now2 h hlt]
    exact ⟨rfl, h⟩
  · intro h hge
    rw [GuiFadingBitmapCtrl.onRender_fadingIn_ge s now now2 h hge]
    exact ⟨rfl, rfl⟩
  · intro h hlt
    rw [GuiFadingBitmapCtrl.onRender_fadingOut_lt s now now2 h hlt]
    exact ⟨rfl, h⟩
  · intro h hge
    rw [GuiFadingBitmapCtrl.onRender_fadingOut_ge s now now2 h hge]
    exact ⟨rfl, rfl⟩

/-- Instance of C13: a `GuiFadingBitmapButtonCtrl` with a texture, 1500 ms into a
one-second fade-out. -/
theorem C13_render_tick_advances_fade_witness :
    (GuiFadingBitmapButtonCtrl.onRender ⟨0, 1000, 1000, 255, FadeMode.fadingOut, false⟩
        true 1500 1501).mAlpha = 0 ∧
      (GuiFadingBitmapButtonCtrl.onRender ⟨0, 1000, 1000, 255, FadeMode.fadingOut, false⟩
        true 1500 1501).mMode = FadeMode.idle :=
  (C13_render_tick_advances_fade
    (fun s now now2 => GuiFadingBitmapButtonCtrl.onRender s true now now2) (by simp)
    ⟨0, 1000, 1000, 255, FadeMode.fadingOut, false⟩ 1500 1501).2.2.2.1 rfl (by decide)

/-- C13 as stated fails: a `GuiFadingBitmapButtonCtrl` without a texture for its current
state, 1500 ms into a one-second fade-in, is still FadingIn with alpha 0 after `onRender`;
with a texture the same tick ends the fade. -/
theorem C13_no_texture_counterexample :
    GuiFadingBitmapButtonCtrl.onRender ⟨0, 1000, 1000, 0, FadeMode.fadingIn, false⟩
        false 1500 1501 = ⟨0, 1000, 1000, 0, FadeMode.fadingIn, false⟩ ∧
      GuiFadingBitmapButtonCtrl.onRender ⟨0, 1000, 1000, 0, FadeMode.fadingIn, false⟩
        true 1500 1501 = ⟨1501, 1000, 1000, 255, FadeMode.idle, false⟩ := by
  constructor
  · rfl
  · decide

/-! ### The object view: script methods and ignored requests -/

namespace GuiObjectView

/-- Fields of the mount configuration that `_initMount` leaves alone. -/
theorem _initMount_config_frame (E : Engine) (s : GuiObjectView) (model : TSShapeInstance) :
    (_initMount E s model).mMountNodeName = s.mMountNodeName ∧
    (_initMount E s model).mMountedModel = s.mMountedModel ∧
    (_initMount E s model).mMountedModelName = s.mMountedModelName ∧
    (_initMount E s model).mModelName = s.mModelName ∧
    (_initMount E s model).mAnimationSeqName = s.mAnimationSeqName := by
  unfold _initMount
  split
  · exact ⟨rfl, rfl, rfl, rfl, rfl⟩
  · dsimp only
    split_ifs <;> exact ⟨rfl, rfl, rfl, rfl, rfl⟩

/-- With a mounted model, a non-empty mount node name that the primary shape does not have
makes `_initMount` store the mount node index -1. -/
theorem _initMount_of_unknown_node (E : Engine) (s : GuiObjectView)
    (model mounted : TSShapeInstance) (hmo : s.mMountedModel = some mounted)
    (hne : ¬ s.mMountNodeName.isEmpty) (hfind : model.shape.findNode s.mMountNodeName = -1) :
    (_initMount E s model).mMountNode = -1 := by
  unfold _initMount
  rw [hmo]
  dsimp only
  rw [if_neg hne, hfind, if_pos ⟨hne, rfl⟩]

/-- The index -1 and an index at or past the number of sequences leave the view of
`setObjectAnimation( S32 )` with the sequence index -1 and an empty sequence name, and
nothing else changed. -/
theorem setObjectAnimation_of_out_of_range (s : GuiObjectView) (model : TSShapeInstance)
    (index vnow : ℤ) (hm : s.mModel = some model)
    (hout : index = -1 ∨ (model.shape.sequencesSize : ℤ) ≤ index) :
    setObjectAnimation s index vnow = { s with mAnimationSeq := -1, mAnimationSeqName := "" } := by
  unfold setObjectAnimation
  dsimp only
  rw [hm]
  dsimp only
  unfold _initAnimation
  dsimp only
  have hE : ("" : String).isEmpty = true := rfl
  by_cases h1 : index = -1
  · subst h1
    simp [hE]
  · have h2 : (model.shape.sequencesSize : ℤ) ≤ index := by
      rcases hout with h | h
      · exact absurd h h1
      · exact h
    simp [hE, h1, h2]

/-- A negative index other than -1 passes both tests of `_initAnimation`: without a
thread, `setObjectAnimation( S32 )` adds one and sets the sequence `index` on it; the
index stays stored and the render time is taken. -/
theorem setObjectAnimation_of_negative (s : GuiObjectView) (model : TSShapeInstance)
    (index vnow : ℤ) (hm : s.mModel = some model) (hneg : index < -1)
    (ht : s.mRunThread = none) :
    setObjectAnimation s index vnow =
      { s with
        mAnimationSeq := index
        mAnimationSeqName := ""
        mRunThread := some model.addThread.2
        mModel := some (model.addThread.1.setSequence model.addThread.2 index 0)
        mLastRenderTime := vnow } := by
  have hE : ("" : String).isEmpty = true := rfl
  have h1 : index ≠ -1 := by omega
  have h2 : ¬ (model.shape.sequencesSize : ℤ) ≤ index := by omega
  unfold setObjectAnimation
  dsimp only
  rw [hm]
  dsimp only
  unfold _initAnimation
  dsimp only
  rw [if_neg (fun h => h1 h.2), if_pos hE, if_neg (fun h => h1 h.2), if_pos h1, if_neg h2, ht]

end GuiObjectView

/-- C14: the script method `setMountedModel` on a view showing `"player.dts"`, called with
`"weapon.dts"`: the call goes to `setObjectModel`, so the primary model becomes the one-mesh
`"weapon.dts"` and the primary model name `"weapon.dts"`, while no model is mounted and the
mounted model name stays empty. -/
theorem C14_setMountedModel_replaces_primary :
    (GuiObjectView.setObjectModel sampleEngine sampleView "player.dts" 0).map
        (fun s => (s.mModelName, s.mModel.map (fun m => m.shape.objectsSize),
          s.mMountedModelName, s.mMountedModel.isSome))
      = some ("player.dts", some 3, "", false) ∧
    ((GuiObjectView.setObjectModel sampleEngine sampleView "player.dts" 0).bind
        (fun s => GuiObjectView.script_setMountedModel sampleEngine s "weapon.dts" 0)).map
        (fun s => (s.mModelName, s.mModel.map (fun m => m.shape.objectsSize),
          s.mMountedModelName, s.mMountedModel.isSome))
      = some ("weapon.dts", some 1, "", false) ∧
    ((GuiObjectView.setObjectModel sampleEngine sampleView "player.dts" 0).map
        (fun s => GuiObjectView.setMountedObject sampleEngine s "weapon.dts")).map
        (fun s => (s.mModelName, s.mModel.map (fun m => m.shape.objectsSize),
          s.mMountedModelName, s.mMountedModel.isSome))
      = some ("player.dts", some 3, "weapon.dts", true) := by
  exact ⟨rfl, rfl, rfl⟩

/-- C15: for a mesh-hidden vector of size `N` (at most `2 ^ 31`, the sizes an `S32` index
can address) and an `S32` index `i` with `i < 0` or `i ≥ N`, `setMeshHidden(i, h)` returns
the view unchanged: neither the hidden vector nor the model's mesh visibility changes. With
a model loaded, `setMeshHidden(name, h)` for a name whose lookup gives -1 does the same. -/
theorem C15_out_of_range_mesh_index_ignored (s : GuiObjectView) (i : ℤ) (h : Bool)
    (hN : s.mMeshHidden.getSize ≤ 2 ^ 31) (hlo : -2 ^ 31 ≤ i) (hhi : i < 2 ^ 31)
    (hout : i < 0 ∨ (s.mMeshHidden.getSize : ℤ) ≤ i) :
    GuiObjectView.setMeshHidden s i h = s ∧
    ∀ (model : TSShapeInstance) (meshName : String), s.mModel = some model →
      model.shape.findObject meshName = -1 →
      GuiObjectView.setMeshHidden_name s meshName h = some s := by
  constructor
  · unfold GuiObjectView.setMeshHidden
    rw [if_pos (Or.inr (S32.le_toU32_of_out_of_range _ i hN hlo hhi hout))]
  · intro model meshName hm hfind
    unfold GuiObjectView.setMeshHidden_name
    rw [hm]
    dsimp only
    rw [hfind]
    unfold GuiObjectView.setMeshHidden
    rw [if_pos (Or.inl rfl)]

/-- Instance of C15: the three-mesh sample model with all meshes hidden, asked to show
mesh 3 and the mesh named `"hat"`, which it does not have. -/
theorem C15_out_of_range_mesh_index_ignored_witness :
    GuiObjectView.setMeshHidden (GuiObjectView.setAllMeshesHidden
        ((GuiObjectView.setObjectModel sampleEngine sampleView "player.dts" 0).getD sampleView)
        true) 3 false
      = GuiObjectView.setAllMeshesHidden
        ((GuiObjectView.setObjectModel sampleEngine sampleView "player.dts" 0).getD sampleView)
        true ∧
    GuiObjectView.setMeshHidden_name (GuiObjectView.setAllMeshesHidden
        ((GuiObjectView.setObjectModel sampleEngine sampleView "player.dts" 0).getD sampleView)
        true) "hat" false
      = some (GuiObjectView.setAllMeshesHidden
        ((GuiObjectView.setObjectModel sampleEngine sampleView "player.dts" 0).getD sampleView)
        true) :=
  have h := C15_out_of_range_mesh_index_ignored (GuiObjectView.setAllMeshesHidden
    ((GuiObjectView.setObjectModel sampleEngine sampleView "player.dts" 0).getD sampleView)
    true) 3 false (by decide) (by norm_num) (by norm_num) (Or.inr (by decide))
  ⟨h.1, h.2 _ "hat" rfl rfl⟩

/-- C16: `setObjectAnimation(-5)` on a view showing `"player.dts"` (one sequence, no
animation thread yet) at virtual time 42. The range test of `_initAnimation` is
`mAnimationSeq >= sequences.size()`, a signed comparison, so -5 is not caught: the stored
sequence index is -5, not -1; an animation thread (handle 0) is started; and the model is
given sequence -5 on that thread. The indices -1 and 1 on the same view are ignored: the
index is -1 afterwards, there is no thread, and the model has none. -/
theorem C16_negative_sequence_index_not_ignored :
    ((GuiObjectView.setObjectModel sampleEngine sampleView "player.dts" 0).map
        (fun s => (s.mAnimationSeq, s.mRunThread, s.mModel.map (fun m => m.shape.sequencesSize),
          s.mModel.map (fun m => m.threads))))
      = some (-1, none, some 1, some []) ∧
    ((GuiObjectView.setObjectModel sampleEngine sampleView "player.dts" 0).map
        (fun s => GuiObjectView.setObjectAnimation s (-5) 42)).map
        (fun s => (s.mAnimationSeq, s.mRunThread, s.mModel.map (fun m => m.threads),
          s.mLastRenderTime))
      = some (-5, some 0, some [{ sequence := -5, pos := 0 }], 42) ∧
    ((GuiObjectView.setObjectModel sampleEngine sampleView "player.dts" 0).map
        (fun s => GuiObjectView.setObjectAnimation s (-1) 42)).map
        (fun s => (s.mAnimationSeq, s.mRunThread, s.mModel.map (fun m => m.threads),
          s.mLastRenderTime))
      = some (-1, none, some [], 0) ∧
    ((GuiObjectView.setObjectModel sampleEngine sampleView "player.dts" 0).map
        (fun s => GuiObjectView.setObjectAnimation s 1 42)).map
        (fun s => (s.mAnimationSeq, s.mRunThread, s.mModel.map (fun m => m.threads),
          s.mLastRenderTime))
      = some (-1, none, some [], 0) := by
  exact ⟨rfl, rfl, rfl, rfl⟩

/-- C17: with a model loaded, `setObjectAnimation(name)` for a name that is not a sequence
of the shape leaves the sequence index at -1, the model without a new sequence and the
thread handle as it was; with a mounted model as well, `setMountNode(name)` for a non-empty
name that is not a node of the primary shape leaves the mount node index at -1, so
`renderWorld` does not draw the mounted model. -/
theorem C17_unknown_name_leaves_index_unset (E : Engine) (s : GuiObjectView)
    (model : TSShapeInstance) (name : String) (vnow : ℤ) (hm : s.mModel = some model) :
    (model.shape.findSequence name = -1 →
      (GuiObjectView.setObjectAnimation_name s name vnow).mAnimationSeq = -1 ∧
      (GuiObjectView.setObjectAnimation_name s name vnow).mModel = some model ∧
      (GuiObjectView.setObjectAnimation_name s name vnow).mRunThread = s.mRunThread) ∧
    (∀ mounted : TSShapeInstance, s.mMountedModel = some mounted → name ≠ "" →
      model.shape.findNode name = -1 →
      (GuiObjectView.setMountNode E s name).mMountNode = -1 ∧
      (GuiObjectView.setMountNode E s name).mMountNodeName = name ∧
      GuiObjectView.renderWorld_rendersMounted (GuiObjectView.setMountNode E s name) = false) := by
  constructor
  · intro hfind
    unfold GuiObjectView.setObjectAnimation_name
    dsimp only
    rw [hm]
    dsimp only
    unfold GuiObjectView._initAnimation
    dsimp only
    by_cases he : name.isEmpty
    · simp [he, hm]
    · simp [he, hfind, hm]
  · intro mounted hmo hne hfind
    have hne' : ¬ name.isEmpty := by rw [String.isEmpty_iff]; exact hne
    have h1 : (GuiObjectView.setMountNode E s name).mMountNode = -1 := by
      unfold GuiObjectView.setMountNode
      dsimp only
      rw [hm]
      exact GuiObjectView._initMount_of_unknown_node E _ model mounted hmo hne' hfind
    have h2 : (GuiObjectView.setMountNode E s name).mMountNodeName = name := by
      unfold GuiObjectView.setMountNode
      dsimp only
      rw [hm]
      exact (GuiObjectView._initMount_config_frame E _ model).1
    refine ⟨h1, h2, ?_⟩
    unfold GuiObjectView.renderWorld_rendersMounted
    rw [h1]
    simp

/-- Instance of C17: the sample view with `"player.dts"` and `"weapon.dts"` mounted, asked
for the sequence `"run"` and the mount node `"Face"`, neither of which the shape has. -/
theorem C17_unknown_name_leaves_index_unset_witness :
    (GuiObjectView.setObjectAnimation_name (GuiObjectView.setMountedObject sampleEngine
        ((GuiObjectView.setObjectModel sampleEngine sampleView "player.dts" 0).getD sampleView)
        "weapon.dts") "run" 0).mAnimationSeq = -1 ∧
    (GuiObjectView.setMountNode sampleEngine (GuiObjectView.setMountedObject sampleEngine
        ((GuiObjectView.setObjectModel sampleEngine sampleView "player.dts" 0).getD sampleView)
        "weapon.dts") "Face").mMountNode = -1 :=
  have h := C17_unknown_name_leaves_index_unset sampleEngine
    (GuiObjectView.setMountedObject sampleEngine
      ((GuiObjectView.setObjectModel sampleEngine sampleView "player.dts" 0).getD sampleView)
      "weapon.dts") (TSShapeInstance.new (sampleShape 3 10)) "run" 0 rfl
  have h' := C17_unknown_name_leaves_index_unset sampleEngine
    (GuiObjectView.setMountedObject sampleEngine
      ((GuiObjectView.setObjectModel sampleEngine sampleView "player.dts" 0).getD sampleView)
      "weapon.dts") (TSShapeInstance.new (sampleShape 3 10)) "Face" 0 rfl
  ⟨(h.1 rfl).1, (h'.2 (TSShapeInstance.new (sampleShape 1 1)) rfl (by decide) rfl).1⟩

namespace GuiObjectView

/-- State after `setMountedObject` when the load succeeds: the mounted model is an instance
of the loaded shape and the mounted model name the requested one. -/
theorem setMountedObject_of_load (E : Engine) (s : GuiObjectView) (modelName : String)
    (shape : TSShape) (hload : E.load modelName = some shape) :
    (setMountedObject E s modelName).mMountedModelName = modelName ∧
    (∃ inst : TSShapeInstance, (setMountedObject E s modelName).mMountedModel = some inst ∧
      inst.shape = shape) ∧
    (setMountedObject E s modelName).mMountNodeName = s.mMountNodeName ∧
    (setMountedObject E s modelName).mModel = s.mModel ∧
    (setMountedObject E s modelName).mModelName = s.mModelName := by
  unfold setMountedObject
  dsimp only
  rw [hload]
  dsimp only
  split
  next model hm =>
    obtain ⟨c1, c2, c3, c4, -⟩ := _initMount_config_frame E
      { s with mMountedModel := some (if ¬ s.mMountSkinName.isEmpty then (TSShapeInstance.new shape).reSkin s.mMountSkinName "" else TSShapeInstance.new shape), mMountedModelName := modelName } model
    obtain ⟨-, f2, -, -⟩ := _initMount_frame E
      { s with mMountedModel := some (if ¬ s.mMountSkinName.isEmpty then (TSShapeInstance.new shape).reSkin s.mMountSkinName "" else TSShapeInstance.new shape), mMountedModelName := modelName } model
    refine ⟨c3, ⟨_, c2, ?_⟩, c1, f2, c4⟩
    split_ifs <;> rfl
  next hm =>
    refine ⟨rfl, ⟨_, rfl, ?_⟩, rfl, rfl, rfl⟩
    split_ifs <;> rfl

/-- Method `setMountNode` stores the name and touches neither model. -/
theorem setMountNode_frame (E : Engine) (s : GuiObjectView) (name : String) :
    (setMountNode E s name).mMountNodeName = name ∧
    (setMountNode E s name).mModel = s.mModel ∧
    (setMountNode E s name).mMountedModel = s.mMountedModel ∧
    (setMountNode E s name).mMountedModelName = s.mMountedModelName := by
  unfold setMountNode
  dsimp only
  split
  next model hm =>
    obtain ⟨c1, c2, c3, -, -⟩ := _initMount_config_frame E { s with mMountNodeName := name } model
    obtain ⟨-, f2, -, -⟩ := _initMount_frame E { s with mMountNodeName := name } model
    exact ⟨c1, f2, c2, c3⟩
  next hm => exact ⟨rfl, rfl, rfl, rfl⟩

/-- The sequence name and the part of the state outside the animation that
`_initAnimation` leaves alone. -/
theorem _initAnimation_name_frame (s : GuiObjectView) (model : TSShapeInstance) (vnow : ℤ) :
    (_initAnimation s model vnow).mAnimationSeqName = s.mAnimationSeqName := by
  unfold _initAnimation
  dsimp only
  split_ifs
  all_goals first
    | rfl
    | (split <;> rfl)

/-- The sequence index after `_initAnimation` with a non-empty sequence name is -1 or the
index the shape gives for that name. -/
theorem _initAnimation_seq_of_name (s : GuiObjectView) (model : TSShapeInstance) (vnow : ℤ)
    (hne : ¬ s.mAnimationSeqName.isEmpty) :
    (_initAnimation s model vnow).mAnimationSeq = -1 ∨
      (_initAnimation s model vnow).mAnimationSeq
        = model.shape.findSequence s.mAnimationSeqName := by
  unfold _initAnimation
  dsimp only
  rw [if_neg (fun h => hne h.1), if_neg hne]
  split_ifs
  all_goals first
    | exact Or.inr rfl
    | exact Or.inl rfl
    | (split <;> exact Or.inr rfl)

/-- An index within the sequences of the loaded shape is stored by
`setObjectAnimation( S32 )`. -/
theorem setObjectAnimation_of_in_range (s : GuiObjectView) (model : TSShapeInstance)
    (index vnow : ℤ) (hm : s.mModel = some model) (h0 : 0 ≤ index) (h31 : index < 2 ^ 31)
    (hS : index < (model.shape.sequencesSize : ℤ)) :
    (setObjectAnimation s index vnow).mAnimationSeq = index ∧
    (setObjectAnimation s index vnow).mAnimationSeqName = "" := by
  have hE : ("" : String).isEmpty = true := rfl
  have h1 : index ≠ -1 := by omega
  have h2 : ¬ (model.shape.sequencesSize : ℤ) ≤ index := by omega
  unfold setObjectAnimation
  dsimp only
  rw [hm]
  dsimp only
  unfold _initAnimation
  dsimp only
  rw [if_neg (fun h => h1 h.2), if_pos hE, if_neg (fun h => h1 h.2), if_pos h1, if_neg h2]
  split <;> exact ⟨rfl, rfl⟩

end GuiObjectView

/-- C18: in the Rotating state, `onMouseDragged` with pointer delta `(dx, dy)` stores the
camera z-rotation `old + dx * cameraSpeed` (single-precision sum and product, equal to the
exact value whenever `dx`, the product and the sum are binary32 values); the x- and
y-rotation, the orbit distance and its bounds, and the orbit centre are unchanged. -/
theorem C18_left_drag_adjusts_only_yaw (s : GuiObjectView) (event : GuiEvent)
    (hr : s.mMouseState = MouseState.Rotating) :
    (GuiObjectView.onMouseDragged s event).mCameraRot.z
      = F32.add s.mCameraRot.z (F32.mul
          (F32.ofS32 (S32.wrap (event.mousePoint.x - s.mLastMousePoint.x))) s.mCameraSpeed) ∧
    (F32.ofS32 (S32.wrap (event.mousePoint.x - s.mLastMousePoint.x))
        = S32.wrap (event.mousePoint.x - s.mLastMousePoint.x) →
      F32.round (S32.wrap (event.mousePoint.x - s.mLastMousePoint.x) * s.mCameraSpeed)
        = S32.wrap (event.mousePoint.x - s.mLastMousePoint.x) * s.mCameraSpeed →
      F32.round (s.mCameraRot.z
          + S32.wrap (event.mousePoint.x - s.mLastMousePoint.x) * s.mCameraSpeed)
        = s.mCameraRot.z
          + S32.wrap (event.mousePoint.x - s.mLastMousePoint.x) * s.mCameraSpeed →
      (GuiObjectView.onMouseDragged s event).mCameraRot.z
        = s.mCameraRot.z
          + S32.wrap (event.mousePoint.x - s.mLastMousePoint.x) * s.mCameraSpeed) ∧
    (GuiObjectView.onMouseDragged s event).mCameraRot.x = s.mCameraRot.x ∧
    (GuiObjectView.onMouseDragged s event).mCameraRot.y = s.mCameraRot.y ∧
    (GuiObjectView.onMouseDragged s event).mOrbitDist = s.mOrbitDist ∧
    (GuiObjectView.onMouseDragged s event).mMinOrbitDist = s.mMinOrbitDist ∧
    (GuiObjectView.onMouseDragged s event).mMaxOrbitDist = s.mMaxOrbitDist ∧
    (GuiObjectView.onMouseDragged s event).mOrbitPos = s.mOrbitPos ∧
    (GuiObjectView.onMouseDragged s event).mMouseState = MouseState.Rotating := by
  unfold GuiObjectView.onMouseDragged
  rw [if_neg (by rw [hr]; exact fun h => h rfl)]
  refine ⟨rfl, ?_, rfl, rfl, rfl, rfl, rfl, rfl, hr⟩
  intro h1 h2 h3
  show F32.add s.mCameraRot.z (F32.mul
      (F32.ofS32 (S32.wrap (event.mousePoint.x - s.mLastMousePoint.x))) s.mCameraSpeed) = _
  unfold F32.add F32.mul
  rw [h1, h2, h3]

/-- Instance of C18: a fresh view with camera speed `1 / 2`, primary button down at the
origin, dragged to `(3, 9)`: the z-rotation goes from 0 to `3 / 2`. -/
theorem C18_left_drag_adjusts_only_yaw_witness :
    (GuiObjectView.onMouseDragged (GuiObjectView.onMouseDown
        (GuiObjectView.setCameraSpeed sampleView (1 / 2)) true true true ⟨⟨0, 0⟩⟩)
        ⟨⟨3, 9⟩⟩).mCameraRot.z = 3 / 2 ∧
    (GuiObjectView.onMouseDragged (GuiObjectView.onMouseDown
        (GuiObjectView.setCameraSpeed sampleView (1 / 2)) true true true ⟨⟨0, 0⟩⟩)
        ⟨⟨3, 9⟩⟩).mCameraRot.x = 0 ∧
    (GuiObjectView.onMouseDragged (GuiObjectView.onMouseDown
        (GuiObjectView.setCameraSpeed sampleView (1 / 2)) true true true ⟨⟨0, 0⟩⟩)
        ⟨⟨3, 9⟩⟩).mOrbitDist = 5 :=
  have h := C18_left_drag_adjusts_only_yaw (GuiObjectView.onMouseDown
    (GuiObjectView.setCameraSpeed sampleView (1 / 2)) true true true ⟨⟨0, 0⟩⟩) ⟨⟨3, 9⟩⟩ rfl
  have e0 : S32.wrap ((⟨⟨3, 9⟩⟩ : GuiEvent).mousePoint.x - (GuiObjectView.onMouseDown
      (GuiObjectView.setCameraSpeed sampleView (1 / 2)) true true true
      ⟨⟨0, 0⟩⟩).mLastMousePoint.x) = 3 := by decide
  have e1 : F32.round (3 : ℚ) = 3 := by
    have := F32.round_natCast 3 (by norm_num)
    exact_mod_cast this
  have e2 : F32.round (3 / 2 : ℚ) = 3 / 2 := by
    have := F32.round_of_rep 3 (-1) (by norm_num) (by norm_num)
    norm_num at this ⊢
    exact this
  ⟨(h.2.1
      (by rw [e0]; unfold F32.ofS32; exact_mod_cast e1)
      (by
        rw [e0]
        show F32.round (((3 : ℤ) : ℚ) * (1 / 2)) = ((3 : ℤ) : ℚ) * (1 / 2)
        norm_num
        exact e2)
      (by
        rw [e0]
        show F32.round ((0 : ℚ) + ((3 : ℤ) : ℚ) * (1 / 2)) = (0 : ℚ) + ((3 : ℤ) : ℚ) * (1 / 2)
        norm_num
        exact e2)).trans
      (by
        rw [e0]
        show (0 : ℚ) + ((3 : ℤ) : ℚ) * (1 / 2) = 3 / 2
        norm_num),
    h.2.2.1, h.2.2.2.2.1⟩

/-- C19: after the script method `setMount(shapeName, mountNodeIndexOrName)` the stored
mount node name is `"mount"` followed by the decimal form of the integer `dAtoi` reads from
the second argument when that argument begins with a decimal digit, and the argument itself
otherwise; in both cases the mounted model is then loaded from `shapeName`: on a successful
load the mounted model is an instance of the loaded shape under the name `shapeName` and the
primary model is untouched. -/
theorem C19_setMount_stores_node_name (E : Engine) (s : GuiObjectView)
    (shapeName mountNodeIndexOrName : String) :
    (firstIsDigit mountNodeIndexOrName = true →
      (GuiObjectView.script_setMount E s shapeName mountNodeIndexOrName).mMountNodeName
        = "mount" ++ toString (dAtoi mountNodeIndexOrName) ∧
      GuiObjectView.script_setMount E s shapeName mountNodeIndexOrName
        = GuiObjectView.setMountedObject E
            (GuiObjectView.setMountNode E s ("mount" ++ toString (dAtoi mountNodeIndexOrName)))
            shapeName) ∧
    (firstIsDigit mountNodeIndexOrName = false →
      (GuiObjectView.script_setMount E s shapeName mountNodeIndexOrName).mMountNodeName
        = mountNodeIndexOrName ∧
      GuiObjectView.script_setMount E s shapeName mountNodeIndexOrName
        = GuiObjectView.setMountedObject E
            (GuiObjectView.setMountNode E s mountNodeIndexOrName) shapeName) ∧
    (∀ shape : TSShape, E.load shapeName = some shape →
      (GuiObjectView.script_setMount E s shapeName mountNodeIndexOrName).mMountedModelName
        = shapeName ∧
      (∃ inst : TSShapeInstance,
        (GuiObjectView.script_setMount E s shapeName mountNodeIndexOrName).mMountedModel
          = some inst ∧ inst.shape = shape) ∧
      (GuiObjectView.script_setMount E s shapeName mountNodeIndexOrName).mModel = s.mModel ∧
      (GuiObjectView.script_setMount E s shapeName mountNodeIndexOrName).mModelName
        = s.mModelName) := by
  refine ⟨?_, ?_, ?_⟩
  · intro hd
    have e : GuiObjectView.script_setMount E s shapeName mountNodeIndexOrName
        = GuiObjectView.setMountedObject E
            (GuiObjectView.setMountNode E s ("mount" ++ toString (dAtoi mountNodeIndexOrName)))
            shapeName := by
      unfold GuiObjectView.script_setMount
      dsimp only
      rw [if_pos hd]
      rfl
    refine ⟨?_, e⟩
    rw [e]
    cases hl : E.load shapeName with
    | none =>
      have : GuiObjectView.setMountedObject E
          (GuiObjectView.setMountNode E s ("mount" ++ toString (dAtoi mountNodeIndexOrName)))
          shapeName = { GuiObjectView.setMountNode E s
            ("mount" ++ toString (dAtoi mountNodeIndexOrName)) with
            mMountedModel := none, mMountedModelName := "" } := by
        unfold GuiObjectView.setMountedObject
        simp only [hl]
      rw [this]
      exact (GuiObjectView.setMountNode_frame E s _).1
    | some shape =>
      rw [(GuiObjectView.setMountedObject_of_load E _ shapeName shape hl).2.2.1]
      exact (GuiObjectView.setMountNode_frame E s _).1
  · intro hd
    have e : GuiObjectView.script_setMount E s shapeName mountNodeIndexOrName
        = GuiObjectView.setMountedObject E
            (GuiObjectView.setMountNode E s mountNodeIndexOrName) shapeName := by
      unfold GuiObjectView.script_setMount
      dsimp only
      rw [if_neg (by rw [hd]; exact Bool.false_ne_true)]
    refine ⟨?_, e⟩
    rw [e]
    cases hl : E.load shapeName with
    | none =>
      have : GuiObjectView.setMountedObject E
          (GuiObjectView.setMountNode E s mountNodeIndexOrName)
          shapeName = { GuiObjectView.setMountNode E s mountNodeIndexOrName with
            mMountedModel := none, mMountedModelName := "" } := by
        unfold GuiObjectView.setMountedObject
        simp only [hl]
      rw [this]
      exact (GuiObjectView.setMountNode_frame E s _).1
    | some shape =>
      rw [(GuiObjectView.setMountedObject_of_load E _ shapeName shape hl).2.2.1]
      exact (GuiObjectView.setMountNode_frame E s _).1
  · intro shape hl
    unfold GuiObjectView.script_setMount
    dsimp only
    obtain ⟨a1, a2, -, a4, a5⟩ := GuiObjectView.setMountedObject_of_load E
      (if firstIsDigit mountNodeIndexOrName = true then
        GuiObjectView.setMountNode_index E s (dAtoi mountNodeIndexOrName)
      else GuiObjectView.setMountNode E s mountNodeIndexOrName) shapeName shape hl
    refine ⟨a1, a2, ?_, ?_⟩
    · rw [a4]
      split_ifs
      · exact (GuiObjectView.setMountNode_frame E s _).2.1
      · exact (GuiObjectView.setMountNode_frame E s _).2.1
    · rw [a5]
      split_ifs
      · unfold GuiObjectView.setMountNode_index GuiObjectView.setMountNode
        dsimp only
        split
        · exact (GuiObjectView._initMount_config_frame E _ _).2.2.2.1
        · rfl
      · unfold GuiObjectView.setMountNode
        dsimp only
        split
        · exact (GuiObjectView._initMount_config_frame E _ _).2.2.2.1
        · rfl

/-- Instance of C19 on the sample view showing `"player.dts"`: `setMount("weapon.dts", "3")`
stores the node name `"mount3"` and `setMount("weapon.dts", "Face")` the name `"Face"`; both
mount `"weapon.dts"`. -/
theorem C19_setMount_stores_node_name_witness :
    dAtoi "3" = 3 ∧
    (GuiObjectView.script_setMount sampleEngine
        ((GuiObjectView.setObjectModel sampleEngine sampleView "player.dts" 0).getD sampleView)
        "weapon.dts" "3").mMountNodeName = "mount3" ∧
    (GuiObjectView.script_setMount sampleEngine
        ((GuiObjectView.setObjectModel sampleEngine sampleView "player.dts" 0).getD sampleView)
        "weapon.dts" "Face").mMountNodeName = "Face" ∧
    (GuiObjectView.script_setMount sampleEngine
        ((GuiObjectView.setObjectModel sampleEngine sampleView "player.dts" 0).getD sampleView)
        "weapon.dts" "Face").mMountedModelName = "weapon.dts" :=
  ⟨by decide,
    ((C19_setMount_stores_node_name sampleEngine
      ((GuiObjectView.setObjectModel sampleEngine sampleView "player.dts" 0).getD sampleView)
      "weapon.dts" "3").1 rfl).1,
    ((C19_setMount_stores_node_name sampleEngine
      ((GuiObjectView.setObjectModel sampleEngine sampleView "player.dts" 0).getD sampleView)
      "weapon.dts" "Face").2.1 rfl).1,
    ((C19_setMount_stores_node_name sampleEngine
      ((GuiObjectView.setObjectModel sampleEngine sampleView "player.dts" 0).getD sampleView)
      "weapon.dts" "Face").2.2 (sampleShape 1 1) rfl).1⟩

theorem dAtoi_mem (str : String) : -2 ^ 31 ≤ dAtoi str ∧ dAtoi str < 2 ^ 31 := by
  unfold dAtoi
  split <;> exact S32.wrap_mem _

namespace GuiObjectView

theorem setObjectAnimation_name_eq (s : GuiObjectView) (index vnow : ℤ) :
    (setObjectAnimation s index vnow).mAnimationSeqName = "" := by
  unfold setObjectAnimation
  dsimp only
  split
  · exact _initAnimation_name_frame _ _ _
  · rfl

/-- After `setObjectAnimation( name )` the stored name is `name` and the stored index is -1
or the index the loaded shape gives for `name`. -/
theorem setObjectAnimation_name_result (s : GuiObjectView) (name : String) (vnow : ℤ) :
    (setObjectAnimation_name s name vnow).mAnimationSeqName = name ∧
    ((setObjectAnimation_name s name vnow).mAnimationSeq = -1 ∨
      ∃ model : TSShapeInstance, s.mModel = some model ∧
        (setObjectAnimation_name s name vnow).mAnimationSeq = model.shape.findSequence name) := by
  unfold setObjectAnimation_name
  dsimp only
  split
  next model hm =>
    refine ⟨_initAnimation_name_frame _ _ _, ?_⟩
    by_cases he : name.isEmpty
    · left
      unfold _initAnimation
      dsimp only
      rw [if_pos ⟨he, rfl⟩]
    · rcases _initAnimation_seq_of_name
          { s with mAnimationSeq := -1, mAnimationSeqName := name } model vnow he with h | h
      · exact Or.inl h
      · exact Or.inr ⟨model, hm, h⟩
  next hm => exact ⟨rfl, Or.inl rfl⟩

end GuiObjectView

/-- C20: the script method `setSeq(indexOrName)`, when the argument begins with a decimal
digit, calls `setObjectAnimation` with the integer `dAtoi` reads from it, which clears the
stored sequence name and, with a model having that many sequences, stores that index;
otherwise it calls `setObjectAnimation` with the name, which stores the name and resets the
index to -1 before the lookup, so the result does not depend on the index stored before and
the index afterwards is -1 or the one the shape gives for the name. After any call the
stored name is empty, or the stored index is -1 or the lookup result of the stored name. -/
theorem C20_setSeq_selects_by_index_or_name (s : GuiObjectView) (indexOrName : String)
    (vnow : ℤ) :
    (firstIsDigit indexOrName = true →
      GuiObjectView.script_setSeq s indexOrName vnow
        = GuiObjectView.setObjectAnimation s (dAtoi indexOrName) vnow ∧
      (GuiObjectView.script_setSeq s indexOrName vnow).mAnimationSeqName = "" ∧
      ∀ model : TSShapeInstance, s.mModel = some model → 0 ≤ dAtoi indexOrName →
        dAtoi indexOrName < (model.shape.sequencesSize : ℤ) →
        (GuiObjectView.script_setSeq s indexOrName vnow).mAnimationSeq = dAtoi indexOrName) ∧
    (firstIsDigit indexOrName = false →
      GuiObjectView.script_setSeq s indexOrName vnow
        = GuiObjectView.setObjectAnimation_name s indexOrName vnow ∧
      (GuiObjectView.script_setSeq s indexOrName vnow).mAnimationSeqName = indexOrName ∧
      GuiObjectView.script_setSeq s indexOrName vnow
        = GuiObjectView.script_setSeq { s with mAnimationSeq := -1 } indexOrName vnow ∧
      ((GuiObjectView.script_setSeq s indexOrName vnow).mAnimationSeq = -1 ∨
        ∃ model : TSShapeInstance, s.mModel = some model ∧
          (GuiObjectView.script_setSeq s indexOrName vnow).mAnimationSeq
            = model.shape.findSequence indexOrName)) ∧
    ((GuiObjectView.script_setSeq s indexOrName vnow).mAnimationSeqName = "" ∨
      (GuiObjectView.script_setSeq s indexOrName vnow).mAnimationSeq = -1 ∨
      ∃ model : TSShapeInstance, s.mModel = some model ∧
        (GuiObjectView.script_setSeq s indexOrName vnow).mAnimationSeq
          = model.shape.findSequence
              (GuiObjectView.script_setSeq s indexOrName vnow).mAnimationSeqName) := by
  have hdig : firstIsDigit indexOrName = true →
      GuiObjectView.script_setSeq s indexOrName vnow
        = GuiObjectView.setObjectAnimation s (dAtoi indexOrName) vnow := by
    intro hd
    unfold GuiObjectView.script_setSeq
    rw [if_pos hd]
  have hname : ∀ s' : GuiObjectView, firstIsDigit indexOrName = false →
      GuiObjectView.script_setSeq s' indexOrName vnow
        = GuiObjectView.setObjectAnimation_name s' indexOrName vnow := by
    intro s' hd
    unfold GuiObjectView.script_setSeq
    rw [if_neg (by rw [hd]; exact Bool.false_ne_true)]
  obtain ⟨n1, n2⟩ := GuiObjectView.setObjectAnimation_name_result s indexOrName vnow
  refine ⟨?_, ?_, ?_⟩
  · intro hd
    rw [hdig hd]
    refine ⟨rfl, GuiObjectView.setObjectAnimation_name_eq s _ vnow, ?_⟩
    intro model hm h0 hS
    exact (GuiObjectView.setObjectAnimation_of_in_range s model _ vnow hm h0
      (dAtoi_mem indexOrName).2 hS).1
  · intro hd
    rw [hname s hd, hname _ hd]
    exact ⟨rfl, n1, rfl, n2⟩
  · cases hd : firstIsDigit indexOrName with
    | true =>
      rw [hdig hd]
      exact Or.inl (GuiObjectView.setObjectAnimation_name_eq s _ vnow)
    | false =>
      rw [hname s hd, n1]
      exact Or.inr n2

/-- Instance of C20 on the sample view showing `"player.dts"` (one sequence, `"idle"`):
`setSeq("0")` stores index 0 and no name, `setSeq("idle")` stores the name and, whatever
index was stored before, the same state as after a reset of the index. -/
theorem C20_setSeq_selects_by_index_or_name_witness :
    (GuiObjectView.script_setSeq
        ((GuiObjectView.setObjectModel sampleEngine sampleView "player.dts" 0).getD sampleView)
        "0" 0).mAnimationSeq = dAtoi "0" ∧
    (GuiObjectView.script_setSeq
        ((GuiObjectView.setObjectModel sampleEngine sampleView "player.dts" 0).getD sampleView)
        "0" 0).mAnimationSeqName = "" ∧
    (GuiObjectView.script_setSeq
        ((GuiObjectView.setObjectModel sampleEngine sampleView "player.dts" 0).getD sampleView)
        "idle" 0).mAnimationSeqName = "idle" :=
  have h := C20_setSeq_selects_by_index_or_name
    ((GuiObjectView.setObjectModel sampleEngine sampleView "player.dts" 0).getD sampleView)
    "0" 0
  have h' := C20_setSeq_selects_by_index_or_name
    ((GuiObjectView.setObjectModel sampleEngine sampleView "player.dts" 0).getD sampleView)
    "idle" 0
  ⟨(h.1 rfl).2.2 (TSShapeInstance.new (sampleShape 3 10)) rfl (by decide) (by decide),
    (h.1 rfl).2.1, (h'.2.1 rfl).2.1⟩

/-! ### The object view: mount transform and orbit height -/

namespace GuiObjectView

/-- With a mounted model and a non-empty mount node name that the primary shape has,
`_initMount` stores the index of that node and the mount transform taken from the mounted
shape's `"mountPoint"` node. -/
theorem _initMount_of_found (E : Engine) (s : GuiObjectView) (model mounted : TSShapeInstance)
    (hmo : s.mMountedModel = some mounted) (hne : ¬ s.mMountNodeName.isEmpty)
    (h0 : 0 ≤ model.shape.findNode s.mMountNodeName)
    (h1 : model.shape.findNode s.mMountNodeName < (model.shape.nodesSize : ℤ)) :
    (_initMount E s model).mMountNode = model.shape.findNode s.mMountNodeName ∧
    (_initMount E s model).mMountTransform =
      (if mounted.shape.findNode "mountPoint" ≠ -1 then
        E.inverse (mounted.shape.getNodeWorldTransform (mounted.shape.findNode "mountPoint"))
      else MatrixF.identity) := by
  have hn1 : model.shape.findNode s.mMountNodeName ≠ -1 := by omega
  have hn2 : ¬ (model.shape.nodesSize : ℤ) ≤ model.shape.findNode s.mMountNodeName := by
    omega
  unfold _initMount
  rw [hmo]
  dsimp only
  rw [if_neg hne, if_neg (fun h => hn1 h.2), if_neg (fun h => hn2 h.2)]
  split_ifs <;> exact ⟨rfl, rfl⟩

end GuiObjectView

/-- C21: with a mounted model present and a non-empty mount node name that the primary
shape has (a node index within the shape's nodes), after a successful `setObjectModel`,
after a successful `setMountedObject` with a primary model loaded, and after `setMountNode`
with a primary model loaded, the stored mount node is that node and the stored mount
transform is the inverse of the world transform of the mounted shape's `"mountPoint"` node,
or the identity when the mounted shape has no such node. -/
theorem C21_mount_transform_recomputed (E : Engine) (s : GuiObjectView) :
    (∀ (modelName : String) (vnow : ℤ) (shape : TSShape) (mounted : TSShapeInstance),
      E.load modelName = some shape → s.mMountedModel = some mounted →
      s.mMountNodeName ≠ "" → 0 ≤ shape.findNode s.mMountNodeName →
      shape.findNode s.mMountNodeName < (shape.nodesSize : ℤ) →
      ∃ a : GuiObjectView, GuiObjectView.setObjectModel E s modelName vnow = some a ∧
        a.mMountNode = shape.findNode s.mMountNodeName ∧
        a.mMountTransform =
          (if mounted.shape.findNode "mountPoint" ≠ -1 then
            E.inverse (mounted.shape.getNodeWorldTransform
              (mounted.shape.findNode "mountPoint"))
          else MatrixF.identity)) ∧
    (∀ (modelName : String) (mshape : TSShape) (model : TSShapeInstance),
      E.load modelName = some mshape → s.mModel = some model →
      s.mMountNodeName ≠ "" → 0 ≤ model.shape.findNode s.mMountNodeName →
      model.shape.findNode s.mMountNodeName < (model.shape.nodesSize : ℤ) →
      (GuiObjectView.setMountedObject E s modelName).mMountNode
        = model.shape.findNode s.mMountNodeName ∧
      (GuiObjectView.setMountedObject E s modelName).mMountTransform =
        (if mshape.findNode "mountPoint" ≠ -1 then
          E.inverse (mshape.getNodeWorldTransform (mshape.findNode "mountPoint"))
        else MatrixF.identity)) ∧
    (∀ (name : String) (model mounted : TSShapeInstance),
      s.mModel = some model → s.mMountedModel = some mounted →
      name ≠ "" → 0 ≤ model.shape.findNode name →
      model.shape.findNode name < (model.shape.nodesSize : ℤ) →
      (GuiObjectView.setMountNode E s name).mMountNode = model.shape.findNode name ∧
      (GuiObjectView.setMountNode E s name).mMountTransform =
        (if mounted.shape.findNode "mountPoint" ≠ -1 then
          E.inverse (mounted.shape.getNodeWorldTransform
            (mounted.shape.findNode "mountPoint"))
        else MatrixF.identity)) := by
  refine ⟨?_, ?_, ?_⟩
  · intro modelName vnow shape mounted hload hmo hname h0 h1
    obtain ⟨s5, m4, m6, hres, hm6, hs6, -, -, -, -, -, -, -, -, hmm, hmn, -, -⟩ :=
      GuiObjectView.setObjectModel_of_load E s modelName vnow shape hload
    obtain ⟨-, g2, g3, -, -⟩ := GuiObjectView._initAnimation_frame s5 m4 vnow
    have e2 : (GuiObjectView._initAnimation s5 m4 vnow).mMountedModel = some mounted := by
      rw [g2, hmm, hmo]
    have e3 : (GuiObjectView._initAnimation s5 m4 vnow).mMountNodeName = s.mMountNodeName := by
      rw [g3, hmn]
    have hne : ¬ (GuiObjectView._initAnimation s5 m4 vnow).mMountNodeName.isEmpty := by
      rw [e3, String.isEmpty_iff]; exact hname
    have := GuiObjectView._initMount_of_found E (GuiObjectView._initAnimation s5 m4 vnow) m6
      mounted e2 hne (by rw [e3, hs6]; exact h0) (by rw [e3, hs6]; exact h1)
    rw [e3, hs6] at this
    exact ⟨_, hres, this.1, this.2⟩
  · intro modelName mshape model hload hm hname h0 h1
    have hne : ¬ s.mMountNodeName.isEmpty := by rw [String.isEmpty_iff]; exact hname
    have hs : (if ¬ s.mMountSkinName.isEmpty then
        (TSShapeInstance.new mshape).reSkin s.mMountSkinName ""
        else TSShapeInstance.new mshape).shape = mshape := by
      split_ifs <;> rfl
    have := GuiObjectView._initMount_of_found E
      { s with mMountedModel := some (if ¬ s.mMountSkinName.isEmpty then (TSShapeInstance.new mshape).reSkin s.mMountSkinName "" else TSShapeInstance.new mshape), mMountedModelName := modelName }
      model _ rfl hne h0 h1
    rw [hs] at this
    unfold GuiObjectView.setMountedObject
    dsimp only
    rw [hload]
    dsimp only
    rw [hm]
    dsimp only
    rw [hm] at this
    exact this
  · intro name model mounted hm hmo hname h0 h1
    have hne : ¬ name.isEmpty := by rw [String.isEmpty_iff]; exact hname
    have := GuiObjectView._initMount_of_found E { s with mMountNodeName := name } model
      mounted hmo hne h0 h1
    unfold GuiObjectView.setMountNode
    dsimp only
    rw [hm]
    dsimp only
    rw [hm] at this
    exact this

/-- Instance of C21: the sample view showing `"player.dts"`, on whose node `"mount0"` first
`"weapon.dts"` (no `"mountPoint"` node) and then `"figure.dts"` (with one) is mounted. -/
theorem C21_mount_transform_recomputed_witness :
    (GuiObjectView.setMountedObject sampleFigureEngine
        ((GuiObjectView.setObjectModel sampleFigureEngine sampleView "player.dts" 0).getD
          sampleView) "weapon.dts").mMountTransform = MatrixF.identity ∧
    (GuiObjectView.setMountedObject sampleFigureEngine
        ((GuiObjectView.setObjectModel sampleFigureEngine sampleView "player.dts" 0).getD
          sampleView) "figure.dts").mMountTransform
      = sampleFigureEngine.inverse (sampleFigure.getNodeWorldTransform 2) ∧
    (GuiObjectView.setMountedObject sampleFigureEngine
        ((GuiObjectView.setObjectModel sampleFigureEngine sampleView "player.dts" 0).getD
          sampleView) "figure.dts").mMountNode = 3 :=
  have h := (C21_mount_transform_recomputed sampleFigureEngine
    ((GuiObjectView.setObjectModel sampleFigureEngine sampleView "player.dts" 0).getD
      sampleView)).2.1
  ⟨(h "weapon.dts" (sampleShape 1 1) (TSShapeInstance.new (sampleShape 3 10)) rfl rfl
      (by decide) (by decide) (by decide)).2,
    (h "figure.dts" sampleFigure (TSShapeInstance.new (sampleShape 3 10)) rfl rfl
      (by decide) (by decide) (by decide)).2,
    (h "figure.dts" sampleFigure (TSShapeInstance.new (sampleShape 3 10)) rfl rfl
      (by decide) (by decide) (by decide)).1⟩

namespace GuiObjectView

/-- The orbit centre after the height update of `onRightMouseDragged`. -/
theorem onRightMouseDragged_orbitZ_pos (s : GuiObjectView) (delta : ℤ) (chestZ : ℚ) :
    (onRightMouseDragged_orbitZ s delta chestZ).mOrbitPos.x = s.mOrbitPos.x ∧
    (onRightMouseDragged_orbitZ s delta chestZ).mOrbitPos.y = s.mOrbitPos.y ∧
    (onRightMouseDragged_orbitZ s delta chestZ).mOrbitPos.z =
      (if s.mOrbitDist ≠ 0 ∧
          1 < F32.sub s.mOrbitPos.z
            (F32.div (F32.mul (F32.ofS32 delta) s.mCameraSpeed) s.mOrbitDist) ∧
          F32.sub s.mOrbitPos.z
            (F32.div (F32.mul (F32.ofS32 delta) s.mCameraSpeed) s.mOrbitDist) < chestZ then
        F32.sub s.mOrbitPos.z (F32.div (F32.mul (F32.ofS32 delta) s.mCameraSpeed) s.mOrbitDist)
      else s.mOrbitPos.z) := by
  unfold onRightMouseDragged_orbitZ
  dsimp only
  split_ifs <;> exact ⟨rfl, rfl, rfl⟩

end GuiObjectView

/-- C22: in the Zooming state with a model loaded, on a shape with both a `"start01"` and an
`"eye"` node, with `d = eyeZ - baseZ` and the ceiling `0.45 * d` when `d < 1.5` and
`0.75 * d` otherwise, `onRightMouseDragged` replaces the orbit centre's z by
`newZ = z - (dy * cameraSpeed) / orbitDist` (single-precision operations, `orbitDist` the
distance stored by the same drag, which must not be zero) exactly when `1 < newZ < ceiling`
and leaves it otherwise; x and y of the orbit centre never change, and when either node is
missing the orbit centre is unchanged. -/
theorem C22_orbit_height_between_floor_and_ceiling (s : GuiObjectView) (event : GuiEvent)
    (model : TSShapeInstance) (hz : s.mMouseState = MouseState.Zooming)
    (hm : s.mModel = some model) :
    ∃ s1 : GuiObjectView, GuiObjectView.onRightMouseDragged s event = some s1 ∧
      s1.mOrbitPos.x = s.mOrbitPos.x ∧ s1.mOrbitPos.y = s.mOrbitPos.y ∧
      (model.shape.findNode "start01" ≠ -1 → model.shape.findNode "eye" ≠ -1 →
        ∀ d ceiling newZ : ℚ,
          d = F32.sub
            (model.shape.getNodeWorldTransform (model.shape.findNode "eye")).getColumn3.z
            (model.shape.getNodeWorldTransform
              (model.shape.findNode "start01")).getColumn3.z →
          ceiling = (if d < 3 / 2 then F32.mul d (F32.round (45 / 100))
            else F32.mul d (3 / 4)) →
          newZ = F32.sub s.mOrbitPos.z (F32.div (F32.mul
            (F32.ofS32 (S32.wrap (event.mousePoint.y - s.mLastMousePoint.y)))
            s.mCameraSpeed) s1.mOrbitDist) →
          s1.mOrbitPos.z =
            (if s1.mOrbitDist ≠ 0 ∧ 1 < newZ ∧ newZ < ceiling then newZ
              else s.mOrbitPos.z)) ∧
      (model.shape.findNode "start01" = -1 ∨ model.shape.findNode "eye" = -1 →
        s1.mOrbitPos = s.mOrbitPos) := by
  have hz' : ¬ s.mMouseState ≠ MouseState.Zooming := by rw [hz]; exact fun h => h rfl
  unfold GuiObjectView.onRightMouseDragged
  rw [if_neg hz']
  dsimp only
  rw [hm]
  dsimp only
  by_cases hb : model.shape.findNode "start01" = -1
  · rw [if_neg (not_not.mpr hb)]
    exact ⟨_, rfl, rfl, rfl, fun h => absurd hb h, fun _ => rfl⟩
  · rw [if_pos hb]
    by_cases he : model.shape.findNode "eye" = -1
    · rw [if_neg (not_not.mpr he)]
      exact ⟨_, rfl, rfl, rfl, fun _ h => absurd he h, fun _ => rfl⟩
    · rw [if_pos he]
      by_cases hd : F32.sub
          (model.shape.getNodeWorldTransform (model.shape.findNode "eye")).getColumn3.z
          (model.shape.getNodeWorldTransform (model.shape.findNode "start01")).getColumn3.z
          < 3 / 2
      · rw [if_pos hd]
        refine ⟨_, rfl, (GuiObjectView.onRightMouseDragged_orbitZ_pos _ _ _).1,
          (GuiObjectView.onRightMouseDragged_orbitZ_pos _ _ _).2.1, ?_,
          fun h => h.elim (fun h => absurd h hb) (fun h => absurd h he)⟩
        intro _ _ d ceiling newZ hd' hc hn
        rw [(GuiObjectView.onRightMouseDragged_orbitZ_frame _ _ _).1] at hn ⊢
        rw [(GuiObjectView.onRightMouseDragged_orbitZ_pos _ _ _).2.2]
        subst hd'
        rw [if_pos hd] at hc
        subst hc
        subst hn
        dsimp only
      · rw [if_neg hd]
        refine ⟨_, rfl, (GuiObjectView.onRightMouseDragged_orbitZ_pos _ _ _).1,
          (GuiObjectView.onRightMouseDragged_orbitZ_pos _ _ _).2.1, ?_,
          fun h => h.elim (fun h => absurd h hb) (fun h => absurd h he)⟩
        intro _ _ d ceiling newZ hd' hc hn
        rw [(GuiObjectView.onRightMouseDragged_orbitZ_frame _ _ _).1] at hn ⊢
        rw [(GuiObjectView.onRightMouseDragged_orbitZ_pos _ _ _).2.2]
        subst hd'
        rw [if_neg hd] at hc
        subst hc
        subst hn
        dsimp only

/-- Instance of C22: the sample figure (base at height 0, eye at height 2, so the ceiling is
`3 / 2`) seen from distance 3 with the orbit centre at height `11 / 8`, dragged down by 2
pixels at camera speed `1 / 2`: the distance becomes 4 and the orbit centre's height
`11 / 8 - 1 / 4 = 9 / 8`. -/
theorem C22_orbit_height_between_floor_and_ceiling_witness :
    ∃ s1 : GuiObjectView,
      GuiObjectView.onRightMouseDragged sampleFigureView ⟨⟨0, 2⟩⟩ = some s1 ∧
      s1.mOrbitDist = 4 ∧ s1.mOrbitPos.x = 0 ∧ s1.mOrbitPos.z = 9 / 8 :=
  have h := C22_orbit_height_between_floor_and_ceiling sampleFigureView ⟨⟨0, 2⟩⟩
    (TSShapeInstance.new sampleFigure) rfl rfl
  have r1 : F32.round (1 : ℚ) = 1 := F32.round_one
  have r2 : F32.round (2 : ℚ) = 2 := by
    have := F32.round_natCast 2 (by norm_num)
    exact_mod_cast this
  have r4 : F32.round (4 : ℚ) = 4 := by
    have := F32.round_natCast 4 (by norm_num)
    exact_mod_cast this
  have r32 : F32.round (3 / 2 : ℚ) = 3 / 2 := by
    have := F32.round_of_rep 3 (-1) (by norm_num) (by norm_num)
    norm_num at this ⊢
    exact this
  have r14 : F32.round (1 / 4 : ℚ) = 1 / 4 := by
    have := F32.round_of_rep 1 (-2) (by norm_num) (by norm_num)
    norm_num at this ⊢
    exact this
  have r98 : F32.round (9 / 8 : ℚ) = 9 / 8 := by
    have := F32.round_of_rep 9 (-3) (by norm_num) (by norm_num)
    norm_num at this ⊢
    exact this
  have e5 : S32.wrap ((⟨⟨0, 2⟩⟩ : GuiEvent).mousePoint.y - sampleFigureView.mLastMousePoint.y)
      = 2 := by decide
  have e6 : F32.ofS32 2 = 2 := by
    unfold F32.ofS32
    exact_mod_cast r2
  have e7 : F32.mul 2 (1 / 2) = 1 := by
    unfold F32.mul
    norm_num
    exact r1
  have e8 : F32.add 3 1 = 4 := by
    unfold F32.add
    norm_num
    exact r4
  have e9 : F32.sub 2 0 = 2 := by
    unfold F32.sub
    norm_num
    exact r2
  have e10 : F32.mul 2 (3 / 4) = 3 / 2 := by
    unfold F32.mul
    norm_num
    exact r32
  have e11 : F32.div 1 4 = 1 / 4 := by
    unfold F32.div
    exact r14
  have e12 : F32.sub (11 / 8) (1 / 4) = 9 / 8 := by
    unfold F32.sub
    norm_num
    exact r98
  h.elim fun s1 hs => by
    obtain ⟨s2, h1, h2, -, -⟩ := GuiObjectView.onRightMouseDragged_of_zooming sampleFigureView
      ⟨⟨0, 2⟩⟩ (TSShapeInstance.new sampleFigure) rfl rfl
    have hs12 : s2 = s1 := Option.some.inj (h1.symm.trans hs.1)
    subst hs12
    have d1 : sampleFigureView.mOrbitDist = 3 := rfl
    have d2 : sampleFigureView.mCameraSpeed = 1 / 2 := rfl
    have d3 : sampleFigureView.mMinOrbitDist = 1 := rfl
    have d4 : sampleFigureView.mMaxOrbitDist = 5 := rfl
    rw [e5, e6, d1, d2, d3, d4, e7, e8] at h2
    have hdist : s2.mOrbitDist = 4 := by
      rw [h2]
      norm_num
    have hz := hs.2.2.2.1 (by decide) (by decide) _ _ _ rfl rfl rfl
    have d5 : sampleFigureView.mOrbitPos.z = 11 / 8 := rfl
    have d6 : ((TSShapeInstance.new sampleFigure).shape.getNodeWorldTransform
        ((TSShapeInstance.new sampleFigure).shape.findNode "eye")).getColumn3.z = 2 := by
      simp [TSShapeInstance.new, sampleFigure, MatrixF.getColumn3, MatrixF.setColumn3]
    have d7 : ((TSShapeInstance.new sampleFigure).shape.getNodeWorldTransform
        ((TSShapeInstance.new sampleFigure).shape.findNode "start01")).getColumn3.z = 0 := by
      simp [TSShapeInstance.new, sampleFigure, MatrixF.getColumn3, MatrixF.identity]
    rw [e5, e6, d2, d5, d6, d7, e7, e9, hdist, e11, e12, e10] at hz
    refine ⟨s2, hs.1, hdist, hs.2.1, ?_⟩
    rw [hz]
    norm_num

/-! ### The object view: camera query -/

theorem MatrixF.getColumn3_setColumn3 (m : MatrixF) (p : Point3F) :
    MatrixF.getColumn3 (MatrixF.setColumn3 m p) = p := by
  cases p
  simp [MatrixF.getColumn3, MatrixF.setColumn3]

/-- Relative error of one rounding, with the absolute term that covers gradual underflow. -/
theorem F32.abs_round_sub_le_rel (q : ℚ) :
    |F32.round q - q| ≤ (2 : ℚ) ^ (-24 : ℤ) * |q| + (2 : ℚ) ^ (-150 : ℤ) := by
  by_cases h0 : q = 0
  · subst h0
    rw [F32.round_zero, sub_zero, abs_zero, mul_zero, zero_add]
    exact (zpow_pos (by norm_num) _).le
  have h := F32.abs_round_sub_le q
  have hu : F32.ulp q / 2 = (2 : ℚ) ^ (F32.expo q - 24) := by
    unfold F32.ulp
    rw [show F32.expo q - 23 = (F32.expo q - 24) + 1 by ring,
      zpow_add₀ (by norm_num : (2 : ℚ) ≠ 0)]
    norm_num
  rw [hu] at h
  have hq : 0 ≤ (2 : ℚ) ^ (-24 : ℤ) * |q| := mul_nonneg (zpow_pos (by norm_num) _).le (abs_nonneg q)
  have hz : (0 : ℚ) ≤ (2 : ℚ) ^ (-150 : ℤ) := (zpow_pos (by norm_num) _).le
  by_cases hl : -126 ≤ Int.log 2 |q|
  · have he : F32.expo q = Int.log 2 |q| := by unfold F32.expo; omega
    have h1 : (2 : ℚ) ^ (F32.expo q - 24) = (2 : ℚ) ^ (-24 : ℤ) * (2 : ℚ) ^ Int.log 2 |q| := by
      rw [he, ← zpow_add₀ (by norm_num : (2 : ℚ) ≠ 0)]
      congr 1
      ring
    have h2 : (2 : ℚ) ^ (-24 : ℤ) * (2 : ℚ) ^ Int.log 2 |q| ≤ (2 : ℚ) ^ (-24 : ℤ) * |q| :=
      mul_le_mul_of_nonneg_left (F32.zpow_log_le h0) (zpow_pos (by norm_num) _).le
    linarith
  · have he : F32.expo q = -126 := by unfold F32.expo; omega
    rw [he] at h
    have h1 : ((-126 : ℤ) - 24) = -150 := by norm_num
    rw [h1] at h
    linarith

/-- Error of one coordinate of `orbitPos - vec * orbitDist` as the camera query computes it:
two roundings, each with relative error `2 ^ (-24)`. -/
theorem F32.abs_sub_mul_sub_le (o f d : ℚ) :
    |F32.sub o (F32.mul f d) - (o - d * f)|
      ≤ (2 : ℚ) ^ (-24 : ℤ) * (|d * f| + |o - F32.mul f d|) + (2 : ℚ) ^ (-149 : ℤ) := by
  have h1 := F32.abs_round_sub_le_rel (o - F32.mul f d)
  have h2 := F32.abs_round_sub_le_rel (f * d)
  have e : F32.sub o (F32.mul f d) - (o - d * f)
      = (F32.round (o - F32.mul f d) - (o - F32.mul f d)) - (F32.round (f * d) - f * d) := by
    unfold F32.sub F32.mul
    ring
  have h3 := abs_sub (F32.round (o - F32.mul f d) - (o - F32.mul f d))
    (F32.round (f * d) - f * d)
  have h4 : (2 : ℚ) ^ (-149 : ℤ) = (2 : ℚ) ^ (-150 : ℤ) + (2 : ℚ) ^ (-150 : ℤ) := by
    rw [show (-149 : ℤ) = -150 + 1 by norm_num, zpow_add₀ (by norm_num : (2 : ℚ) ≠ 0)]
    norm_num
  rw [e, h4, mul_comm d f]
  linarith

/-- The length of a vector of three coordinates moves by no more than the sum of the
moves of its coordinates. -/
theorem Real.abs_sqrt_sub_sqrt_le (a1 a2 a3 b1 b2 b3 : ℝ) :
    |Real.sqrt (a1 ^ 2 + a2 ^ 2 + a3 ^ 2) - Real.sqrt (b1 ^ 2 + b2 ^ 2 + b3 ^ 2)|
      ≤ |a1 - b1| + |a2 - b2| + |a3 - b3| := by
  have key : ∀ x y z : ℝ, Real.sqrt (x ^ 2 + y ^ 2 + z ^ 2)
      = ‖(WithLp.equiv 2 (Fin 3 → ℝ)).symm ![x, y, z]‖ := by
    intro x y z
    rw [EuclideanSpace.norm_eq]
    congr 1
    simp [Fin.sum_univ_three]
  have hsub : (WithLp.equiv 2 (Fin 3 → ℝ)).symm ![a1, a2, a3]
      - (WithLp.equiv 2 (Fin 3 → ℝ)).symm ![b1, b2, b3]
      = (WithLp.equiv 2 (Fin 3 → ℝ)).symm ![a1 - b1, a2 - b2, a3 - b3] := by
    ext i
    fin_cases i <;> simp
  have h := abs_norm_sub_norm_le ((WithLp.equiv 2 (Fin 3 → ℝ)).symm ![a1, a2, a3])
    ((WithLp.equiv 2 (Fin 3 → ℝ)).symm ![b1, b2, b3])
  rw [hsub, ← key, ← key, ← key] at h
  refine le_trans h ?_
  rw [Real.sqrt_le_left (by positivity)]
  have h1 := abs_nonneg (a1 - b1)
  have h2 := abs_nonneg (a2 - b2)
  have h3 := abs_nonneg (a3 - b3)
  have e1 := sq_abs (a1 - b1)
  have e2 := sq_abs (a2 - b2)
  have e3 := sq_abs (a3 - b3)
  nlinarith [mul_nonneg h1 h2, mul_nonneg h1 h3, mul_nonneg h2 h3]

/-- C23 (amended): after `processCameraQuery` the camera position is
`orbitPos - orbitDist * f` computed component by component in single precision, where `f`
is the second column of the product of the z-rotation matrix (yaw) and the x-rotation
matrix (pitch); the translation column of the returned camera matrix, which is also the
stored camera matrix, is that position; the orbit centre and distance are unchanged. Each
coordinate of the position is within
`2 ^ (-24) * (|orbitDist * f_i| + |orbitPos_i - fl(f_i * orbitDist)|) + 2 ^ (-149)` of the
exact `orbitPos_i - orbitDist * f_i`. The distance of the camera from the orbit centre
differs from `|orbitDist| * |f|` by at most the sum of the three coordinate errors, and
from `|orbitDist|` by at most that sum plus `|orbitDist| * | |f| - 1 |`, where `|f|` is the
length of `f`. -/
theorem C23_camera_position_on_orbit (M : EngineMath) (s : GuiObjectView)
    (query : CameraQuery) :
    let f := (M.mul (M.setEuler ⟨0, 0, s.mCameraRot.z⟩)
      (M.setEuler ⟨s.mCameraRot.x, 0, 0⟩)).getColumn1
    let d := s.mOrbitDist
    let o := s.mOrbitPos
    let pos := (GuiObjectView.processCameraQuery M s query).2.1.mCameraPos
    let ex := |pos.x - (o.x - d * f.x)|
    let ey := |pos.y - (o.y - d * f.y)|
    let ez := |pos.z - (o.z - d * f.z)|
    let dist := Real.sqrt (((pos.x : ℝ) - o.x) ^ 2 + ((pos.y : ℝ) - o.y) ^ 2
      + ((pos.z : ℝ) - o.z) ^ 2)
    let len := Real.sqrt ((f.x : ℝ) ^ 2 + (f.y : ℝ) ^ 2 + (f.z : ℝ) ^ 2)
    pos = Point3F.sub o (Point3F.mulF f d) ∧
    (GuiObjectView.processCameraQuery M s query).2.2.cameraMatrix.getColumn3 = pos ∧
    (GuiObjectView.processCameraQuery M s query).2.1.mCameraMatrix
      = (GuiObjectView.processCameraQuery M s query).2.2.cameraMatrix ∧
    (GuiObjectView.processCameraQuery M s query).1 = true ∧
    (GuiObjectView.processCameraQuery M s query).2.1.mOrbitPos = o ∧
    (GuiObjectView.processCameraQuery M s query).2.1.mOrbitDist = d ∧
    ex ≤ (2 : ℚ) ^ (-24 : ℤ) * (|d * f.x| + |o.x - F32.mul f.x d|) + (2 : ℚ) ^ (-149 : ℤ) ∧
    ey ≤ (2 : ℚ) ^ (-24 : ℤ) * (|d * f.y| + |o.y - F32.mul f.y d|) + (2 : ℚ) ^ (-149 : ℤ) ∧
    ez ≤ (2 : ℚ) ^ (-24 : ℤ) * (|d * f.z| + |o.z - F32.mul f.z d|) + (2 : ℚ) ^ (-149 : ℤ) ∧
    |dist - abs (d : ℝ) * len| ≤ ((ex + ey + ez : ℚ) : ℝ) ∧
    |dist - abs (d : ℝ)| ≤ ((ex + ey + ez : ℚ) : ℝ) + abs (d : ℝ) * |len - 1| := by
  intro f d o pos ex ey ez dist len
  have hA : |dist - abs (d : ℝ) * len| ≤ ((ex + ey + ez : ℚ) : ℝ) := by
    have hlen : abs (d : ℝ) * len
        = Real.sqrt ((-((d : ℝ) * f.x)) ^ 2 + (-((d : ℝ) * f.y)) ^ 2
          + (-((d : ℝ) * f.z)) ^ 2) := by
      have e : (-((d : ℝ) * f.x)) ^ 2 + (-((d : ℝ) * f.y)) ^ 2 + (-((d : ℝ) * f.z)) ^ 2
          = (d : ℝ) ^ 2 * ((f.x : ℝ) ^ 2 + (f.y : ℝ) ^ 2 + (f.z : ℝ) ^ 2) := by ring
      rw [e, Real.sqrt_mul (sq_nonneg _), Real.sqrt_sq_eq_abs]
    rw [hlen]
    have h := Real.abs_sqrt_sub_sqrt_le ((pos.x : ℝ) - o.x) ((pos.y : ℝ) - o.y)
      ((pos.z : ℝ) - o.z) (-((d : ℝ) * f.x)) (-((d : ℝ) * f.y)) (-((d : ℝ) * f.z))
    refine le_trans h (le_of_eq ?_)
    have c : ∀ p q r t : ℚ, |((p : ℝ) - q) - -((r : ℝ) * t)| = ((|p - (q - r * t)| : ℚ) : ℝ) := by
      intro p q r t
      push_cast
      congr 1
      ring
    rw [c, c, c, ← Rat.cast_add, ← Rat.cast_add]
  refine ⟨rfl, MatrixF.getColumn3_setColumn3 _ _, rfl, rfl, rfl, rfl,
    F32.abs_sub_mul_sub_le o.x f.x d, F32.abs_sub_mul_sub_le o.y f.y d,
    F32.abs_sub_mul_sub_le o.z f.z d, hA, ?_⟩
  have h1 : dist - abs (d : ℝ) = (dist - abs (d : ℝ) * len) + abs (d : ℝ) * (len - 1) := by ring
  rw [h1]
  refine le_trans (abs_add _ _) ?_
  rw [abs_mul, abs_abs]
  linarith

/-- C23 as stated fails in single precision: with no rotation (forward axis `(0, 1, 0)`),
orbit distance 5 and the orbit centre at `(0, 2 ^ 26, 0)`, the difference `2 ^ 26 - 5` is
rounded to `2 ^ 26 - 4`, so the camera is placed at distance 4 from the orbit centre. -/
theorem C23_rounded_distance_counterexample :
    (GuiObjectView.processCameraQuery sampleMath
        (GuiObjectView.setOrbitPos sampleView ⟨0, 67108864, 0⟩)
        ⟨0, 0, 0, MatrixF.identity⟩).2.1.mCameraPos = ⟨0, 67108860, 0⟩ ∧
      (GuiObjectView.setOrbitPos sampleView ⟨0, 67108864, 0⟩).mOrbitDist = 5 ∧
      ((0 : ℚ) - 0) ^ 2 + ((67108860 : ℚ) - 67108864) ^ 2 + ((0 : ℚ) - 0) ^ 2 ≠ 5 ^ 2 := by
  refine ⟨?_, rfl, by norm_num⟩
  have hcol : (sampleMath.mul (sampleMath.setEuler ⟨0, 0,
      (GuiObjectView.setOrbitPos sampleView ⟨0, 67108864, 0⟩).mCameraRot.z⟩)
      (sampleMath.setEuler ⟨(GuiObjectView.setOrbitPos sampleView
        ⟨0, 67108864, 0⟩).mCameraRot.x, 0, 0⟩)).getColumn1 = ⟨0, 1, 0⟩ := by
    simp [sampleMath, MatrixF.identity, MatrixF.getColumn1]
  have r0 : F32.round (0 : ℚ) = 0 := F32.round_zero
  have r5 : F32.round (5 : ℚ) = 5 := by
    have := F32.round_natCast 5 (by norm_num)
    exact_mod_cast this
  have rbig : F32.round (67108859 : ℚ) = 67108860 := by
    have := F32.round_eq_of (q := 67108859) 25 16777215 (by norm_num)
      (by rw [abs_of_nonneg (by norm_num)]; norm_num)
      (by rw [abs_of_nonneg (by norm_num)]; norm_num)
      (by rw [abs_lt]; constructor <;> norm_num)
    norm_num at this ⊢
    exact this
  have hd : (GuiObjectView.setOrbitPos sampleView ⟨0, 67108864, 0⟩).mOrbitDist = 5 := rfl
  have ho : (GuiObjectView.setOrbitPos sampleView ⟨0, 67108864, 0⟩).mOrbitPos
      = ⟨0, 67108864, 0⟩ := rfl
  show Point3F.sub (GuiObjectView.setOrbitPos sampleView ⟨0, 67108864, 0⟩).mOrbitPos
    (Point3F.mulF (sampleMath.mul (sampleMath.setEuler ⟨0, 0,
      (GuiObjectView.setOrbitPos sampleView ⟨0, 67108864, 0⟩).mCameraRot.z⟩)
      (sampleMath.setEuler ⟨(GuiObjectView.setOrbitPos sampleView
        ⟨0, 67108864, 0⟩).mCameraRot.x, 0, 0⟩)).getColumn1
      (GuiObjectView.setOrbitPos sampleView ⟨0, 67108864, 0⟩).mOrbitDist) = _
  rw [hcol, hd, ho]
  unfold Point3F.sub Point3F.mulF F32.sub F32.mul
  simp only [zero_mul, one_mul, r0, r5, sub_zero]
  norm_num
  exact rbig

/-- Instance of C23: a fresh view with orbit distance 3 and orbit centre `(1, 2, 0)`, its
camera turned about z by the yaw `1944679 / 2 ^ 21`, so that the forward axis is
`(13421773 / 2 ^ 24, 5033165 / 2 ^ 23, 0)`, which is not of unit length. The product `3 * 13421773 / 2 ^ 24` is rounded up by
`2 ^ (-24)`, the camera is placed at `(-2936013 / 2 ^ 21, 1677721 / 2 ^ 23, 0)`, and its
distance from the orbit centre is within `2 ^ (-24) + 3 * | |f| - 1 |` of 3. -/
theorem C23_camera_position_on_orbit_witness :
    (GuiObjectView.processCameraQuery sampleTurnedMath sampleTurnedView
        ⟨0, 0, 0, MatrixF.identity⟩).2.1.mCameraPos
      = ⟨-2936013 / 2097152, 1677721 / 8388608, 0⟩ ∧
    (13421773 / 16777216 : ℚ) ^ 2 + (5033165 / 8388608 : ℚ) ^ 2 + (0 : ℚ) ^ 2 ≠ 1 ∧
    |Real.sqrt (((-2936013 / 2097152 : ℝ) - 1) ^ 2 + ((1677721 / 8388608 : ℝ) - 2) ^ 2
          + ((0 : ℝ) - 0) ^ 2) - 3|
      ≤ 1 / 16777216 + 3 * |Real.sqrt ((13421773 / 16777216 : ℝ) ^ 2
          + (5033165 / 8388608 : ℝ) ^ 2 + (0 : ℝ) ^ 2) - 1| := by
  have h := C23_camera_position_on_orbit sampleTurnedMath sampleTurnedView
    ⟨0, 0, 0, MatrixF.identity⟩
  dsimp only at h
  obtain ⟨h1, -, -, -, -, -, -, -, -, -, h11⟩ := h
  have hcol : (sampleTurnedMath.mul (sampleTurnedMath.setEuler ⟨0, 0,
      sampleTurnedView.mCameraRot.z⟩)
      (sampleTurnedMath.setEuler ⟨sampleTurnedView.mCameraRot.x, 0, 0⟩)).getColumn1
      = ⟨13421773 / 16777216, 5033165 / 8388608, 0⟩ := by
    have hz : sampleTurnedView.mCameraRot.z = 1944679 / 2097152 := rfl
    have hx : sampleTurnedView.mCameraRot.x = 0 := rfl
    rw [hz, hx]
    simp [sampleTurnedMath, MatrixF.identity, MatrixF.getColumn1]
  have hd : sampleTurnedView.mOrbitDist = 3 := by
    show mClampF 3 1 5 = 3
    unfold mClampF
    norm_num
  have ho : sampleTurnedView.mOrbitPos = ⟨1, 2, 0⟩ := rfl
  have r0 : F32.round (0 : ℚ) = 0 := F32.round_zero
  have r1 : F32.round (40265319 / 16777216 : ℚ) = 5033165 / 2097152 := by
    have := F32.round_eq_of (q := 40265319 / 16777216) 1 10066330 (by norm_num)
      (by rw [abs_of_nonneg (by norm_num)]; norm_num)
      (by rw [abs_of_nonneg (by norm_num)]; norm_num)
      (by rw [abs_lt]; constructor <;> norm_num)
    norm_num at this ⊢
    exact this
  have r2 : F32.round (15099495 / 8388608 : ℚ) = 15099495 / 8388608 := by
    have := F32.round_of_rep 15099495 (-23) (by norm_num) (by norm_num)
    norm_num at this ⊢
    exact this
  have s1 : F32.round (-2936013 / 2097152 : ℚ) = -2936013 / 2097152 := by
    have := F32.round_of_rep (-2936013) (-21) (by norm_num) (by norm_num)
    norm_num at this ⊢
    exact this
  have s2 : F32.round (1677721 / 8388608 : ℚ) = 1677721 / 8388608 := by
    have := F32.round_of_rep 1677721 (-23) (by norm_num) (by norm_num)
    norm_num at this ⊢
    exact this
  have hpos : (GuiObjectView.processCameraQuery sampleTurnedMath sampleTurnedView
      ⟨0, 0, 0, MatrixF.identity⟩).2.1.mCameraPos
      = ⟨-2936013 / 2097152, 1677721 / 8388608, 0⟩ := by
    rw [h1, hcol, hd, ho]
    unfold Point3F.sub Point3F.mulF F32.sub F32.mul
    dsimp only
    rw [show (13421773 / 16777216 : ℚ) * 3 = 40265319 / 16777216 by norm_num, r1,
      show (1 : ℚ) - 5033165 / 2097152 = -2936013 / 2097152 by norm_num, s1,
      show (5033165 / 8388608 : ℚ) * 3 = 15099495 / 8388608 by norm_num, r2,
      show (2 : ℚ) - 15099495 / 8388608 = 1677721 / 8388608 by norm_num, s2,
      zero_mul, r0, sub_zero, r0]
  refine ⟨hpos, by norm_num, ?_⟩
  rw [hpos, hcol, hd, ho] at h11
  dsimp only at h11
  have e : (|(-2936013 / 2097152 : ℚ) - (1 - 3 * (13421773 / 16777216))|
      + |(1677721 / 8388608 : ℚ) - (2 - 3 * (5033165 / 8388608))| + |(0 : ℚ) - (0 - 3 * 0)|)
      = 1 / 16777216 := by
    norm_num [abs_of_neg]
  rw [e] at h11
  push_cast at h11
  have e3 : |(3 : ℝ)| = 3 := abs_of_pos (by norm_num)
  rw [e3] at h11
  exact h11

/-! ### The object view: skins -/

theorem List.getLast?_getD_of_ne_nil {α : Type} {l : List α} (h : l ≠ []) (d d' : α) :
    l.getLast?.getD d = l.getLast?.getD d' := by
  rw [List.getLast?_eq_getLast l h]
  rfl

theorem splitOldNew_of_not_mem (skin : String) (h : '=' ∉ skin.toList) :
    GuiObjectView.splitOldNew skin = none := by
  unfold GuiObjectView.splitOldNew
  rw [if_neg h]

theorem splitOldNew_append (a b : String) (h : '=' ∉ a.toList) :
    GuiObjectView.splitOldNew (a ++ "=" ++ b) = some (a, b) := by
  have hl : (a ++ "=" ++ b).toList = a.toList ++ '=' :: b.toList := by
    show (a ++ "=" ++ b).data = a.data ++ '=' :: b.data
    simp
  have hne : ∀ c ∈ a.toList, (c != '=') = true := by
    intro c hc
    simp only [bne_iff_ne, ne_eq]
    intro e
    exact h (e ▸ hc)
  unfold GuiObjectView.splitOldNew
  rw [hl, if_pos (by simp)]
  have h1 : List.takeWhile (fun c => c != '=') (a.toList ++ '=' :: b.toList) = a.toList := by
    rw [List.takeWhile_append_of_pos hne]
    simp
  have h2 : List.dropWhile (fun c => c != '=') (a.toList ++ '=' :: b.toList)
      = '=' :: b.toList := by
    rw [List.dropWhile_append_of_pos hne]
    simp
  rw [h1, h2]
  rfl

namespace GuiObjectView

/-- The skin requests the loop of `reSkin` adds, and the applied skin name it leaves: each
entry asks for its new part, replacing its old part or, without `=`, the name applied just
before it. -/
theorem reSkinLoop_reskins (entries : List String) :
    ∀ (m : TSShapeInstance) (applied : String),
      (reSkinLoop m applied entries).1.reskins
        = m.reskins ++ List.zipWith
            (fun e prev => (((splitOldNew e).map Prod.snd).getD e,
              ((splitOldNew e).map Prod.fst).getD prev))
            entries
            (applied :: entries.map (fun e => ((splitOldNew e).map Prod.snd).getD e)) ∧
      (reSkinLoop m applied entries).2
        = ((entries.map (fun e => ((splitOldNew e).map Prod.snd).getD e)).getLast?).getD
            applied := by
  induction entries with
  | nil => intro m applied; simp [reSkinLoop]
  | cons e rest ih =>
    intro m applied
    unfold reSkinLoop
    cases hsp : splitOldNew e with
    | none =>
      obtain ⟨i1, i2⟩ := ih (m.reSkin e applied) e
      refine ⟨?_, ?_⟩
      · rw [i1]
        simp [TSShapeInstance.reSkin, hsp]
      · rw [i2]
        cases rest with
        | nil => simp [hsp]
        | cons r rs =>
          simp only [List.map_cons, List.getLast?_cons_cons]
          exact List.getLast?_getD_of_ne_nil (by simp) _ _
    | some p =>
      obtain ⟨o, n⟩ := p
      obtain ⟨i1, i2⟩ := ih (m.reSkin n o) n
      refine ⟨?_, ?_⟩
      · rw [i1]
        simp [TSShapeInstance.reSkin, hsp]
      · rw [i2]
        cases rest with
        | nil => simp [hsp]
        | cons r rs =>
          simp only [List.map_cons, List.getLast?_cons_cons]
          exact List.getLast?_getD_of_ne_nil (by simp) _ _

end GuiObjectView

namespace GuiObjectView

/-- With a model present and a valid skin handle, `reSkin` returns a state whose model
received one skin request per entry of the split skin string. -/
theorem reSkin_reskins (E : Engine) (s : GuiObjectView) (m : TSShapeInstance)
    (hm : s.mModel = some m) (hv : s.mSkinNameHandle.isValidString = true) :
    ∃ (s1 : GuiObjectView) (m1 : TSShapeInstance),
      reSkin E s = some s1 ∧ s1.mModel = some m1 ∧
      m1.reskins = m.reskins ++ List.zipWith
        (fun e prev => (((splitOldNew e).map Prod.snd).getD e,
          ((splitOldNew e).map Prod.fst).getD prev))
        (E.split (s.mSkinNameHandle.getString E))
        (s.mAppliedSkinName :: (E.split (s.mSkinNameHandle.getString E)).map
          (fun e => ((splitOldNew e).map Prod.snd).getD e)) ∧
      s1.mAppliedSkinName
        = (((E.split (s.mSkinNameHandle.getString E)).map
            (fun e => ((splitOldNew e).map Prod.snd).getD e)).getLast?).getD
            s.mAppliedSkinName ∧
      s1.mSkinNameHandle = s.mSkinNameHandle := by
  unfold reSkin
  rw [if_pos hv]
  cases hsp : E.split (s.mSkinNameHandle.getString E) with
  | nil => exact ⟨s, m, rfl, hm, by simp, by simp, rfl⟩
  | cons skin rest =>
    obtain ⟨i1, i2⟩ := reSkinLoop_reskins (skin :: rest) m s.mAppliedSkinName
    simp only [hm]
    exact ⟨_, _, rfl, rfl, i1, i2, rfl⟩

end GuiObjectView

/-- C24: with a model loaded, `reSkin` on a valid skin handle splits the skin string on `;`
and, entry by entry in order, asks the model to replace `old` by `new`, where an entry with
`=` gives `old` the text before its first `=` and `new` the text after it, and an entry
without `=` gives `old` the skin name applied just before and `new` the entry; afterwards
the applied skin name is the `new` of the last entry. `setSkinName` with a non-empty name
(not starting with the tag prefix byte) stores the name as handle and does this with the
name as skin string; with an empty name it clears the handle and reskins nothing. -/
theorem C24_skins_applied_entry_by_entry (E : Engine) (s : GuiObjectView)
    (m : TSShapeInstance) (hm : s.mModel = some m) :
    (s.mSkinNameHandle.isValidString = true →
      ∃ (s1 : GuiObjectView) (m1 : TSShapeInstance),
        GuiObjectView.reSkin E s = some s1 ∧ s1.mModel = some m1 ∧
        m1.reskins = m.reskins ++ List.zipWith
          (fun e prev => (((GuiObjectView.splitOldNew e).map Prod.snd).getD e,
            ((GuiObjectView.splitOldNew e).map Prod.fst).getD prev))
          (E.split (s.mSkinNameHandle.getString E))
          (s.mAppliedSkinName :: (E.split (s.mSkinNameHandle.getString E)).map
            (fun e => ((GuiObjectView.splitOldNew e).map Prod.snd).getD e)) ∧
        s1.mAppliedSkinName
          = (((E.split (s.mSkinNameHandle.getString E)).map
              (fun e => ((GuiObjectView.splitOldNew e).map Prod.snd).getD e)).getLast?).getD
              s.mAppliedSkinName) ∧
    (∀ (name : String) (c : Char) (rest : List Char), name.toList = c :: rest →
      c ≠ StringTagPrefixByte →
      ∃ (s1 : GuiObjectView) (m1 : TSShapeInstance),
        GuiObjectView.setSkinName E s name = some s1 ∧
        s1.mSkinNameHandle = NetStringHandle.ofString name ∧ s1.mModel = some m1 ∧
        m1.reskins = m.reskins ++ List.zipWith
          (fun e prev => (((GuiObjectView.splitOldNew e).map Prod.snd).getD e,
            ((GuiObjectView.splitOldNew e).map Prod.fst).getD prev))
          (E.split name)
          (s.mAppliedSkinName :: (E.split name).map
            (fun e => ((GuiObjectView.splitOldNew e).map Prod.snd).getD e)) ∧
        s1.mAppliedSkinName
          = (((E.split name).map
              (fun e => ((GuiObjectView.splitOldNew e).map Prod.snd).getD e)).getLast?).getD
              s.mAppliedSkinName) ∧
    GuiObjectView.setSkinName E s "" = some { s with mSkinNameHandle := NetStringHandle.null } ∧
    (∀ a b : String, '=' ∉ a.toList →
      GuiObjectView.splitOldNew (a ++ "=" ++ b) = some (a, b)) ∧
    (∀ e : String, '=' ∉ e.toList → GuiObjectView.splitOldNew e = none) := by
  refine ⟨?_, ?_, ?_, splitOldNew_append, splitOldNew_of_not_mem⟩
  · intro hv
    obtain ⟨s1, m1, h1, h2, h3, h4, -⟩ := GuiObjectView.reSkin_reskins E s m hm hv
    exact ⟨s1, m1, h1, h2, h3, h4⟩
  · intro name c rest hname hc
    obtain ⟨s1, m1, h1, h2, h3, h4, h5⟩ := GuiObjectView.reSkin_reskins E
      { s with mSkinNameHandle := NetStringHandle.ofString name } m hm rfl
    refine ⟨s1, m1, ?_, h5, h2, h3, h4⟩
    unfold GuiObjectView.setSkinName
    rw [hname]
    dsimp only
    rw [if_neg hc]
    exact h1
  · unfold GuiObjectView.setSkinName GuiObjectView.reSkin
    rfl

/-- Instance of C24: the skin string `"base=red;blue"` set on the sample view showing
`"player.dts"`: the model is asked to replace `base` by `red` and then `red` by `blue`, and
the applied skin name is `blue`. -/
theorem C24_skins_applied_entry_by_entry_witness :
    ∃ (s1 : GuiObjectView) (m1 : TSShapeInstance),
      GuiObjectView.setSkinName sampleSkinEngine
        ((GuiObjectView.setObjectModel sampleSkinEngine sampleView "player.dts" 0).getD
          sampleView) "base=red;blue" = some s1 ∧
      s1.mModel = some m1 ∧ m1.reskins = [("red", "base"), ("blue", "red")] ∧
      s1.mAppliedSkinName = "blue" :=
  have h := (C24_skins_applied_entry_by_entry sampleSkinEngine
    ((GuiObjectView.setObjectModel sampleSkinEngine sampleView "player.dts" 0).getD sampleView)
    (TSShapeInstance.new (sampleShape 3 10)) rfl).2.1 "base=red;blue" 'b'
    "ase=red;blue".toList rfl (by decide)
  h.elim fun s1 h1 => h1.elim fun m1 hs =>
    ⟨s1, m1, hs.1, hs.2.2.1, hs.2.2.2.1.trans (by rfl), hs.2.2.2.2.trans (by rfl)⟩

/-! ### The object view: camera values and model name after a load -/

namespace GuiObjectView

theorem setObjectModel_camera_orbit (s : GuiObjectView) (shape : TSShape) :
    (setObjectModel_camera s shape).mOrbitPos = shape.center ∧
    (setObjectModel_camera s shape).mMinOrbitDist = shape.radius ∧
    (setObjectModel_camera s shape).mOrbitDist = s.mOrbitDist ∧
    (setObjectModel_camera s shape).mMaxOrbitDist = s.mMaxOrbitDist ∧
    (setObjectModel_camera s shape).mModelName = s.mModelName := by
  unfold setObjectModel_camera
  dsimp only
  split_ifs <;> exact ⟨rfl, rfl, rfl, rfl, rfl⟩

theorem _initAnimation_orbit_frame (s : GuiObjectView) (model : TSShapeInstance) (vnow : ℤ) :
    (_initAnimation s model vnow).mOrbitPos = s.mOrbitPos ∧
    (_initAnimation s model vnow).mMinOrbitDist = s.mMinOrbitDist ∧
    (_initAnimation s model vnow).mOrbitDist = s.mOrbitDist ∧
    (_initAnimation s model vnow).mMaxOrbitDist = s.mMaxOrbitDist ∧
    (_initAnimation s model vnow).mModelName = s.mModelName := by
  unfold _initAnimation
  dsimp only
  split_ifs
  all_goals first
    | exact ⟨rfl, rfl, rfl, rfl, rfl⟩
    | (split <;> exact ⟨rfl, rfl, rfl, rfl, rfl⟩)

theorem _initMount_orbit_frame (E : Engine) (s : GuiObjectView) (model : TSShapeInstance) :
    (_initMount E s model).mOrbitPos = s.mOrbitPos ∧
    (_initMount E s model).mMinOrbitDist = s.mMinOrbitDist ∧
    (_initMount E s model).mOrbitDist = s.mOrbitDist ∧
    (_initMount E s model).mMaxOrbitDist = s.mMaxOrbitDist := by
  unfold _initMount
  split
  · exact ⟨rfl, rfl, rfl, rfl⟩
  · dsimp only
    split_ifs <;> exact ⟨rfl, rfl, rfl, rfl⟩

/-- Camera values, model and model name after a successful `setObjectModel`. -/
theorem setObjectModel_of_load_orbit (E : Engine) (s : GuiObjectView) (modelName : String)
    (vnow : ℤ) (shape : TSShape) (hload : E.load modelName = some shape) :
    ∃ (a : GuiObjectView) (model : TSShapeInstance),
      setObjectModel E s modelName vnow = some a ∧
      a.mModel = some model ∧ model.shape = shape ∧ a.mModelName = modelName ∧
      a.mOrbitPos = shape.center ∧ a.mMinOrbitDist = shape.radius ∧
      a.mOrbitDist = s.mOrbitDist ∧ a.mMaxOrbitDist = s.mMaxOrbitDist := by
  obtain ⟨i1, -⟩ := setObjectModel_instantiate_frame
    { s with mModel := none, mRunThread := none, mModelName := "" } shape modelName
  have iname : (setObjectModel_instantiate
      { s with mModel := none, mRunThread := none, mModelName := "" } shape
      modelName).mModelName = modelName := by
    unfold setObjectModel_instantiate
    dsimp only
    split_ifs <;> rfl
  have idist : (setObjectModel_instantiate
      { s with mModel := none, mRunThread := none, mModelName := "" } shape
      modelName).mOrbitDist = s.mOrbitDist ∧ (setObjectModel_instantiate
      { s with mModel := none, mRunThread := none, mModelName := "" } shape
      modelName).mMaxOrbitDist = s.mMaxOrbitDist := by
    unfold setObjectModel_instantiate
    dsimp only
    split_ifs <;> exact ⟨rfl, rfl⟩
  obtain ⟨m4, applied, hre, hs4, -, -⟩ := reSkin_of_model E _ _ i1
  obtain ⟨c1, -⟩ := setObjectModel_camera_frame
    { setObjectModel_instantiate { s with mModel := none, mRunThread := none, mModelName := "" } shape modelName with mModel := some m4, mAppliedSkinName := applied } shape
  obtain ⟨o1, o2, o3, o4, o5⟩ := setObjectModel_camera_orbit
    { setObjectModel_instantiate { s with mModel := none, mRunThread := none, mModelName := "" } shape modelName with mModel := some m4, mAppliedSkinName := applied } shape
  obtain ⟨m6, hm6, hs6, -⟩ := _initAnimation_model _ m4 vnow c1
  obtain ⟨a1, a2, a3, a4, a5⟩ := _initAnimation_orbit_frame
    (setObjectModel_camera { setObjectModel_instantiate { s with mModel := none, mRunThread := none, mModelName := "" } shape modelName with mModel := some m4, mAppliedSkinName := applied } shape) m4 vnow
  obtain ⟨b1, b2, b3, b4⟩ := _initMount_orbit_frame E
    (_initAnimation (setObjectModel_camera { setObjectModel_instantiate { s with mModel := none, mRunThread := none, mModelName := "" } shape modelName with mModel := some m4, mAppliedSkinName := applied } shape) m4 vnow) m6
  obtain ⟨-, f2, -, -⟩ := _initMount_frame E
    (_initAnimation (setObjectModel_camera { setObjectModel_instantiate { s with mModel := none, mRunThread := none, mModelName := "" } shape modelName with mModel := some m4, mAppliedSkinName := applied } shape) m4 vnow) m6
  obtain ⟨-, -, -, g4, -⟩ := _initMount_config_frame E
    (_initAnimation (setObjectModel_camera { setObjectModel_instantiate { s with mModel := none, mRunThread := none, mModelName := "" } shape modelName with mModel := some m4, mAppliedSkinName := applied } shape) m4 vnow) m6
  refine ⟨_, m6, ?_, f2.trans hm6, hs6.trans hs4, ?_, ?_, ?_, ?_, ?_⟩
  · unfold setObjectModel
    simp only [hload, hre, c1, hm6]
  · rw [g4, a5, o5]; exact iname
  · rw [b1, a1, o1]
  · rw [b2, a2, o2]
  · rw [b3, a3, o3]; exact idist.1
  · rw [b4, a4, o4]; exact idist.2

end GuiObjectView

/-- C25: after every successful `setObjectModel` the orbit centre is the shape's centre
and the minimum orbit distance the shape's radius, whatever `useNodes` is and whether or
not the shape has a `"start01"` node; the orbit distance and the maximum orbit distance are
those from before the call (so the distance may lie below the new minimum). -/
theorem C25_load_sets_orbit_centre_and_minimum (E : Engine) (s : GuiObjectView)
    (modelName : String) (vnow : ℤ) (shape : TSShape) (hload : E.load modelName = some shape) :
    ∃ a : GuiObjectView, GuiObjectView.setObjectModel E s modelName vnow = some a ∧
      a.mOrbitPos = shape.center ∧ a.mMinOrbitDist = shape.radius ∧
      a.mOrbitDist = s.mOrbitDist ∧ a.mMaxOrbitDist = s.mMaxOrbitDist := by
  obtain ⟨a, model, h1, -, -, -, h5, h6, h7, h8⟩ :=
    GuiObjectView.setObjectModel_of_load_orbit E s modelName vnow shape hload
  exact ⟨a, h1, h5, h6, h7, h8⟩

/-- Instance of C25: `"player.dts"` (radius 10, centred at the origin) loaded into a fresh
view: the minimum orbit distance becomes 10 while the orbit distance stays 5. -/
theorem C25_load_sets_orbit_centre_and_minimum_witness :
    ∃ a : GuiObjectView,
      GuiObjectView.setObjectModel sampleEngine sampleView "player.dts" 0 = some a ∧
      a.mOrbitPos = ⟨0, 0, 0⟩ ∧ a.mMinOrbitDist = 10 ∧ a.mOrbitDist = 5 ∧
      a.mMaxOrbitDist = 5 :=
  C25_load_sets_orbit_centre_and_minimum sampleEngine sampleView "player.dts" 0
    (sampleShape 3 10) rfl

namespace GuiObjectView

/-- Every `setObjectModel` returns, and in the state it returns a non-empty model name comes
with a model. -/
theorem setObjectModel_name_model (E : Engine) (s : GuiObjectView) (modelName : String)
    (vnow : ℤ) :
    ∃ a : GuiObjectView, setObjectModel E s modelName vnow = some a ∧
      (a.mModelName ≠ "" → ∃ m : TSShapeInstance, a.mModel = some m) := by
  cases hload : E.load modelName with
  | none =>
    refine ⟨{ s with mModel := none, mRunThread := none, mModelName := "" }, ?_, ?_⟩
    · unfold setObjectModel
      simp only [hload]
    · intro h
      exact absurd rfl h
  | some shape =>
    obtain ⟨a, model, h1, h2, -⟩ := setObjectModel_of_load_orbit E s modelName vnow shape hload
    exact ⟨a, h1, fun _ => ⟨model, h2⟩⟩

theorem setObjectModels_name_model (E : Engine) (calls : List (String × ℤ)) :
    ∀ s : GuiObjectView, (s.mModelName ≠ "" → ∃ m : TSShapeInstance, s.mModel = some m) →
      ∃ a : GuiObjectView, setObjectModels E s calls = some a ∧
        (a.mModelName ≠ "" → ∃ m : TSShapeInstance, a.mModel = some m) := by
  induction calls with
  | nil => intro s hs; exact ⟨s, rfl, hs⟩
  | cons c cs ih =>
    intro s _
    obtain ⟨a, h1, h2⟩ := setObjectModel_name_model E s c.1 c.2
    obtain ⟨b, h3, h4⟩ := ih a h2
    refine ⟨b, ?_, h4⟩
    unfold setObjectModels
    rw [h1]
    exact h3

/-- When a non-empty model name comes with a model, `onWake` dereferences no null model. -/
theorem onWake_of_name_model (s : GuiObjectView) (parentAwake : Bool)
    (h : s.mModelName ≠ "" → ∃ m : TSShapeInstance, s.mModel = some m) :
    ∃ r : Bool × GuiObjectView, onWake s parentAwake = some r := by
  unfold onWake
  cases parentAwake with
  | false => exact ⟨_, rfl⟩
  | true =>
    simp only [Bool.not_true, Bool.false_eq_true, if_false]
    by_cases he : s.mModelName.isEmpty
    · cases hl : s.mLight with
      | none =>
        simp only [he, not_true_eq_false, if_false]
        exact ⟨_, rfl⟩
      | some l =>
        simp only [he, not_true_eq_false, if_false]
        exact ⟨_, rfl⟩
    · obtain ⟨m, hm⟩ := h (fun e => he (by rw [String.isEmpty_iff]; exact e))
      cases hl : s.mLight with
      | none =>
        simp only [he, hm]
        exact ⟨_, rfl⟩
      | some l =>
        simp only [he, hm]
        exact ⟨_, rfl⟩

end GuiObjectView

/-- C26: every sequence of `setObjectModel` calls on a freshly constructed view returns a
state in which a non-empty stored model name comes with a loaded model instance, so that
`onWake`, which dereferences the model when the model name is non-empty, meets no missing
model. -/
theorem C26_model_name_implies_model (E : Engine) (mMountTransform : MatrixF)
    (mHomePos : Point3F) (mHomeZ : ℚ) (calls : List (String × ℤ)) :
    ∃ a : GuiObjectView,
      GuiObjectView.setObjectModels E (GuiObjectView.new mMountTransform mHomePos mHomeZ) calls
        = some a ∧
      (a.mModelName ≠ "" → ∃ m : TSShapeInstance, a.mModel = some m) ∧
      ∀ parentAwake : Bool, ∃ r : Bool × GuiObjectView,
        GuiObjectView.onWake a parentAwake = some r := by
  obtain ⟨a, h1, h2⟩ := GuiObjectView.setObjectModels_name_model E calls
    (GuiObjectView.new mMountTransform mHomePos mHomeZ) (fun h => absurd rfl h)
  exact ⟨a, h1, h2, fun p => GuiObjectView.onWake_of_name_model a p h2⟩

/-- Instance of C26: a fresh view asked for `"player.dts"`, then for a file that fails to
load, then for `"weapon.dts"`, and woken. -/
theorem C26_model_name_implies_model_witness :
    ∃ a : GuiObjectView,
      GuiObjectView.setObjectModels sampleEngine sampleView
        [("player.dts", 0), ("missing.dts", 1), ("weapon.dts", 2)] = some a ∧
      ∃ r : Bool × GuiObjectView, GuiObjectView.onWake a true = some r :=
  (C26_model_name_implies_model sampleEngine MatrixF.identity ⟨0, 0, 0⟩ 0
    [("player.dts", 0), ("missing.dts", 1), ("weapon.dts", 2)]).elim
    fun a ha => ⟨a, ha.1, ha.2.2 true⟩

/-! ### The fade update: divisions and monotonicity -/

theorem F32.ofU32_ne_zero {n : ℕ} (h : 0 < n) : F32.ofU32 n ≠ 0 := by
  have := F32.one_le_ofU32 h
  intro e
  rw [e] at this
  norm_num at this

theorem F32.toU32_mono {a b : ℚ} (h0 : 0 ≤ a) (hab : a ≤ b) (hb : b < 2 ^ 32) :
    F32.toU32 a ≤ F32.toU32 b := by
  have hb0 : 0 ≤ b := le_trans h0 hab
  have fa0 : 0 ≤ ⌊a⌋ := Int.floor_nonneg.mpr h0
  have fab : ⌊a⌋ ≤ ⌊b⌋ := Int.floor_mono hab
  have fb : ⌊b⌋ < 2 ^ 32 := by
    rw [Int.floor_lt]
    exact_mod_cast hb
  unfold F32.toU32
  rw [if_pos h0, if_pos hb0, Int.emod_eq_of_lt fa0 (by omega),
    Int.emod_eq_of_lt (by omega) fb]
  omega

/-- The value of the fade-in expression before truncation grows with the elapsed time and
stays below `2 ^ 32`. -/
theorem fadeIn_value_mono (e1 e2 D : ℕ) (h12 : e1 ≤ e2) (h2 : e2 < D) :
    0 ≤ F32.div (F32.mul 255 (F32.ofU32 e1)) (F32.ofU32 D) ∧
    F32.div (F32.mul 255 (F32.ofU32 e1)) (F32.ofU32 D)
      ≤ F32.div (F32.mul 255 (F32.ofU32 e2)) (F32.ofU32 D) ∧
    F32.div (F32.mul 255 (F32.ofU32 e2)) (F32.ofU32 D) < 2 ^ 32 := by
  have hf10 := F32.ofU32_nonneg e1
  have hf12 := F32.ofU32_mono h12
  have hfD1 : 1 ≤ F32.ofU32 D := F32.one_le_ofU32 (by omega)
  have hf2D := F32.ofU32_mono h2.le
  generalize F32.ofU32 e1 = f1 at hf10 hf12 ⊢
  generalize F32.ofU32 e2 = f2 at hf12 hf2D ⊢
  generalize F32.ofU32 D = fD at hfD1 hf2D ⊢
  have hfD0 : 0 < fD := lt_of_lt_of_le one_pos hfD1
  have hf20 : 0 ≤ f2 := le_trans hf10 hf12
  unfold F32.div F32.mul
  have ha10 : 0 ≤ F32.round (255 * f1) := F32.round_nonneg (by positivity)
  have ha12 : F32.round (255 * f1) ≤ F32.round (255 * f2) :=
    F32.round_mono (by positivity) (by linarith)
  have ha2 : F32.round (255 * f2) ≤ 255 * fD * (1 + (2 : ℚ) ^ (-24 : ℤ)) :=
    le_trans (F32.round_mono (by positivity) (by linarith : 255 * f2 ≤ 255 * fD))
      (F32.round_le_mul (by linarith))
  have hq10 : 0 ≤ F32.round (255 * f1) / fD := div_nonneg ha10 hfD0.le
  have hq12 : F32.round (255 * f1) / fD ≤ F32.round (255 * f2) / fD :=
    div_le_div_of_nonneg_right ha12 hfD0.le
  have hq2 : F32.round (255 * f2) / fD ≤ (511 : ℤ) * (2 : ℚ) ^ (-1 : ℤ) := by
    rw [div_le_iff₀ hfD0]
    have hp : (2 : ℚ) ^ (-24 : ℤ) = 1 / 16777216 := by norm_num
    rw [hp] at ha2
    norm_num
    nlinarith
  have hz := F32.round_mono (le_trans hq10 hq12) hq2
  rw [F32.round_of_rep 511 (-1) (by norm_num) (by norm_num)] at hz
  refine ⟨F32.round_nonneg hq10, F32.round_mono hq10 hq12, ?_⟩
  norm_num at hz ⊢
  linarith

/-- The value of the fade-out expression before truncation falls with the elapsed time and
stays within `[0, 255]`. -/
theorem fadeOut_value_anti (e1 e2 D : ℕ) (h12 : e1 ≤ e2) (h2 : e2 < D) :
    0 ≤ F32.sub 255 (F32.mul 255 (F32.div (F32.ofU32 e2) (F32.ofU32 D))) ∧
    F32.sub 255 (F32.mul 255 (F32.div (F32.ofU32 e2) (F32.ofU32 D)))
      ≤ F32.sub 255 (F32.mul 255 (F32.div (F32.ofU32 e1) (F32.ofU32 D))) ∧
    F32.sub 255 (F32.mul 255 (F32.div (F32.ofU32 e1) (F32.ofU32 D))) < 2 ^ 32 := by
  have hf10 := F32.ofU32_nonneg e1
  have hf12 := F32.ofU32_mono h12
  have hfD1 : 1 ≤ F32.ofU32 D := F32.one_le_ofU32 (by omega)
  have hf2D := F32.ofU32_mono h2.le
  generalize F32.ofU32 e1 = f1 at hf10 hf12 ⊢
  generalize F32.ofU32 e2 = f2 at hf12 hf2D ⊢
  generalize F32.ofU32 D = fD at hfD1 hf2D ⊢
  have hfD0 : 0 < fD := lt_of_lt_of_le one_pos hfD1
  unfold F32.sub F32.mul F32.div
  have ht10 : 0 ≤ f1 / fD := div_nonneg hf10 hfD0.le
  have ht12 : f1 / fD ≤ f2 / fD := div_le_div_of_nonneg_right hf12 hfD0.le
  have ht2 : f2 / fD ≤ 1 := by rw [div_le_one hfD0]; exact hf2D
  have hx10 := F32.round_nonneg ht10
  have hx12 := F32.round_mono ht10 ht12
  have hx2 := F32.round_mono (le_trans ht10 ht12) ht2
  rw [F32.round_one] at hx2
  have hv10 : 0 ≤ 255 * F32.round (f1 / fD) := by positivity
  have hy10 := F32.round_nonneg hv10
  have hy12 : F32.round (255 * F32.round (f1 / fD)) ≤ F32.round (255 * F32.round (f2 / fD)) :=
    F32.round_mono hv10 (by linarith)
  have hy2 := F32.round_mono (by linarith : 0 ≤ 255 * F32.round (f2 / fD))
    (by linarith : 255 * F32.round (f2 / fD) ≤ 255)
  rw [F32.round_255] at hy2
  have hu20 : 0 ≤ 255 - F32.round (255 * F32.round (f2 / fD)) := by linarith
  have hu1 : 255 - F32.round (255 * F32.round (f1 / fD)) ≤ 255 := by linarith
  have hz1 := F32.round_mono (by linarith) hu1
  rw [F32.round_255] at hz1
  refine ⟨F32.round_nonneg hu20, F32.round_mono hu20 (by linarith), ?_⟩
  have : (255 : ℚ) < 2 ^ 32 := by norm_num
  linarith

/-- C27: in each of the three fading controls the fade update evaluates no division by
zero: the update with checked divisions returns the same state as the update itself, since
a division by `fadeinTime` (resp. `fadeoutTime`) is reached only with
`elapsed < fadeinTime` (resp. `fadeoutTime`), which makes the duration positive and its
single-precision value non-zero; with a duration of 0 the first tick of a fade stores the
terminal alpha and returns the mode to Idle. -/
theorem C27_fade_update_never_divides_by_zero (w : FadeWidget) (hw : w ∈ fadeWidgets)
    (s : FadeState) (now now2 : ℕ) :
    fadeUpdateChecked s now now2 = some (w.render s now now2) ∧
    (s.mMode = FadeMode.fadingIn → U32.sub now s.wakeTime < s.fadeinTime →
      0 < s.fadeinTime ∧ F32.ofU32 s.fadeinTime ≠ 0) ∧
    (s.mMode = FadeMode.fadingOut → U32.sub now s.wakeTime < s.fadeoutTime →
      0 < s.fadeoutTime ∧ F32.ofU32 s.fadeoutTime ≠ 0) ∧
    (s.mMode = FadeMode.fadingIn → s.fadeinTime = 0 →
      (w.render s now now2).mAlpha = 255 ∧ (w.render s now now2).mMode = FadeMode.idle) ∧
    (s.mMode = FadeMode.fadingOut → s.fadeoutTime = 0 →
      (w.render s now now2).mAlpha = 0 ∧ (w.render s now now2).mMode = FadeMode.idle) := by
  obtain ⟨-, -, -, hr, -, -⟩ := fadeWidgets_cases w hw
  rw [hr]
  refine ⟨?_, ?_, ?_, ?_, ?_⟩
  · unfold fadeUpdateChecked
    dsimp only
    by_cases h1 : s.mMode = FadeMode.fadingIn
    · by_cases hlt : U32.sub now s.wakeTime < s.fadeinTime
      · rw [if_pos h1, if_pos hlt, if_neg (F32.ofU32_ne_zero (by omega)),
          GuiFadingBitmapCtrl.onRender_fadingIn_lt s now now2 h1 hlt]
      · rw [if_pos h1, if_neg hlt,
          GuiFadingBitmapCtrl.onRender_fadingIn_ge s now now2 h1 (not_lt.mp hlt)]
    · by_cases h2 : s.mMode = FadeMode.fadingOut
      · by_cases hlt : U32.sub now s.wakeTime < s.fadeoutTime
        · rw [if_neg h1, if_pos h2, if_pos hlt, if_neg (F32.ofU32_ne_zero (by omega)),
            GuiFadingBitmapCtrl.onRender_fadingOut_lt s now now2 h2 hlt]
        · rw [if_neg h1, if_pos h2, if_neg hlt,
            GuiFadingBitmapCtrl.onRender_fadingOut_ge s now now2 h2 (not_lt.mp hlt)]
      · rw [if_neg h1, if_neg h2]
        have : GuiFadingBitmapCtrl.onRender s now now2 = s := by
          simp [GuiFadingBitmapCtrl.onRender, h1, h2]
        rw [this]
  · intro _ hlt
    exact ⟨by omega, F32.ofU32_ne_zero (by omega)⟩
  · intro _ hlt
    exact ⟨by omega, F32.ofU32_ne_zero (by omega)⟩
  · intro h1 h0
    rw [GuiFadingBitmapCtrl.onRender_fadingIn_ge s now now2 h1 (by omega)]
    exact ⟨rfl, rfl⟩
  · intro h1 h0
    rw [GuiFadingBitmapCtrl.onRender_fadingOut_ge s now now2 h1 (by omega)]
    exact ⟨rfl, rfl⟩

/-- Instance of C27: a `GuiFadingBitmapCtrl` with fade-in time 0, fading in since time 10,
rendered at time 10: alpha 255, mode Idle. -/
theorem C27_fade_update_never_divides_by_zero_witness :
    fadeUpdateChecked ⟨10, 0, 1000, 0, FadeMode.fadingIn, false⟩ 10 11
      = some (GuiFadingBitmapCtrl.onRender ⟨10, 0, 1000, 0, FadeMode.fadingIn, false⟩ 10 11) ∧
    (GuiFadingBitmapCtrl.onRender ⟨10, 0, 1000, 0, FadeMode.fadingIn, false⟩ 10 11).mAlpha
      = 255 :=
  have h := C27_fade_update_never_divides_by_zero GuiFadingBitmapCtrl.widget
    (by simp [fadeWidgets]) ⟨10, 0, 1000, 0, FadeMode.fadingIn, false⟩ 10 11
  ⟨h.1, (h.2.2.2.1 rfl rfl).1⟩

/-- C28: in each of the three fading controls, for any durations, of two render ticks of the
same fade with elapsed times `e1 ≤ e2` the later one stores the larger or equal alpha
during a fade-in and the smaller or equal alpha during a fade-out. -/
theorem C28_alpha_monotone_in_elapsed (w : FadeWidget) (hw : w ∈ fadeWidgets)
    (s : FadeState) (now1 now2 c1 c2 : ℕ)
    (h12 : U32.sub now1 s.wakeTime ≤ U32.sub now2 s.wakeTime) :
    (s.mMode = FadeMode.fadingIn →
      (w.render s now1 c1).mAlpha ≤ (w.render s now2 c2).mAlpha) ∧
    (s.mMode = FadeMode.fadingOut →
      (w.render s now2 c2).mAlpha ≤ (w.render s now1 c1).mAlpha) := by
  obtain ⟨-, -, -, hr, -, -⟩ := fadeWidgets_cases w hw
  rw [hr]
  constructor
  · intro hm
    by_cases hlt2 : U32.sub now2 s.wakeTime < s.fadeinTime
    · have hlt1 : U32.sub now1 s.wakeTime < s.fadeinTime := lt_of_le_of_lt h12 hlt2
      rw [GuiFadingBitmapCtrl.onRender_fadingIn_lt s now1 c1 hm hlt1,
        GuiFadingBitmapCtrl.onRender_fadingIn_lt s now2 c2 hm hlt2]
      obtain ⟨a, b, c⟩ := fadeIn_value_mono _ _ _ h12 hlt2
      exact F32.toU32_mono a b c
    · rw [GuiFadingBitmapCtrl.onRender_fadingIn_ge s now2 c2 hm (not_lt.mp hlt2)]
      by_cases hlt1 : U32.sub now1 s.wakeTime < s.fadeinTime
      · rw [GuiFadingBitmapCtrl.onRender_fadingIn_lt s now1 c1 hm hlt1]
        exact fadeIn_expr_le _ _ hlt1
      · rw [GuiFadingBitmapCtrl.onRender_fadingIn_ge s now1 c1 hm (not_lt.mp hlt1)]
  · intro hm
    by_cases hlt2 : U32.sub now2 s.wakeTime < s.fadeoutTime
    · have hlt1 : U32.sub now1 s.wakeTime < s.fadeoutTime := lt_of_le_of_lt h12 hlt2
      rw [GuiFadingBitmapCtrl.onRender_fadingOut_lt s now1 c1 hm hlt1,
        GuiFadingBitmapCtrl.onRender_fadingOut_lt s now2 c2 hm hlt2]
      obtain ⟨a, b, c⟩ := fadeOut_value_anti _ _ _ h12 hlt2
      exact F32.toU32_mono a b c
    · rw [GuiFadingBitmapCtrl.onRender_fadingOut_ge s now2 c2 hm (not_lt.mp hlt2)]
      exact Nat.zero_le _

/-- Instance of C28: a `GuiFadingButtonCtrl` fading in over three days since time 0, rendered
after one day and after two days. -/
theorem C28_alpha_monotone_in_elapsed_witness :
    (GuiFadingButtonCtrl.onRender ⟨0, 259200000, 1000, 0, FadeMode.fadingIn, false⟩
        86400000 86400000).mAlpha
      ≤ (GuiFadingButtonCtrl.onRender ⟨0, 259200000, 1000, 0, FadeMode.fadingIn, false⟩
        172800000 172800000).mAlpha :=
  (C28_alpha_monotone_in_elapsed GuiFadingButtonCtrl.widget (by simp [fadeWidgets])
    ⟨0, 259200000, 1000, 0, FadeMode.fadingIn, false⟩ 86400000 172800000 86400000 172800000
    (by decide)).1 rfl

/-! ### Mouse states, and the three copies of the fade update -/

/-- C29: `onMouseDragged` returns the view unchanged unless the mouse state is Rotating,
`onRightMouseDragged` returns it unchanged unless the mouse state is Zooming, `onMouseDown`
enters Rotating when the control is active, visible and awake and otherwise returns the
view unchanged, and `onMouseUp` and `onRightMouseUp` set the mouse state to None and change
nothing else. -/
theorem C29_handlers_act_in_own_mouse_state (s : GuiObjectView) (event : GuiEvent)
    (mActive mVisible mAwake : Bool) :
    (s.mMouseState ≠ MouseState.Rotating → GuiObjectView.onMouseDragged s event = s) ∧
    (s.mMouseState ≠ MouseState.Zooming →
      GuiObjectView.onRightMouseDragged s event = some s) ∧
    (mActive = true → mVisible = true → mAwake = true →
      GuiObjectView.onMouseDown s mActive mVisible mAwake event
        = { s with mMouseState := MouseState.Rotating, mLastMousePoint := event.mousePoint }) ∧
    (mActive = false ∨ mVisible = false ∨ mAwake = false →
      GuiObjectView.onMouseDown s mActive mVisible mAwake event = s) ∧
    GuiObjectView.onMouseUp s = { s with mMouseState := MouseState.None } ∧
    GuiObjectView.onRightMouseUp s = { s with mMouseState := MouseState.None } := by
  refine ⟨?_, ?_, ?_, ?_, rfl, rfl⟩
  · intro h
    unfold GuiObjectView.onMouseDragged
    rw [if_pos h]
  · intro h
    unfold GuiObjectView.onRightMouseDragged
    rw [if_pos h]
  · intro h1 h2 h3
    subst h1 h2 h3
    rfl
  · intro h
    unfold GuiObjectView.onMouseDown
    rcases h with h | h | h <;> subst h <;> simp

/-- Instance of C29: a fresh view, whose mouse state is None, ignores both drags; the
primary button then puts it into the Rotating state. -/
theorem C29_handlers_act_in_own_mouse_state_witness :
    GuiObjectView.onMouseDragged sampleView ⟨⟨7, 7⟩⟩ = sampleView ∧
    GuiObjectView.onRightMouseDragged sampleView ⟨⟨7, 7⟩⟩ = some sampleView ∧
    (GuiObjectView.onMouseDown sampleView true true true ⟨⟨7, 7⟩⟩).mMouseState
      = MouseState.Rotating :=
  have h := C29_handlers_act_in_own_mouse_state sampleView ⟨⟨7, 7⟩⟩ true true true
  ⟨h.1 (by decide), h.2.1 (by decide), by rw [h.2.2.1 rfl rfl rfl]⟩

/-- C30: the fade update of `GuiFadingBitmapCtrl::onRender`, of
`GuiFadingButtonCtrl::onRender` and of `GuiFadingBitmapButtonCtrl::renderButton` give the
same state for every state and clock values, and so do the three `fadeIn`, `fadeOut` and
`setMode`; the three constructors give mode Idle, alpha 255, both durations 1000, wake time
0 and `fadeInOnWake` false. -/
theorem C30_fade_update_same_in_all_widgets (s : FadeState) (mode : FadeMode)
    (now now2 : ℕ) :
    GuiFadingButtonCtrl.onRender s now now2 = GuiFadingBitmapCtrl.onRender s now now2 ∧
    GuiFadingBitmapButtonCtrl.renderButton s now now2
      = GuiFadingBitmapCtrl.onRender s now now2 ∧
    GuiFadingButtonCtrl.fadeIn s now = GuiFadingBitmapCtrl.fadeIn s now ∧
    GuiFadingBitmapButtonCtrl.fadeIn s now = GuiFadingBitmapCtrl.fadeIn s now ∧
    GuiFadingButtonCtrl.fadeOut s now = GuiFadingBitmapCtrl.fadeOut s now ∧
    GuiFadingBitmapButtonCtrl.fadeOut s now = GuiFadingBitmapCtrl.fadeOut s now ∧
    GuiFadingButtonCtrl.setMode s mode now = GuiFadingBitmapCtrl.setMode s mode now ∧
    GuiFadingBitmapButtonCtrl.setMode s mode now = GuiFadingBitmapCtrl.setMode s mode now ∧
    GuiFadingBitmapCtrl.new = ⟨0, 1000, 1000, 255, FadeMode.idle, false⟩ ∧
    GuiFadingButtonCtrl.new = ⟨0, 1000, 1000, 255, FadeMode.idle, false⟩ ∧
    GuiFadingBitmapButtonCtrl.new = ⟨0, 1000, 1000, 255, FadeMode.idle, false⟩ := by
  exact ⟨rfl, rfl, rfl, rfl, rfl, rfl, rfl, rfl, rfl, rfl, rfl⟩
